import Mathlib

/-!
# go-ddd-crud: the change-feed relay

A shallow embedding of the change-stream watcher
(`internal/infrastructure/mongodb/user_watcher.go`), the entity conversion
(`internal/infrastructure/mongodb/user_repository.go`) and the dispatch loop of the
service (`internal/domain/user/service.go`).

Conventions.
* A Go pointer that may be nil is an `Option`.
* `time.Time` is an integer count of nanoseconds.
* The BSON library is outside the repository.  A document is kept as its list of
  elements, `Lookup` is the first element with the key, and `bson.Unmarshal` into a
  `UserEntity` is a parameter `unmarshal` of every definition that calls it.
* Everything the environment decides (what the cursor yields, the fresh uuid, which
  case of a `select` fires) is an explicit input.
-/

namespace GoDddCrud

/-! ## Domain model (`internal/domain/user/models.go`) -/

/-- Go `time.Time`, as a count of nanoseconds. -/
abbrev Time := Int

/-- The struct `domain.User`. -/
structure User where
  ID : String
  FirstName : String
  LastName : String
  Email : String
  HashedPassword : String
  Country : String
  Nickname : String
  CreatedAt : Time
  UpdatedAt : Time
  deriving DecidableEq, Repr

/-- The type `domain.OperationType`, an `int32`. -/
abbrev OperationType := Int

def OPERATION_UNSPECIFIED : OperationType := 0

def OPERATION_CREATE : OperationType := 1

def OPERATION_UPDATE : OperationType := 2

def OPERATION_DELETE : OperationType := 3

/-- The struct `domain.UserEvent`. -/
structure UserEvent where
  Id : String
  UserId : String
  BeforeChange : Option User
  AfterChange : Option User
  OperationType : OperationType
  deriving DecidableEq, Repr

/-! ## Store entity (`internal/infrastructure/mongodb/user_model.go`) -/

/-- The struct `mongodb.UserEntity`. -/
structure UserEntity where
  ID : String
  FirstName : String
  LastName : String
  Email : String
  HashedPassword : String
  Country : String
  Nickname : String
  CreatedAt : Time
  UpdatedAt : Time
  deriving DecidableEq, Repr

/-- The function `userToDomain` of `user_repository.go`: nil goes to nil, and the
`HashedPassword` of the result is left at its zero value. -/
def userToDomain (u : Option UserEntity) : Option User :=
  match u with
  | none => none
  | some u =>
    some
      { ID := u.ID
        FirstName := u.FirstName
        LastName := u.LastName
        Email := u.Email
        HashedPassword := ""
        Country := u.Country
        Nickname := u.Nickname
        CreatedAt := u.CreatedAt
        UpdatedAt := u.UpdatedAt }

/-! ## BSON values, as far as the watcher looks at them -/

/-- A BSON value.  Only the constructor tells the watcher anything: it tests for an
embedded document and for a string. -/
inductive BsonValue where
  | null
  | boolean (b : Bool)
  | int64 (n : Int)
  | string (s : String)
  | dateTime (ms : Int)
  | embeddedDocument (value : List (String × BsonValue))

/-- A raw BSON document (`bson.Raw`), as its elements in order. -/
abbrev Raw := List (String × BsonValue)

/-- The method `bson.Raw.Lookup` for one key: the value of the first element with that
key.  `none` stands for the zero `RawValue` returned when the key is absent, whose
type is neither embedded document nor string. -/
def Raw.Lookup (doc : Raw) (key : String) : Option BsonValue :=
  match doc.find? (fun e => e.1 == key) with
  | some e => some e.2
  | none => none

/-- The method `RawValue.StringValue`: the string if the value is a string; the
library panics on every other type, which is the `error` result here. -/
def StringValue (v : Option BsonValue) : Except String String :=
  match v with
  | some (BsonValue.string s) => Except.ok s
  | _ => Except.error "StringValue: value is not a string"

/-- The type of `bson.Unmarshal` into a `UserEntity`: an error or the decoded entity. -/
abbrev Unmarshal := Raw → Except String UserEntity

/-! ## The watcher (`internal/infrastructure/mongodb/user_watcher.go`) -/

/-- The function `operationToEnum`. -/
def operationToEnum (operationType : String) : OperationType :=
  if operationType = "insert" then OPERATION_CREATE
  else if operationType = "update" then OPERATION_UPDATE
  else if operationType = "delete" then OPERATION_DELETE
  else OPERATION_UNSPECIFIED

/-- The method `determineUserID`. -/
def determineUserID (beforeChange afterChange : Option UserEntity) : String :=
  match beforeChange with
  | some b => b.ID
  | none =>
    match afterChange with
    | some a => a.ID
    | none => ""

/-- The method `decodeChangeDocuments`: the pair `(afterChange, beforeChange)`.  A side
is set only when its field is an embedded document and `unmarshal` succeeds on it; a
failure is logged and the side stays nil. -/
def decodeChangeDocuments (unmarshal : Unmarshal) (changeDoc : Raw) :
    Option UserEntity × Option UserEntity :=
  let afterChange : Option UserEntity :=
    match changeDoc.Lookup "fullDocument" with
    | some (BsonValue.embeddedDocument value) =>
      match unmarshal value with
      | Except.error _ => none
      | Except.ok usr => some usr
    | _ => none
  let beforeChange : Option UserEntity :=
    match changeDoc.Lookup "fullDocumentBeforeChange" with
    | some (BsonValue.embeddedDocument value) =>
      match unmarshal value with
      | Except.error _ => none
      | Except.ok previousUser => some previousUser
    | _ => none
  (afterChange, beforeChange)

/-- What one call of `changeStream.Next` leaves behind. -/
inductive NextResult where
  /-- The call of `Next` returned true; `current` is `changeStream.Current`, nil being
  `none`. -/
  | record (current : Option Raw)
  /-- The call of `Next` returned false; `err` is `changeStream.Err()`. -/
  | stopped (err : Option String)

/-- Which case of the push `select` fires. -/
inductive PushResult where
  /-- The consumer received the event from `w.userEvents`. -/
  | received
  /-- The case `ctx.Done()` fired; `ctxErr` is `ctx.Err()`. -/
  | done (ctxErr : String)

/-- How a call of `processNextChange` ends. -/
inductive ProcessResult where
  /-- The call returned `err` (`none` is nil); `pushed` is the event it handed over to
  the channel, if it handed one over. -/
  | returned (err : Option String) (pushed : Option UserEvent)
  /-- The call panicked. -/
  | panicked (msg : String)
  deriving DecidableEq, Repr

/-- The method `processNextChange`.  `next` is what the cursor yields, `newId` the
string of the fresh uuid, `push` the case of the push `select` that fires.  What the
call hands to the logger is `processNextChange.logs`. -/
def processNextChange (unmarshal : Unmarshal) (next : NextResult) (newId : String)
    (push : PushResult) : ProcessResult :=
  match next with
  | NextResult.record none => ProcessResult.returned none none
  | NextResult.record (some changeDoc) =>
    let decoded := decodeChangeDocuments unmarshal changeDoc
    let afterChange := decoded.1
    let beforeChange := decoded.2
    let userID := determineUserID beforeChange afterChange
    match StringValue (changeDoc.Lookup "operationType") with
    | Except.error msg => ProcessResult.panicked msg
    | Except.ok operationType =>
      let userEvent : UserEvent :=
        { Id := newId
          UserId := userID
          BeforeChange := userToDomain beforeChange
          AfterChange := userToDomain afterChange
          OperationType := operationToEnum operationType }
      match push with
      | PushResult.received => ProcessResult.returned none (some userEvent)
      | PushResult.done ctxErr => ProcessResult.returned (some ctxErr) none
  | NextResult.stopped (some err) =>
    ProcessResult.returned (some ("change stream error: " ++ err)) none
  | NextResult.stopped none => ProcessResult.returned none none

/-- What the environment decides during one pass of the loop of `WatchUsers`. -/
structure Iteration where
  /-- Whether `ctx.Done()` is ready at the `select` that opens the pass. -/
  done : Bool
  /-- What the cursor yields if `processNextChange` is called. -/
  next : NextResult
  /-- The fresh uuid, as a string. -/
  newId : String
  /-- The case of the push `select` that fires if an event is pushed. -/
  push : PushResult

/-- Why the goroutine of `WatchUsers` returned. -/
inductive CloseReason where
  /-- The call of `openChangeStream` failed. -/
  | openFailed (err : String)
  /-- The case `ctx.Done()` fired at the `select` that opens a pass. -/
  | cancelled
  /-- A call of `processNextChange` returned the error `err`. -/
  | processError (err : String)
  /-- A call of `processNextChange` panicked. -/
  | panicked (msg : String)
  deriving DecidableEq, Repr

/-- Where the goroutine of `WatchUsers` stands. -/
inductive WatcherState where
  /-- The goroutine is in its loop. -/
  | streaming
  /-- The goroutine returned, and the deferred `close(w.userEvents)` ran. -/
  | closed (reason : CloseReason)
  deriving DecidableEq, Repr

/-- A run of the goroutine of `WatchUsers`, as seen from outside. -/
structure WatchRun where
  /-- The events received from `w.userEvents`, oldest first. -/
  events : List UserEvent
  /-- The number of calls of `changeStream.Next`. -/
  reads : Nat
  /-- The state at the end of the run. -/
  state : WatcherState
  deriving DecidableEq, Repr

/-- Whether `w.userEvents` has been closed. -/
def WatchRun.channelClosed (r : WatchRun) : Bool :=
  match r.state with
  | WatcherState.streaming => false
  | WatcherState.closed _ => true

/-- The `for` loop in the goroutine of `WatchUsers`, run over the passes the
environment supplies.  When the passes run out with the loop still going, the state
is `streaming`. -/
def watchLoop (unmarshal : Unmarshal) : List Iteration → WatchRun
  | [] => { events := [], reads := 0, state := WatcherState.streaming }
  | it :: rest =>
    if it.done then
      { events := [], reads := 0, state := WatcherState.closed CloseReason.cancelled }
    else
      match processNextChange unmarshal it.next it.newId it.push with
      | ProcessResult.panicked msg =>
        { events := [], reads := 1, state := WatcherState.closed (CloseReason.panicked msg) }
      | ProcessResult.returned (some err) pushed =>
        { events := pushed.toList, reads := 1,
          state := WatcherState.closed (CloseReason.processError err) }
      | ProcessResult.returned none pushed =>
        let r := watchLoop unmarshal rest
        { events := pushed.toList ++ r.events, reads := 1 + r.reads, state := r.state }

/-- The goroutine started by `WatchUsers`.  `openErr` is the error of
`openChangeStream` (`none` is nil). -/
def WatchUsers (unmarshal : Unmarshal) (openErr : Option String) (its : List Iteration) :
    WatchRun :=
  match openErr with
  | some err =>
    { events := [], reads := 0, state := WatcherState.closed (CloseReason.openFailed err) }
  | none => watchLoop unmarshal its

/-- The states of the lifecycle of the watcher, as positions in the goroutine of
`WatchUsers`: `INIT` up to the return of `openChangeStream`, `STREAMING` inside the
`for` loop, `CLOSED` after the goroutine returned and `close(w.userEvents)` ran. -/
inductive Phase where
  | INIT
  | STREAMING
  | CLOSED (reason : CloseReason)
  deriving DecidableEq, Repr

/-- The state of the goroutine after each pass of the `for` loop of `WatchUsers`, one
entry per pass that runs. -/
def loopPhases (unmarshal : Unmarshal) : List Iteration → List Phase
  | [] => []
  | it :: rest =>
    if it.done then [Phase.CLOSED CloseReason.cancelled]
    else
      match processNextChange unmarshal it.next it.newId it.push with
      | ProcessResult.panicked msg => [Phase.CLOSED (CloseReason.panicked msg)]
      | ProcessResult.returned (some err) _ => [Phase.CLOSED (CloseReason.processError err)]
      | ProcessResult.returned none _ => Phase.STREAMING :: loopPhases unmarshal rest

/-- The states the goroutine of `WatchUsers` goes through, oldest first: `INIT`, then
`CLOSED` at once if `openChangeStream` fails, otherwise `STREAMING` followed by the
state after each pass. -/
def WatchUsers.phases (unmarshal : Unmarshal) (openErr : Option String)
    (its : List Iteration) : List Phase :=
  match openErr with
  | some err => [Phase.INIT, Phase.CLOSED (CloseReason.openFailed err)]
  | none => Phase.INIT :: Phase.STREAMING :: loopPhases unmarshal its

/-! ## What the watcher logs -/

/-- The levels of `logrus.Level` the watcher logs at. -/
inductive logrus.Level where
  | ErrorLevel
  | WarnLevel
  | InfoLevel
  | DebugLevel
  deriving DecidableEq, Repr

/-- The number of a `logrus.Level`; the more severe level has the smaller number. -/
def logrus.Level.toNat : logrus.Level → Nat
  | logrus.Level.ErrorLevel => 2
  | logrus.Level.WarnLevel => 3
  | logrus.Level.InfoLevel => 4
  | logrus.Level.DebugLevel => 5

/-- The library method `Logger.IsLevelEnabled`: an entry at `level` is written when
the level of the logger is at least `level`. -/
def IsLevelEnabled (loggerLevel level : logrus.Level) : Bool :=
  decide (level.toNat ≤ loggerLevel.toNat)

/-- An entry handed to the logger: its level and its message. -/
structure Entry where
  level : logrus.Level
  message : String
  deriving DecidableEq, Repr

/-- The verb `%v` on a `UserEntity`: the values of its nine fields in order, between
braces and separated by blanks; `timeString` is the method `Time.String`. -/
def UserEntity.format (timeString : Time → String) (u : UserEntity) : String :=
  "\x7b" ++ u.ID ++ " " ++ u.FirstName ++ " " ++ u.LastName ++ " " ++ u.Email ++ " " ++
    u.HashedPassword ++ " " ++ u.Country ++ " " ++ u.Nickname ++ " " ++
    timeString u.CreatedAt ++ " " ++ timeString u.UpdatedAt ++ "\x7d"

/-- The entries `decodeChangeDocuments` hands to the logger, in order. -/
def decodeChangeDocuments.logs (timeString : Time → String) (unmarshal : Unmarshal)
    (changeDoc : Raw) : List Entry :=
  let after : List Entry :=
    match changeDoc.Lookup "fullDocument" with
    | some (BsonValue.embeddedDocument value) =>
      match unmarshal value with
      | Except.error err =>
        [{ level := logrus.Level.WarnLevel,
           message := "Failed to decode user document: " ++ err }]
      | Except.ok usr =>
        [{ level := logrus.Level.DebugLevel,
           message := "User decoded successfully: " ++ usr.format timeString }]
    | _ =>
      [{ level := logrus.Level.DebugLevel, message := "No fullDocument in change stream." }]
  let before : List Entry :=
    match changeDoc.Lookup "fullDocumentBeforeChange" with
    | some (BsonValue.embeddedDocument value) =>
      match unmarshal value with
      | Except.error err =>
        [{ level := logrus.Level.WarnLevel,
           message := "Failed to decode previous user document: " ++ err }]
      | Except.ok previousUser =>
        [{ level := logrus.Level.DebugLevel,
           message := "Previous user decoded successfully: " ++
             previousUser.format timeString }]
    | _ =>
      [{ level := logrus.Level.DebugLevel,
         message := "No previous fullDocumentBeforeChange in change stream." }]
  after ++ before

/-- The entries a call of `processNextChange` hands to the logger, in order: the
change document, then those of `decodeChangeDocuments`; `rawString` is the method
`bson.Raw.String`.  Nothing is logged when the cursor yields no document. -/
def processNextChange.logs (rawString : Raw → String) (timeString : Time → String)
    (unmarshal : Unmarshal) (next : NextResult) : List Entry :=
  match next with
  | NextResult.record (some changeDoc) =>
    { level := logrus.Level.DebugLevel, message := "Change doc: " ++ rawString changeDoc } ::
      decodeChangeDocuments.logs timeString unmarshal changeDoc
  | _ => []

/-- The entries a logger set to `loggerLevel` writes out of those handed to it. -/
def written (loggerLevel : logrus.Level) (entries : List Entry) : List Entry :=
  entries.filter (fun e => IsLevelEnabled loggerLevel e.level)

/-- The level `init` of `cmd/server/main.go` sets with `log.SetLevel`. -/
def serverLevel : logrus.Level := logrus.Level.DebugLevel

/-- The level the comment above that call names: "Only log the warning severity or
above." -/
def commentLevel : logrus.Level := logrus.Level.WarnLevel

/-! ## The hand-off on `w.userEvents` -/

/-- A Go channel of events: its capacity, the events in its buffer, oldest first, and
whether it has been closed. -/
structure Chan where
  cap : Nat
  buf : List UserEvent
  closed : Bool
  deriving DecidableEq, Repr

/-- The struct `UsersChangeStreamWatcher`, without the collection. -/
structure UsersChangeStreamWatcher where
  userEvents : Chan
  deriving DecidableEq, Repr

/-- The function `NewChangeStreamWatcher`: `make(chan *domain.UserEvent)` gives a
channel of capacity zero. -/
def NewChangeStreamWatcher : UsersChangeStreamWatcher :=
  { userEvents := { cap := 0, buf := [], closed := false } }

/-- Where the goroutine of `WatchUsers` stands once the change stream is open. -/
inductive WatcherPc where
  /-- At the `select` that opens a pass of the loop. -/
  | loopTop
  /-- Blocked in the push `select` of `processNextChange` with the event built. -/
  | pushing (userEvent : UserEvent)
  /-- Returned; the deferred `close(w.userEvents)` ran. -/
  | returned
  /-- Ended by a panic on the channel: a send on a closed channel, or the deferred
  `close` of a channel already closed. -/
  | panicked
  deriving DecidableEq, Repr

/-- The watcher, its channel and the receiving end of the dispatch loop. -/
structure Handoff where
  /-- The position of the goroutine of the watcher. -/
  pc : WatcherPc
  /-- The channel `w.userEvents`. -/
  userEvents : Chan
  /-- The events the dispatch loop has received, oldest first. -/
  received : List UserEvent
  /-- The number of calls of `changeStream.Next`. -/
  reads : Nat
  deriving DecidableEq, Repr

/-- One step of the watcher, of the channel or of the dispatch loop. -/
inductive Action where
  /-- The watcher runs from the top of a pass to the push `select`, to the next pass
  or to its return; `done`, `next` and `newId` are as in `Iteration`. -/
  | pass (done : Bool) (next : NextResult) (newId : String)
  /-- The send case of the push `select` completes into the buffer. -/
  | send
  /-- The send case of the push `select` completes with the dispatch loop receiving. -/
  | handOver
  /-- The dispatch loop receives the oldest buffered event. -/
  | receive
  /-- The case `ctx.Done()` of the push `select` fires; `ctxErr` is `ctx.Err()`. -/
  | ctxDone (ctxErr : String)
  /-- The send case of the push `select` is taken on a closed channel. -/
  | sendOnClosed

/-- The goroutine returns and the deferred `close(w.userEvents)` runs: on an open
channel the position is `returned` and the channel is closed; on a channel already
closed the `close` panics. -/
def Handoff.finish (st : Handoff) : Handoff :=
  if st.userEvents.closed then { st with pc := WatcherPc.panicked }
  else
    { st with pc := WatcherPc.returned, userEvents := { st.userEvents with closed := true } }

/-- The effect of one action, `none` when the action cannot happen in the state.  A
send completes into the buffer only while the buffer has room, and completes with the
receiver only on a channel of capacity zero, as Go specifies for channels; on a closed
channel a send does neither and panics; the event a pass builds is the one
`processNextChange` pushes when the consumer receives. -/
def Handoff.step (unmarshal : Unmarshal) (st : Handoff) (a : Action) : Option Handoff :=
  match a, st.pc with
  | Action.pass done next newId, WatcherPc.loopTop =>
    if done then some st.finish
    else
      match processNextChange unmarshal next newId PushResult.received with
      | ProcessResult.panicked _ => some { st.finish with reads := st.reads + 1 }
      | ProcessResult.returned (some _) _ => some { st.finish with reads := st.reads + 1 }
      | ProcessResult.returned none none => some { st with reads := st.reads + 1 }
      | ProcessResult.returned none (some userEvent) =>
        some { st with pc := WatcherPc.pushing userEvent, reads := st.reads + 1 }
  | Action.send, WatcherPc.pushing userEvent =>
    if st.userEvents.closed then none
    else if st.userEvents.buf.length < st.userEvents.cap then
      some
        { st with
            pc := WatcherPc.loopTop
            userEvents := { st.userEvents with buf := st.userEvents.buf ++ [userEvent] } }
    else none
  | Action.handOver, WatcherPc.pushing userEvent =>
    if st.userEvents.closed then none
    else if st.userEvents.cap = 0 then
      some { st with pc := WatcherPc.loopTop, received := st.received ++ [userEvent] }
    else none
  | Action.sendOnClosed, WatcherPc.pushing _ =>
    if st.userEvents.closed then some { st with pc := WatcherPc.panicked } else none
  | Action.receive, _ =>
    match st.userEvents.buf with
    | [] => none
    | userEvent :: rest =>
      some
        { st with
            userEvents := { st.userEvents with buf := rest }
            received := st.received ++ [userEvent] }
  | Action.ctxDone _, WatcherPc.pushing _ => some st.finish
  | _, _ => none

/-- The effect of a sequence of actions, `none` when one of them cannot happen. -/
def Handoff.run (unmarshal : Unmarshal) (st : Handoff) : List Action → Option Handoff
  | [] => some st
  | a :: rest =>
    match Handoff.step unmarshal st a with
    | none => none
    | some st2 => Handoff.run unmarshal st2 rest

/-- The state in which the loop of `WatchUsers` starts on the channel of `w`. -/
def Handoff.start (w : UsersChangeStreamWatcher) : Handoff :=
  { pc := WatcherPc.loopTop, userEvents := w.userEvents, received := [], reads := 0 }

/-- The number of events in flight: built by the watcher and neither received by the
dispatch loop nor dropped. -/
def Handoff.inFlight (st : Handoff) : Nat :=
  st.userEvents.buf.length +
    (match st.pc with
     | WatcherPc.pushing _ => 1
     | _ => 0)

/-- The state after a pass that ended the loop having called `changeStream.Next`. -/
def Handoff.finishRead (st : Handoff) : Handoff :=
  { pc := st.finish.pc, userEvents := st.finish.userEvents, received := st.finish.received,
    reads := st.reads + 1 }

/-- The state after a pass that called `changeStream.Next` and goes on at `pc`. -/
def Handoff.afterRead (st : Handoff) (pc : WatcherPc) : Handoff :=
  { pc := pc, userEvents := st.userEvents, received := st.received, reads := st.reads + 1 }

/-- The method `WatchUsers`, as to the channel it returns: the field `userEvents`, made
once by `NewChangeStreamWatcher`; the goroutine it starts works on the same field. -/
def UsersChangeStreamWatcher.WatchUsers (w : UsersChangeStreamWatcher) : Chan :=
  w.userEvents

/-! ## The dispatch loop (`internal/domain/user/service.go`) -/

/-- A `domain.UserProducer` with internal state `σ`: `SendMessage` takes the state and
the event to the new state and the error returned (`none` is nil). -/
abbrev SendMessage (σ : Type) := σ → UserEvent → σ × Option String

/-- The observable state of the goroutine started by `StartWatchingUsers`. -/
structure DispatchState (σ : Type) where
  /-- The state of the producer. -/
  producer : σ
  /-- The arguments of the calls of `SendMessage` made so far, oldest first. -/
  calls : List UserEvent
  /-- The lines written by `log.Errorf`, oldest first. -/
  logs : List String

/-- The body of the `for ... range userEvents` loop, for one received event. -/
def dispatchOne {σ : Type} (send : SendMessage σ) (st : DispatchState σ)
    (userEvent : UserEvent) : DispatchState σ :=
  let r := send st.producer userEvent
  match r.2 with
  | some err =>
    { producer := r.1
      calls := st.calls ++ [userEvent]
      logs := st.logs ++ ["Error sending user event: " ++ err] }
  | none => { producer := r.1, calls := st.calls ++ [userEvent], logs := st.logs }

/-- The loop `for userEvent := range userEvents`, over the events received before the
channel is closed. -/
def dispatchLoop {σ : Type} (send : SendMessage σ) (st : DispatchState σ) :
    List UserEvent → DispatchState σ
  | [] => st
  | userEvent :: rest => dispatchLoop send (dispatchOne send st userEvent) rest

/-- The method `StartWatchingUsers`: the events of the run of the watcher are handed to
the dispatch loop one by one. -/
def StartWatchingUsers {σ : Type} (unmarshal : Unmarshal) (send : SendMessage σ)
    (producer : σ) (openErr : Option String) (its : List Iteration) : DispatchState σ :=
  dispatchLoop send { producer := producer, calls := [], logs := [] }
    (WatchUsers unmarshal openErr its).events

/-! ## The producer (`internal/infrastructure/kafka/user_producer.go`) -/

/-- The library type `timestamppb.Timestamp`: whole seconds and the nanoseconds within
the second. -/
structure Timestamp where
  Seconds : Int
  Nanos : Int
  deriving DecidableEq, Repr

/-- The library function `timestamppb.New`: `t.Unix()` and `t.Nanosecond()` of the
instant `t`, here counted in nanoseconds from the Unix epoch. -/
def timestamppb.New (t : Time) : Timestamp :=
  { Seconds := t / 1000000000, Nanos := t % 1000000000 }

/-- Modelled from the spec: the generated message `pb.User` is not in the source
tree; its fields are those `userToProto` fills, an entity snapshot with identity,
attribute fields and created/updated timestamps. -/
structure pb.User where
  Id : String
  FirstName : String
  LastName : String
  Email : String
  Country : String
  Nickname : String
  CreatedAt : Option Timestamp
  UpdatedAt : Option Timestamp
  deriving DecidableEq, Repr

/-- Modelled from the spec: the generated enum `pb.OperationType` is not in the source
tree; it has the four values the spec lists, under the names `operationTypeToProto`
returns. -/
inductive pb.OperationType where
  | OPERATION_UNSPECIFIED
  | OPERATION_CREATE
  | OPERATION_UPDATE
  | OPERATION_DELETE
  deriving DecidableEq, Repr

/-- Modelled from the spec: the generated message `pb.UserEvent` is not in the source
tree; its fields are those `userEventToProto` fills: event id, subject id, optional
before and after snapshots, operation type. -/
structure pb.UserEvent where
  Id : String
  UserId : String
  BeforeChange : Option pb.User
  AfterChange : Option pb.User
  OperationType : pb.OperationType
  deriving DecidableEq, Repr

/-- The function `userToProto`. -/
def userToProto (user : Option User) : Option pb.User :=
  match user with
  | none => none
  | some user =>
    some
      { Id := user.ID
        FirstName := user.FirstName
        LastName := user.LastName
        Email := user.Email
        Country := user.Country
        Nickname := user.Nickname
        CreatedAt := some (timestamppb.New user.CreatedAt)
        UpdatedAt := some (timestamppb.New user.UpdatedAt) }

/-- The function `operationTypeToProto`. -/
def operationTypeToProto (operationType : OperationType) : pb.OperationType :=
  if operationType = OPERATION_CREATE then pb.OperationType.OPERATION_CREATE
  else if operationType = OPERATION_UPDATE then pb.OperationType.OPERATION_UPDATE
  else if operationType = OPERATION_DELETE then pb.OperationType.OPERATION_DELETE
  else if operationType = OPERATION_UNSPECIFIED then pb.OperationType.OPERATION_UNSPECIFIED
  else pb.OperationType.OPERATION_UNSPECIFIED

/-- The function `userEventToProto`. -/
def userEventToProto (event : UserEvent) : pb.UserEvent :=
  { Id := event.Id
    UserId := event.UserId
    BeforeChange := userToProto event.BeforeChange
    AfterChange := userToProto event.AfterChange
    OperationType := operationTypeToProto event.OperationType }

/-- The library constant `kafka.PartitionAny`: no partition chosen by the caller. -/
def PartitionAny : Int := -1

/-- The library struct `kafka.Message`, with the fields `SendMessage` sets. -/
structure Message where
  Key : ByteArray
  Topic : String
  Partition : Int
  Value : ByteArray

/-- The type of `proto.Marshal` on a `pb.UserEvent`: an error or the bytes. -/
abbrev Marshal := pb.UserEvent → Except String ByteArray

/-- The type of `broker.Produce` on a broker client with state `β`: the new state and
the error returned (`none` is nil). -/
abbrev Produce (β : Type) := β → Message → β × Option String

/-- The struct `userProducer`, together with what an observer of the producer sees. -/
structure ProducerState (β : Type) where
  /-- The field `broker`, as the state of the broker client. -/
  broker : β
  /-- The field `topic`. -/
  topic : String
  /-- The messages passed to `broker.Produce` so far, oldest first. -/
  produced : List Message
  /-- The number of goroutines started so far that range over `broker.Events()`.  Such
  a goroutine returns only when that channel is closed, which nothing in
  `SendMessage` does. -/
  drains : Nat
  /-- The lines logged so far, oldest first. -/
  logs : List String

/-- The function `NewUserProducer`. -/
def NewUserProducer {β : Type} (broker : β) (topic : String) : ProducerState β :=
  { broker := broker, topic := topic, produced := [], drains := 0, logs := [] }

/-- The method `userProducer.SendMessage`: the producer after the call and the error
returned (`none` is nil). -/
def userProducer.SendMessage {β : Type} (marshal : Marshal) (produce : Produce β)
    (userProducer : ProducerState β) (message : UserEvent) :
    ProducerState β × Option String :=
  match marshal (userEventToProto message) with
  | Except.error err =>
    ({ userProducer with logs := userProducer.logs ++ ["unable to marshal message: " ++ err] },
      some err)
  | Except.ok value =>
    let msg : Message :=
      { Key := message.UserId.toUTF8
        Topic := userProducer.topic
        Partition := PartitionAny
        Value := value }
    let r := produce userProducer.broker msg
    match r.2 with
    | some err =>
      ({ userProducer with
          broker := r.1
          produced := userProducer.produced ++ [msg]
          logs := userProducer.logs ++ ["unable to enqueue message"] },
        some err)
    | none =>
      ({ userProducer with
          broker := r.1
          produced := userProducer.produced ++ [msg]
          drains := userProducer.drains + 1 },
        none)

/-- An event read from `broker.Events()`. -/
inductive KafkaEvent where
  /-- A delivery report `*kafka.Message`; `err` is its `TopicPartition.Error`. -/
  | message (topic : String) (partition offset : Int) (err : Option String)
  /-- Any other event. -/
  | other

/-- The body of the loop of a drain goroutine for one event read from
`broker.Events()`: it only logs. -/
def drainEvent {β : Type} (userProducer : ProducerState β) (e : KafkaEvent) :
    ProducerState β :=
  match e with
  | KafkaEvent.message _ _ _ (some err) =>
    { userProducer with logs := userProducer.logs ++ ["Failed to deliver message: " ++ err] }
  | KafkaEvent.message topic _ _ none =>
    { userProducer with
        logs := userProducer.logs ++ ["Successfully produced record to topic " ++ topic] }
  | KafkaEvent.other => userProducer

/-! ## The repository (`internal/infrastructure/mongodb/user_repository.go`) -/

/-- The struct `domain.ListUsersQueryRequest`; `Page` and `PageSize` are `uint32`. -/
structure ListUsersQueryRequest where
  Page : Nat
  PageSize : Nat
  Country : Option String
  FirstName : Option String
  LastName : Option String
  Nickname : Option String
  Email : Option String
  deriving DecidableEq, Repr

/-- The struct `domain.ListUsersQueryResponse`; the three numbers are `uint32`. -/
structure ListUsersQueryResponse where
  Page : Nat
  PageSize : Nat
  TotalCount : Nat
  Results : List (Option User)
  deriving DecidableEq, Repr

/-- The function `usersToDomain`. -/
def usersToDomain (ul : List (Option UserEntity)) : List (Option User) :=
  ul.map userToDomain

/-- A filter document `bson.M` whose values are strings: its keys with their values. -/
abbrev Filter := List (String × String)

/-- The assignment `filter[key] = value` on a `bson.M`. -/
def Filter.set (filter : Filter) (key value : String) : Filter :=
  filter.filter (fun kv => !(kv.1 == key)) ++ [(key, value)]

/-- The string a stored `UserEntity` holds under a bson key, by the tags of
`user_model.go`; `hashed_password` is left out of the document when empty. -/
def UserEntity.get (u : UserEntity) (key : String) : Option String :=
  if key = "_id" then some u.ID
  else if key = "first_name" then some u.FirstName
  else if key = "last_name" then some u.LastName
  else if key = "email" then some u.Email
  else if key = "hashed_password" then
    (if u.HashedPassword = "" then none else some u.HashedPassword)
  else if key = "country" then some u.Country
  else if key = "nickname" then some u.Nickname
  else none

/-- Whether a stored document satisfies every equality constraint of the filter. -/
def Filter.matches (filter : Filter) (u : UserEntity) : Bool :=
  filter.all (fun kv => u.get kv.1 == some kv.2)

/-- The collection as the repository sees it: the stored documents in the order the
store returns them, and the errors the store answers with (`none` is nil). -/
structure Collection where
  docs : List UserEntity
  /-- The error of `CountDocuments`. -/
  countErr : Option String
  /-- The error of `Find`. -/
  findErr : Option String
  /-- The error of `cursor.All`. -/
  allErr : Option String

/-- The store operation `CountDocuments`: the number of documents matching the
filter. -/
def Collection.CountDocuments (c : Collection) (filter : Filter) : Except String Int :=
  match c.countErr with
  | some err => Except.error err
  | none => Except.ok ((c.docs.filter filter.matches).length : Nat)

/-- The store operation `Find` with the options `skip` and `limit`, followed by
`cursor.All`: the matching documents after the first `skip`, at most `limit` of them,
a limit of zero being no limit. -/
def Collection.Find (c : Collection) (filter : Filter) (skip limit : Int) :
    Except String (Except String (List UserEntity)) :=
  match c.findErr with
  | some err => Except.error err
  | none =>
    Except.ok
      (match c.allErr with
       | some err => Except.error err
       | none =>
         let skipped := (c.docs.filter filter.matches).drop skip.toNat
         Except.ok (if limit = 0 then skipped else skipped.take limit.toNat))

/-- The method `UserRepository.ListUsers`.  The product `Page * PageSize` and the
conversion of the count are `uint32` arithmetic. -/
def ListUsers (c : Collection) (request : ListUsersQueryRequest) :
    Except String ListUsersQueryResponse :=
  let request : ListUsersQueryRequest :=
    if request.PageSize = 0 then { request with PageSize := 10 } else request
  let filter : Filter := []
  let filter :=
    match request.Country with
    | some v => filter.set "country" v
    | none => filter
  let filter :=
    match request.FirstName with
    | some v => filter.set "first_name" v
    | none => filter
  let filter :=
    match request.LastName with
    | some v => filter.set "last_name" v
    | none => filter
  let filter :=
    match request.Nickname with
    | some v => filter.set "nickname" v
    | none => filter
  let filter :=
    match request.Email with
    | some v => filter.set "email" v
    | none => filter
  match c.CountDocuments filter with
  | Except.error err => Except.error ("failed to count documents: " ++ err)
  | Except.ok totalCount =>
    let skip : Int := ((request.Page * request.PageSize % 4294967296 : Nat) : Int)
    let limit : Int := (request.PageSize : Int)
    match c.Find filter skip limit with
    | Except.error err => Except.error err
    | Except.ok cursor =>
      match cursor with
      | Except.error err => Except.error ("failed to decode users: " ++ err)
      | Except.ok users =>
        Except.ok
          { Page := request.Page
            PageSize := request.PageSize
            TotalCount := totalCount.toNat % 4294967296
            Results := usersToDomain (users.map some) }

/-- The function `toEntity`. -/
def toEntity (user : User) : UserEntity :=
  { ID := user.ID
    FirstName := user.FirstName
    LastName := user.LastName
    Email := user.Email
    HashedPassword := user.HashedPassword
    Country := user.Country
    Nickname := user.Nickname
    CreatedAt := user.CreatedAt
    UpdatedAt := user.UpdatedAt }

/-- An error returned by the mongo driver: the sentinel `mongo.ErrNoDocuments`, an
error known by its text, or an error wrapping another. -/
inductive StoreError where
  | ErrNoDocuments
  | other (text : String)
  | wrap (text : String) (err : StoreError)
  deriving DecidableEq, Repr

/-- The test `errors.Is(err, mongo.ErrNoDocuments)`. -/
def StoreError.isNoDocuments : StoreError → Bool
  | StoreError.ErrNoDocuments => true
  | StoreError.other _ => false
  | StoreError.wrap _ err => err.isNoDocuments

/-- Modelled from the spec: the declaration of `domain.ErrUserNotFound` is not in the
source tree; it is a sentinel error of the domain package, apart from every error of
the driver.  An error the repository returns is that sentinel or an error of the
driver handed on as it is. -/
inductive RepoError where
  | ErrUserNotFound
  | store (err : StoreError)
  deriving DecidableEq, Repr

/-- The library type `mongo.SingleResult`, as the repository reads it. -/
inductive SingleResult where
  /-- The method `Err` returns `e`; `Decode` returns it too. -/
  | err (e : StoreError)
  /-- A document was found and `Err` returns nil; `decoded` is what `Decode` makes of
  the document. -/
  | document (decoded : Except StoreError UserEntity)

/-- The method `UserRepository.CreateUser`; `insertOne` is the error of
`collection.InsertOne` for the entity inserted.  The user behind the pointer is only
read. -/
def UserRepository.CreateUser (insertOne : UserEntity → Option StoreError) (user : User) :
    Option RepoError :=
  match insertOne (toEntity user) with
  | some err => some (RepoError.store err)
  | none => none

/-- The method `UserRepository.UpdateUser`; `findOneAndUpdate` is the result of
`collection.FindOneAndUpdate` for the id filtered on and the entity set.  The result is
the user behind the pointer after the call and the error returned. -/
def UserRepository.UpdateUser (findOneAndUpdate : String → UserEntity → SingleResult)
    (user : User) : User × Option RepoError :=
  match findOneAndUpdate user.ID (toEntity user) with
  | SingleResult.err e =>
    if e.isNoDocuments then (user, some RepoError.ErrUserNotFound)
    else (user, some (RepoError.store e))
  | SingleResult.document (Except.error e) => (user, some (RepoError.store e))
  | SingleResult.document (Except.ok updatedUser) =>
    ({ user with CreatedAt := updatedUser.CreatedAt }, none)

/-- The method `UserRepository.DeleteUserById`; `findOneAndDelete` is `result.Err()` of
`collection.FindOneAndDelete` for the id filtered on. -/
def UserRepository.DeleteUserById (findOneAndDelete : String → Option StoreError)
    (id : String) : Option RepoError :=
  match findOneAndDelete id with
  | some e =>
    if e.isNoDocuments then some RepoError.ErrUserNotFound else some (RepoError.store e)
  | none => none

/-! ## The service (`internal/domain/user/service.go`) -/

/-- The library constant `time.Millisecond`, in nanoseconds. -/
def Millisecond : Int := 1000000

/-- The nanoseconds from the zero `time.Time`, January 1 of year 1, to the Unix
epoch. -/
def zeroTimeOffset : Int := 62135596800 * 1000000000

/-- The library method `Time.Round`: the nearest multiple of `d` since the zero time,
halfway values rounded up; `t` itself when `d` is not positive. -/
def Time.Round (t : Time) (d : Int) : Time :=
  if d ≤ 0 then t
  else
    let r := (t + zeroTimeOffset) % d
    if r + r < d then t - r else t + (d - r)

/-- The method `service.CreateUser`.  `repoCreateUser` is `s.repo.CreateUser`, which
is handed a pointer: it returns the user as it leaves it and the error; `newID` is
`uuid.NewString()` and `now` is `time.Now()`. -/
def service.CreateUser {ε : Type} (repoCreateUser : User → User × Option ε)
    (newID : String) (now : Time) (user : User) : Option User × Option ε :=
  let user : User := { user with ID := newID }
  let user : User := { user with CreatedAt := Time.Round now Millisecond }
  let user : User := { user with UpdatedAt := user.CreatedAt }
  let r := repoCreateUser user
  match r.2 with
  | some err => (none, some err)
  | none => (some r.1, none)

/-- The method `service.UpdateUser`, with `repoUpdateUser` for `s.repo.UpdateUser`. -/
def service.UpdateUser {ε : Type} (repoUpdateUser : User → User × Option ε) (now : Time)
    (user : User) : Option User × Option ε :=
  let user : User := { user with UpdatedAt := Time.Round now Millisecond }
  let r := repoUpdateUser user
  match r.2 with
  | some err => (none, some err)
  | none => (some r.1, none)

/-- The method `service.DeleteUser`, with `repoDeleteUserById` for
`s.repo.DeleteUserById`. -/
def service.DeleteUser {ε : Type} (repoDeleteUserById : String → Option ε) (id : String) :
    Option ε :=
  repoDeleteUserById id

/-- The method `service.ListUsers`, with `repoListUsers` for `s.repo.ListUsers`. -/
def service.ListUsers {ε : Type}
    (repoListUsers : ListUsersQueryRequest → Option ListUsersQueryResponse × Option ε)
    (req : ListUsersQueryRequest) : Option ListUsersQueryResponse × Option ε :=
  let r := repoListUsers req
  match r.2 with
  | some err => (none, some err)
  | none => (r.1, none)

/-! ## The handlers (`internal/interfaces/grpc/user_handler.go`) -/

/-- The library type `codes.Code`, of which the handlers use three values. -/
inductive codes.Code where
  | InvalidArgument
  | NotFound
  | Internal
  deriving DecidableEq, Repr

/-- A status error of gRPC: its code and its message. -/
structure Status where
  code : codes.Code
  message : String
  deriving DecidableEq, Repr

/-- The library call `fmt.Sprintf(format)` without operands: a format without a
percent sign is printed as it is, and `verbs` is what is printed for one that has
some. -/
def Sprintf (verbs : String → String) (format : String) : String :=
  if format.toList.contains '%' then verbs format else format

/-- The library function `status.Error`. -/
def status.Error (c : codes.Code) (msg : String) : Status :=
  { code := c, message := msg }

/-- The library function `status.Errorf`, called with a format and no operands. -/
def status.Errorf (verbs : String → String) (c : codes.Code) (format : String) : Status :=
  { code := c, message := Sprintf verbs format }

/-- What a handler does: it returns a response with a nil error, returns a nil
response with a status error, or panics. -/
inductive HandlerResult (α : Type) where
  | ok (resp : α)
  | error (st : Status)
  | panicked
  deriving DecidableEq, Repr

/-- Modelled from the spec: the generated message `pb.CreateUserRequest` is not in the
source tree; its fields are those `UserServiceServer.CreateUser` reads. -/
structure pb.CreateUserRequest where
  FirstName : String
  LastName : String
  Email : String
  Country : String
  Nickname : String
  Password : String
  deriving DecidableEq, Repr

/-- Modelled from the spec: the generated message `pb.UpdateUserRequest` is not in the
source tree; its fields are those `UserServiceServer.UpdateUser` reads. -/
structure pb.UpdateUserRequest where
  Id : String
  FirstName : String
  LastName : String
  Email : String
  Country : String
  Nickname : String
  deriving DecidableEq, Repr

/-- Modelled from the spec: the generated message `pb.DeleteUserRequest` is not in the
source tree; the handler reads its `Id`. -/
structure pb.DeleteUserRequest where
  Id : String
  deriving DecidableEq, Repr

/-- Modelled from the spec: the generated message `pb.ListUsersRequest` is not in the
source tree; its fields are those `UserServiceServer.ListUsers` copies into the query,
two `uint32` and five optional strings. -/
structure pb.ListUsersRequest where
  Page : Nat
  PageSize : Nat
  Country : Option String
  FirstName : Option String
  LastName : Option String
  Nickname : Option String
  Email : Option String
  deriving DecidableEq, Repr

/-- Modelled from the spec: the generated message `pb.ListUsersResponse` is not in the
source tree; its fields are those `UserServiceServer.ListUsers` fills. -/
structure pb.ListUsersResponse where
  Page : Nat
  PageSize : Nat
  TotalCount : Nat
  Results : List (Option pb.User)
  deriving DecidableEq, Repr

/-- The interface `domain.UserService` as the handlers call it: `σ` is the state of
whatever stands behind the service, which a call may change, and `ε` the type of its
errors.  The methods return what the Go methods return, a result that may be nil and
an error that may be nil. -/
structure UserService (σ ε : Type) where
  CreateUser : σ → User → σ × (Option User × Option ε)
  UpdateUser : σ → User → σ × (Option User × Option ε)
  DeleteUser : σ → String → σ × Option ε
  ListUsers : σ → ListUsersQueryRequest → σ × (Option ListUsersQueryResponse × Option ε)

/-- What the handlers ask of an error of the service: `Error` is the method `Error()`,
`isUserNotFound` the test `errors.Is(err, domain.ErrUserNotFound)`, and `verbs` what
`fmt.Sprintf` prints for a format with a percent sign. -/
structure ErrorReading (ε : Type) where
  Error : ε → String
  isUserNotFound : ε → Bool
  verbs : String → String

/-- The zero `time.Time`. -/
def zeroTime : Time := -zeroTimeOffset

/-- The literal `&domain.User` of the handler `CreateUser`; the fields it leaves out
hold their zero values. -/
def newUserOf (req : pb.CreateUserRequest) (hashedPassword : String) : User :=
  { ID := ""
    FirstName := req.FirstName
    LastName := req.LastName
    Email := req.Email
    HashedPassword := hashedPassword
    Country := req.Country
    Nickname := req.Nickname
    CreatedAt := zeroTime
    UpdatedAt := zeroTime }

/-- The literal `&domain.User` of the handler `UpdateUser`. -/
def updatedUserOf (req : pb.UpdateUserRequest) : User :=
  { ID := req.Id
    FirstName := req.FirstName
    LastName := req.LastName
    Email := req.Email
    HashedPassword := ""
    Country := req.Country
    Nickname := req.Nickname
    CreatedAt := zeroTime
    UpdatedAt := zeroTime }

/-- The literal `&domain.ListUsersQueryRequest` of the handler `ListUsers`. -/
def queryOf (req : pb.ListUsersRequest) : ListUsersQueryRequest :=
  { Page := req.Page
    PageSize := req.PageSize
    Country := req.Country
    FirstName := req.FirstName
    LastName := req.LastName
    Nickname := req.Nickname
    Email := req.Email }

/-- The method `UserServiceServer.CreateUser`.  `validate` is `req.Validate()`, giving
the text of its error; `generateFromPassword` is `bcrypt.GenerateFromPassword` at the
default cost; `s` is the state behind the service before the call, and the state after
it is returned with the result. -/
def UserServiceServer.CreateUser {σ ε : Type} (rd : ErrorReading ε) (svc : UserService σ ε)
    (validate : pb.CreateUserRequest → Option String)
    (generateFromPassword : String → Except String String) (s : σ)
    (req : pb.CreateUserRequest) : σ × HandlerResult (Option pb.User) :=
  match validate req with
  | some err => (s, HandlerResult.error (status.Error codes.Code.InvalidArgument err))
  | none =>
    match generateFromPassword req.Password with
    | Except.error _ =>
      (s, HandlerResult.error
        (status.Errorf rd.verbs codes.Code.Internal "internal server error"))
    | Except.ok hashedPassword =>
      let r := svc.CreateUser s (newUserOf req hashedPassword)
      match r.2.2 with
      | some _ =>
        (r.1, HandlerResult.error
          (status.Errorf rd.verbs codes.Code.Internal "internal server error"))
      | none => (r.1, HandlerResult.ok (userToProto r.2.1))

/-- The method `UserServiceServer.UpdateUser`. -/
def UserServiceServer.UpdateUser {σ ε : Type} (rd : ErrorReading ε) (svc : UserService σ ε)
    (validate : pb.UpdateUserRequest → Option String) (s : σ)
    (req : pb.UpdateUserRequest) : σ × HandlerResult (Option pb.User) :=
  match validate req with
  | some err => (s, HandlerResult.error (status.Error codes.Code.InvalidArgument err))
  | none =>
    let r := svc.UpdateUser s (updatedUserOf req)
    match r.2.2 with
    | some err =>
      if rd.isUserNotFound err then
        (r.1, HandlerResult.error
          (status.Errorf rd.verbs codes.Code.NotFound (rd.Error err)))
      else
        (r.1, HandlerResult.error
          (status.Errorf rd.verbs codes.Code.Internal "internal server error"))
    | none => (r.1, HandlerResult.ok (userToProto r.2.1))

/-- The method `UserServiceServer.DeleteUser`; its response is `emptypb.Empty`. -/
def UserServiceServer.DeleteUser {σ ε : Type} (rd : ErrorReading ε) (svc : UserService σ ε)
    (validate : pb.DeleteUserRequest → Option String) (s : σ)
    (req : pb.DeleteUserRequest) : σ × HandlerResult Unit :=
  match validate req with
  | some err => (s, HandlerResult.error (status.Error codes.Code.InvalidArgument err))
  | none =>
    let r := svc.DeleteUser s req.Id
    match r.2 with
    | some err =>
      if rd.isUserNotFound err then
        (r.1, HandlerResult.error
          (status.Errorf rd.verbs codes.Code.NotFound (rd.Error err)))
      else
        (r.1, HandlerResult.error
          (status.Errorf rd.verbs codes.Code.Internal "internal server error"))
    | none => (r.1, HandlerResult.ok ())

/-- The method `UserServiceServer.ListUsers`; a nil response of the service with a nil
error is dereferenced. -/
def UserServiceServer.ListUsers {σ ε : Type} (rd : ErrorReading ε) (svc : UserService σ ε)
    (validate : pb.ListUsersRequest → Option String) (s : σ)
    (req : pb.ListUsersRequest) : σ × HandlerResult pb.ListUsersResponse :=
  match validate req with
  | some err => (s, HandlerResult.error (status.Error codes.Code.InvalidArgument err))
  | none =>
    let r := svc.ListUsers s (queryOf req)
    match r.2.2 with
    | some _ =>
      (r.1, HandlerResult.error
        (status.Errorf rd.verbs codes.Code.Internal "internal server error"))
    | none =>
      match r.2.1 with
      | none => (r.1, HandlerResult.panicked)
      | some res =>
        (r.1, HandlerResult.ok
          { Page := res.Page
            PageSize := res.PageSize
            TotalCount := res.TotalCount
            Results := res.Results.map userToProto })

/-! ## Example data -/

/-- Decode the string field `key` of an example document: an absent field keeps the
zero value, a null gives it, a value of another type is an error. -/
def exampleString (doc : Raw) (key : String) : Except String String :=
  match doc.Lookup key with
  | none => Except.ok ""
  | some BsonValue.null => Except.ok ""
  | some (BsonValue.string s) => Except.ok s
  | some _ => Except.error ("cannot decode " ++ key)

/-- Decode the time field `key` of an example document: an absent field keeps the zero
`time.Time`, a null gives it, a date is its milliseconds from the Unix epoch. -/
def exampleTime (doc : Raw) (key : String) : Except String Time :=
  match doc.Lookup key with
  | none => Except.ok zeroTime
  | some BsonValue.null => Except.ok zeroTime
  | some (BsonValue.dateTime ms) => Except.ok (ms * 1000000)
  | some _ => Except.error ("cannot decode " ++ key)

/-- A decoder for the examples, reading the fields of `UserEntity` by their bson tags.
The theorems below hold for every decoder; this one instantiates them. -/
def exampleUnmarshal : Unmarshal := fun doc => do
  let id ← exampleString doc "_id"
  let firstName ← exampleString doc "first_name"
  let lastName ← exampleString doc "last_name"
  let email ← exampleString doc "email"
  let hashedPassword ← exampleString doc "hashed_password"
  let country ← exampleString doc "country"
  let nickname ← exampleString doc "nickname"
  let createdAt ← exampleTime doc "created_at"
  let updatedAt ← exampleTime doc "updated_at"
  pure
    { ID := id
      FirstName := firstName
      LastName := lastName
      Email := email
      HashedPassword := hashedPassword
      Country := country
      Nickname := nickname
      CreatedAt := createdAt
      UpdatedAt := updatedAt }

/-- The stored document of user `u1`, first name Ann. -/
def annDoc : Raw :=
  [("_id", BsonValue.string "u1"), ("first_name", BsonValue.string "Ann"),
   ("last_name", BsonValue.string "Lee"), ("email", BsonValue.string "ann@mail.com"),
   ("hashed_password", BsonValue.string "secret"), ("country", BsonValue.string "IT"),
   ("nickname", BsonValue.string "annie"), ("created_at", BsonValue.dateTime 1000),
   ("updated_at", BsonValue.dateTime 1000)]

/-- The stored document of user `u1` after the first name changed to Anna. -/
def annaDoc : Raw :=
  [("_id", BsonValue.string "u1"), ("first_name", BsonValue.string "Anna"),
   ("last_name", BsonValue.string "Lee"), ("email", BsonValue.string "ann@mail.com"),
   ("hashed_password", BsonValue.string "secret"), ("country", BsonValue.string "IT"),
   ("nickname", BsonValue.string "annie"), ("created_at", BsonValue.dateTime 1000),
   ("updated_at", BsonValue.dateTime 2000)]

/-- A document that `exampleUnmarshal` rejects: its `_id` is not a string. -/
def badDoc : Raw := [("_id", BsonValue.int64 7)]

/-- The entity decoded from `annDoc`. -/
def annEntity : UserEntity :=
  { ID := "u1", FirstName := "Ann", LastName := "Lee", Email := "ann@mail.com",
    HashedPassword := "secret", Country := "IT", Nickname := "annie",
    CreatedAt := 1000000000, UpdatedAt := 1000000000 }

/-- The entity decoded from `annaDoc`. -/
def annaEntity : UserEntity :=
  { ID := "u1", FirstName := "Anna", LastName := "Lee", Email := "ann@mail.com",
    HashedPassword := "secret", Country := "IT", Nickname := "annie",
    CreatedAt := 1000000000, UpdatedAt := 2000000000 }

/-- An insert record for `annDoc`. -/
def insertRecord : Raw :=
  [("operationType", BsonValue.string "insert"),
   ("fullDocument", BsonValue.embeddedDocument annDoc)]

/-- An update record from `annDoc` to `annaDoc`. -/
def updateRecord : Raw :=
  [("operationType", BsonValue.string "update"),
   ("fullDocument", BsonValue.embeddedDocument annaDoc),
   ("fullDocumentBeforeChange", BsonValue.embeddedDocument annDoc)]

/-- A delete record carrying the document before the change. -/
def deleteRecord : Raw :=
  [("operationType", BsonValue.string "delete"),
   ("fullDocumentBeforeChange", BsonValue.embeddedDocument annaDoc)]

/-- A record with the tag of a delete that carries a fullDocument. -/
def deleteWithPostImage : Raw :=
  [("operationType", BsonValue.string "delete"),
   ("fullDocument", BsonValue.embeddedDocument annDoc)]

/-- A record with a tag the watcher does not know. -/
def replaceRecord : Raw :=
  [("operationType", BsonValue.string "replace"),
   ("fullDocument", BsonValue.embeddedDocument annaDoc),
   ("fullDocumentBeforeChange", BsonValue.embeddedDocument annDoc)]

/-- An update record whose fullDocument does not decode. -/
def badPostImageRecord : Raw :=
  [("operationType", BsonValue.string "update"),
   ("fullDocument", BsonValue.embeddedDocument badDoc),
   ("fullDocumentBeforeChange", BsonValue.embeddedDocument annDoc)]

/-- The stored document of another user, `u2`. -/
def bobDoc : Raw :=
  [("_id", BsonValue.string "u2"), ("first_name", BsonValue.string "Bob")]

/-- An update record whose two images carry different ids. -/
def mixedIdRecord : Raw :=
  [("operationType", BsonValue.string "update"),
   ("fullDocument", BsonValue.embeddedDocument bobDoc),
   ("fullDocumentBeforeChange", BsonValue.embeddedDocument annDoc)]

/-- A pass in which the context is not done, the cursor yields `doc` and the consumer
receives the event. -/
def receivedPass (doc : Raw) (newId : String) : Iteration :=
  { done := false, next := NextResult.record (some doc), newId := newId,
    push := PushResult.received }

/-- A pass that starts with the context done. -/
def cancelledPass : Iteration :=
  { done := true, next := NextResult.record (some updateRecord), newId := "e8",
    push := PushResult.received }

/-- A pass in which the context is done while the event is being pushed. -/
def pushCancelledPass : Iteration :=
  { done := false, next := NextResult.record (some updateRecord), newId := "e9",
    push := PushResult.done "context canceled" }

/-- A pass in which the read of the cursor fails. -/
def cursorErrorPass : Iteration :=
  { done := false, next := NextResult.stopped (some "connection lost"), newId := "e10",
    push := PushResult.received }

/-- A producer that keeps the ids of the events it was given, newest first, and fails
on every event that is not a CREATE. -/
def recordingSend : SendMessage (List String) := fun seen ev =>
  (ev.Id :: seen, if ev.OperationType = OPERATION_CREATE then none else some "queue full")

/-- A serialiser for the examples: it rejects an event without an id and otherwise
returns the bytes of the id. -/
def exampleMarshal : Marshal := fun ev =>
  if ev.Id = "" then Except.error "empty id" else Except.ok ev.Id.toUTF8

/-- A broker client for the examples: its state is the local queue, which holds at most
two messages. -/
def exampleProduce : Produce (List Message) := fun queue msg =>
  if queue.length < 2 then (queue ++ [msg], none) else (queue, some "Local: Queue full")

/-- The event of the producer test: id 1, subject `user_123`, a CREATE. -/
def createdEvent : UserEvent :=
  { Id := "1", UserId := "user_123", BeforeChange := none,
    AfterChange := userToDomain (some annEntity), OperationType := OPERATION_CREATE }

/-- An event the example serialiser rejects. -/
def unnamedEvent : UserEvent :=
  { Id := "", UserId := "user_123", BeforeChange := none, AfterChange := none,
    OperationType := OPERATION_UPDATE }

/-- An insert record whose fullDocument does not decode and that has no
fullDocumentBeforeChange. -/
def undecodableInsertRecord : Raw :=
  [("operationType", BsonValue.string "insert"),
   ("fullDocument", BsonValue.embeddedDocument badDoc)]

/-- A record without the field operationType. -/
def missingTagRecord : Raw :=
  [("fullDocument", BsonValue.embeddedDocument annDoc)]

/-- A record whose operationType is a number. -/
def numericTagRecord : Raw :=
  [("operationType", BsonValue.int64 1),
   ("fullDocument", BsonValue.embeddedDocument annDoc)]

/-- A collection holding the one document `annEntity`, on a store that answers. -/
def oneUserCollection : Collection :=
  { docs := [annEntity], countErr := none, findErr := none, allErr := none }

/-- A collection of two users, on a store that answers. -/
def twoUserCollection : Collection :=
  { docs := [annEntity, { annaEntity with ID := "u2" }], countErr := none, findErr := none,
    allErr := none }

/-- A request without filters for page 65536 of size 65536. -/
def farPageRequest : ListUsersQueryRequest :=
  { Page := 65536, PageSize := 65536, Country := none, FirstName := none, LastName := none,
    Nickname := none, Email := none }

/-- A request without filters and without a page size. -/
def defaultRequest : ListUsersQueryRequest :=
  { Page := 0, PageSize := 0, Country := none, FirstName := none, LastName := none,
    Nickname := none, Email := none }

/-- A user as a caller hands it to `service.CreateUser`, with an ID of its own. -/
def callerUser : User :=
  { ID := "chosen-by-caller", FirstName := "Ann", LastName := "Lee",
    Email := "ann@example.org", HashedPassword := "$2a$10$abc", Country := "IT",
    Nickname := "ann", CreatedAt := 5, UpdatedAt := 7 }

/-- A store whose `InsertOne` succeeds. -/
def insertOk : UserEntity → Option StoreError := fun _ => none

/-- An instant 1.5 ms and 1 ns after the Unix epoch. -/
def exampleNow : Time := 1500001

/-- A service that counts the calls made to it and returns no error. -/
def countingService : UserService Nat String :=
  { CreateUser := fun n user => (n + 1, (some user, none))
    UpdateUser := fun n user => (n + 1, (some user, none))
    DeleteUser := fun n _ => (n + 1, none)
    ListUsers := fun n req =>
      (n + 1,
        (some { Page := req.Page, PageSize := req.PageSize, TotalCount := 0, Results := [] },
          none)) }

/-- A service that counts the calls made to it and finds no user to update or to
delete. -/
def missingUserService : UserService Nat String :=
  { CreateUser := fun n _ => (n + 1, (none, some "duplicate key"))
    UpdateUser := fun n _ => (n + 1, (none, some "user not found"))
    DeleteUser := fun n _ => (n + 1, some "user not found")
    ListUsers := fun n _ => (n + 1, (none, some "connection refused")) }

/-- Errors known by their text, the text of ErrUserNotFound being "user not found". -/
def textReading : ErrorReading String :=
  { Error := fun e => e
    isUserNotFound := fun e => e == "user not found"
    verbs := fun format => format }

/-- A request to create a user. -/
def signUp : pb.CreateUserRequest :=
  { FirstName := "Ann", LastName := "Lee", Email := "ann@example.org", Country := "IT",
    Nickname := "ann", Password := "a long password" }

/-- A request to update a user. -/
def rename : pb.UpdateUserRequest :=
  { Id := "u-1", FirstName := "Anna", LastName := "Lee", Email := "ann@example.org",
    Country := "IT", Nickname := "ann" }

/-- A password hashing that fails, as `bcrypt.GenerateFromPassword` does for a
password it does not take. -/
def hashFails : String → Except String String :=
  fun _ => Except.error "bcrypt: password length exceeds 72 bytes"

/-- A repository that returns no error and writes an ID and timestamps of its own
through the pointer, as the mocked `CreateUser` of `service_test.go` does with a new
uuid and an instant of `time.Now()` that is not rounded. -/
def rewritingRepository : User → User × Option String :=
  fun user =>
    ({ user with ID := "0e4fa9ab-5e2c-4c7b-9d3a-7f0d6c1b2a33", CreatedAt := 1700003,
                 UpdatedAt := 1700003 }, none)

/-! ## Specification helpers -/

/-- The document `doc` without the elements whose key is `key`. -/
def dropField (doc : Raw) (key : String) : Raw :=
  doc.filter (fun e => !(e.1 == key))

/-- One side of `decodeChangeDocuments`, as a function of the looked-up field: the
decoded entity when the field is an embedded document that `unmarshal` accepts, nil
otherwise. -/
def decodeImage (unmarshal : Unmarshal) (field : Option BsonValue) : Option UserEntity :=
  match field with
  | some (BsonValue.embeddedDocument value) =>
    match unmarshal value with
    | Except.error _ => none
    | Except.ok usr => some usr
  | _ => none

/-- The event `processNextChange` builds from a record whose operation tag is the
string `operationType`. -/
def eventOf (unmarshal : Unmarshal) (changeDoc : Raw) (operationType newId : String) :
    UserEvent :=
  { Id := newId
    UserId := determineUserID (decodeChangeDocuments unmarshal changeDoc).2
      (decodeChangeDocuments unmarshal changeDoc).1
    BeforeChange := userToDomain (decodeChangeDocuments unmarshal changeDoc).2
    AfterChange := userToDomain (decodeChangeDocuments unmarshal changeDoc).1
    OperationType := operationToEnum operationType }

/-- The message `SendMessage` builds for the event `message` once it is serialised to
`value`. -/
def messageOf (topic : String) (message : UserEvent) (value : ByteArray) : Message :=
  { Key := message.UserId.toUTF8, Topic := topic, Partition := PartitionAny, Value := value }

/-- The wire snapshot `w` carries the fields of the domain user `u`: identity, names,
email, country, nickname, and both timestamps as the same instants. -/
def SameSnapshot (u : User) (w : pb.User) : Prop :=
  w.Id = u.ID ∧ w.FirstName = u.FirstName ∧ w.LastName = u.LastName ∧ w.Email = u.Email ∧
  w.Country = u.Country ∧ w.Nickname = u.Nickname ∧
  (∃ ts, w.CreatedAt = some ts ∧ ts.Seconds * 1000000000 + ts.Nanos = u.CreatedAt ∧
    0 ≤ ts.Nanos ∧ ts.Nanos < 1000000000) ∧
  (∃ ts, w.UpdatedAt = some ts ∧ ts.Seconds * 1000000000 + ts.Nanos = u.UpdatedAt ∧
    0 ≤ ts.Nanos ∧ ts.Nanos < 1000000000)

/-- The reason `r` for closing is accounted for by a pass of `its`: the pass found the
context done at its opening `select` and `r` is `cancelled`, or its push `select` took
the case `ctx.Done()` and `r` carries `ctx.Err()`, or its read of the cursor failed
with an error and `r` carries that error. -/
def ClosedBy (its : List Iteration) (r : CloseReason) : Prop :=
  ∃ it ∈ its,
    (it.done = true ∧ r = CloseReason.cancelled) ∨
    (∃ ctxErr, it.push = PushResult.done ctxErr ∧ r = CloseReason.processError ctxErr) ∨
    (∃ err, it.next = NextResult.stopped (some err) ∧
      r = CloseReason.processError ("change stream error: " ++ err))

/-- The page size `ListUsers` works with: 10 when the request has none. -/
def effectivePageSize (request : ListUsersQueryRequest) : Nat :=
  if request.PageSize = 0 then 10 else request.PageSize

/-- The filter `ListUsers` sends to the store for a request. -/
def filterOf (request : ListUsersQueryRequest) : Filter :=
  let filter : Filter := []
  let filter :=
    match request.Country with
    | some v => filter.set "country" v
    | none => filter
  let filter :=
    match request.FirstName with
    | some v => filter.set "first_name" v
    | none => filter
  let filter :=
    match request.LastName with
    | some v => filter.set "last_name" v
    | none => filter
  let filter :=
    match request.Nickname with
    | some v => filter.set "nickname" v
    | none => filter
  match request.Email with
  | some v => filter.set "email" v
  | none => filter

/-- The event pushed for `insertRecord` with the id `e1`. -/
def insertEvent : UserEvent := eventOf exampleUnmarshal insertRecord "insert" "e1"

/-- The event pushed for `updateRecord` with the id `e2`. -/
def updateEvent : UserEvent := eventOf exampleUnmarshal updateRecord "update" "e2"

/-- The actions of a run in which an insert is read and handed over and an update is
read. -/
def exampleActions : List Action :=
  [Action.pass false (NextResult.record (some insertRecord)) "e1", Action.handOver,
   Action.pass false (NextResult.record (some updateRecord)) "e2"]

/-- The state `exampleActions` lead to: the insert received, the update in the push
`select`, two reads. -/
def exampleHandoff : Handoff :=
  { pc := WatcherPc.pushing updateEvent
    userEvents := { cap := 0, buf := [], closed := false }
    received := [insertEvent]
    reads := 2 }

/-- The actions of a run on a buffered channel: an insert is read and sent into the
buffer, and an update is read while the insert is still there. -/
def bufferedActions : List Action :=
  [Action.pass false (NextResult.record (some insertRecord)) "e1", Action.send,
   Action.pass false (NextResult.record (some updateRecord)) "e2"]

/-- The actions by which the hand-off plays the passes of `its`: each pass is one
`pass` action, followed, when the pass built an event, by the hand-over or by the case
`ctx.Done()` as the pass says; the actions stop with the pass that ends the loop. -/
def scheduleOf (unmarshal : Unmarshal) : List Iteration → List Action
  | [] => []
  | it :: rest =>
    if it.done then [Action.pass true it.next it.newId]
    else
      match processNextChange unmarshal it.next it.newId PushResult.received with
      | ProcessResult.returned none (some _) =>
        match it.push with
        | PushResult.received =>
          Action.pass false it.next it.newId :: Action.handOver :: scheduleOf unmarshal rest
        | PushResult.done ctxErr =>
          [Action.pass false it.next it.newId, Action.ctxDone ctxErr]
      | ProcessResult.returned none none =>
        Action.pass false it.next it.newId :: scheduleOf unmarshal rest
      | _ => [Action.pass false it.next it.newId]

/-- The actions of a first run that finds the context done at once. -/
def cancelledActions : List Action :=
  [Action.pass true (NextResult.record (some insertRecord)) "e1"]

/-- The state `cancelledActions` lead to: returned, the channel closed. -/
def cancelledHandoff : Handoff :=
  { pc := WatcherPc.returned
    userEvents := { cap := 0, buf := [], closed := true }
    received := []
    reads := 0 }

/-- The actions of a later run on the closed channel: an insert is read and its push
is attempted. -/
def laterActions : List Action :=
  [Action.pass false (NextResult.record (some insertRecord)) "e1", Action.sendOnClosed]

/-- The state `laterActions` lead to: a panic, nothing received. -/
def laterHandoff : Handoff :=
  { pc := WatcherPc.panicked
    userEvents := { cap := 0, buf := [], closed := true }
    received := []
    reads := 1 }

/-- A pass in which the read of the cursor returns no record and no error. -/
def idlePass : Iteration :=
  { done := false, next := NextResult.stopped none, newId := "e14",
    push := PushResult.received }

/-- A collection holding 4294967296 copies of one document, on a store that answers. -/
def hugeCollection : Collection :=
  { docs := List.replicate 4294967296 annEntity, countErr := none, findErr := none,
    allErr := none }

/-- A request for the users of a country with a given first name. -/
def italianAnnRequest : ListUsersQueryRequest :=
  { Page := 0, PageSize := 0, Country := some "IT", FirstName := some "Ann", LastName := none,
    Nickname := none, Email := none }

/-- A request without filters for page 10 of size 3. -/
def emptyPageRequest : ListUsersQueryRequest :=
  { Page := 10, PageSize := 3, Country := none, FirstName := none, LastName := none,
    Nickname := none, Email := none }

/-- The entity `u` with its hashed password replaced by `f u`. -/
def withHash (f : UserEntity → String) (u : UserEntity) : UserEntity :=
  { u with HashedPassword := f u }

/-- The decoder `unmarshal` followed by `withHash f`. -/
def rehash (f : UserEntity → String) (unmarshal : Unmarshal) : Unmarshal := fun v =>
  match unmarshal v with
  | Except.error e => Except.error e
  | Except.ok u => Except.ok (withHash f u)

/-- The status of a failure that is not told to the caller: code Internal with the
fixed message. -/
def internalError : Status :=
  { code := codes.Code.Internal, message := "internal server error" }

/-! ## Basic facts -/

theorem decodeChangeDocuments_eq (unmarshal : Unmarshal) (changeDoc : Raw) :
    decodeChangeDocuments unmarshal changeDoc =
      (decodeImage unmarshal (changeDoc.Lookup "fullDocument"),
       decodeImage unmarshal (changeDoc.Lookup "fullDocumentBeforeChange")) := rfl

theorem decodeImage_ok (unmarshal : Unmarshal) (value : Raw) (usr : UserEntity)
    (h : unmarshal value = Except.ok usr) :
    decodeImage unmarshal (some (BsonValue.embeddedDocument value)) = some usr := by
  simp [decodeImage, h]

theorem decodeImage_error (unmarshal : Unmarshal) (value : Raw) (e : String)
    (h : unmarshal value = Except.error e) :
    decodeImage unmarshal (some (BsonValue.embeddedDocument value)) = none := by
  simp [decodeImage, h]

theorem decodeImage_not_document (unmarshal : Unmarshal) (field : Option BsonValue)
    (h : ∀ v, field ≠ some (BsonValue.embeddedDocument v)) :
    decodeImage unmarshal field = none := by
  unfold decodeImage
  split
  · rename_i value
    exact absurd rfl (h value)
  · rfl

/-- With a string operation tag and a consumer that receives, `processNextChange`
pushes `eventOf` and returns nil. -/
theorem processNextChange_received (unmarshal : Unmarshal) (changeDoc : Raw)
    (operationType newId : String)
    (hop : changeDoc.Lookup "operationType" = some (BsonValue.string operationType)) :
    processNextChange unmarshal (NextResult.record (some changeDoc)) newId
        PushResult.received =
      ProcessResult.returned none (some (eventOf unmarshal changeDoc operationType newId)) := by
  simp [processNextChange, hop, StringValue, eventOf]

/-! ## Documents without a field -/

theorem Lookup_nil (key : String) : Raw.Lookup [] key = none := rfl

theorem Lookup_cons (e : String × BsonValue) (rest : Raw) (key : String) :
    Raw.Lookup (e :: rest) key = if e.1 = key then some e.2 else Raw.Lookup rest key := by
  by_cases h : e.1 = key
  · simp [Raw.Lookup, List.find?_cons, h]
  · simp [Raw.Lookup, List.find?_cons, h]

theorem dropField_cons (e : String × BsonValue) (rest : Raw) (key : String) :
    dropField (e :: rest) key =
      if e.1 = key then dropField rest key else e :: dropField rest key := by
  by_cases h : e.1 = key
  · simp [dropField, List.filter_cons, h]
  · simp [dropField, List.filter_cons, h]

theorem Lookup_dropField_self (doc : Raw) (key : String) :
    Raw.Lookup (dropField doc key) key = none := by
  induction doc with
  | nil => rfl
  | cons e rest ih =>
    rw [dropField_cons]
    by_cases h : e.1 = key
    · rw [if_pos h]
      exact ih
    · rw [if_neg h, Lookup_cons, if_neg h]
      exact ih

theorem Lookup_dropField_other (doc : Raw) (key other : String) (hne : other ≠ key) :
    Raw.Lookup (dropField doc key) other = Raw.Lookup doc other := by
  induction doc with
  | nil => rfl
  | cons e rest ih =>
    rw [dropField_cons, Lookup_cons]
    by_cases h : e.1 = key
    · have h2 : ¬ e.1 = other := fun h3 => hne (h3.symm.trans h)
      rw [if_pos h, if_neg h2]
      exact ih
    · rw [if_neg h, Lookup_cons, ih]

/-! ## The loops -/

theorem dispatchLoop_calls {σ : Type} (send : SendMessage σ) (st : DispatchState σ)
    (events : List UserEvent) :
    (dispatchLoop send st events).calls = st.calls ++ events := by
  induction events generalizing st with
  | nil => simp [dispatchLoop]
  | cons ev rest ih =>
    rw [dispatchLoop, ih]
    simp only [dispatchOne]
    cases h : (send st.producer ev).2 <;> simp

theorem dispatchLoop_producer {σ : Type} (send : SendMessage σ) (st : DispatchState σ)
    (events : List UserEvent) :
    (dispatchLoop send st events).producer =
      events.foldl (fun p ev => (send p ev).1) st.producer := by
  induction events generalizing st with
  | nil => simp [dispatchLoop]
  | cons ev rest ih =>
    rw [dispatchLoop, ih]
    simp only [dispatchOne]
    cases h : (send st.producer ev).2 <;> simp

theorem dispatchLoop_snoc {σ : Type} (send : SendMessage σ) (st : DispatchState σ)
    (events : List UserEvent) (ev : UserEvent) :
    dispatchLoop send st (events ++ [ev]) =
      dispatchOne send (dispatchLoop send st events) ev := by
  induction events generalizing st with
  | nil => simp [dispatchLoop]
  | cons e rest ih => simp [dispatchLoop, ih]

theorem watchLoop_nil (unmarshal : Unmarshal) :
    watchLoop unmarshal [] = { events := [], reads := 0, state := WatcherState.streaming } :=
  rfl

theorem watchLoop_cons (unmarshal : Unmarshal) (it : Iteration) (rest : List Iteration) :
    watchLoop unmarshal (it :: rest) =
      if it.done then
        { events := [], reads := 0, state := WatcherState.closed CloseReason.cancelled }
      else
        match processNextChange unmarshal it.next it.newId it.push with
        | ProcessResult.panicked msg =>
          { events := [], reads := 1,
            state := WatcherState.closed (CloseReason.panicked msg) }
        | ProcessResult.returned (some err) pushed =>
          { events := pushed.toList, reads := 1,
            state := WatcherState.closed (CloseReason.processError err) }
        | ProcessResult.returned none pushed =>
          { events := pushed.toList ++ (watchLoop unmarshal rest).events
            reads := 1 + (watchLoop unmarshal rest).reads
            state := (watchLoop unmarshal rest).state } := by
  rw [watchLoop]

theorem watchLoop_append (unmarshal : Unmarshal) (pre rest : List Iteration) :
    watchLoop unmarshal (pre ++ rest) =
      match (watchLoop unmarshal pre).state with
      | WatcherState.streaming =>
        { events := (watchLoop unmarshal pre).events ++ (watchLoop unmarshal rest).events
          reads := (watchLoop unmarshal pre).reads + (watchLoop unmarshal rest).reads
          state := (watchLoop unmarshal rest).state }
      | WatcherState.closed _ => watchLoop unmarshal pre := by
  induction pre with
  | nil => simp [watchLoop]
  | cons it pre ih =>
    rw [List.cons_append, watchLoop_cons unmarshal it (pre ++ rest),
      watchLoop_cons unmarshal it pre]
    by_cases hd : it.done = true
    · simp [hd]
    · simp only [hd]
      cases hp : processNextChange unmarshal it.next it.newId it.push with
      | panicked msg => simp
      | returned err pushed =>
        cases err with
        | some e => simp
        | none =>
          rw [ih]
          cases hs : (watchLoop unmarshal pre).state with
          | streaming => simp [Nat.add_assoc]
          | closed r => simp [hs]

/-- A pass that starts with the context done, or in which `processNextChange` returns
an error without pushing, ends the loop with no event, whatever follows. -/
theorem watchLoop_stops (unmarshal : Unmarshal) (it : Iteration) (rest : List Iteration)
    (h : it.done = true ∨ ∃ err,
      processNextChange unmarshal it.next it.newId it.push =
        ProcessResult.returned (some err) none) :
    watchLoop unmarshal (it :: rest) = watchLoop unmarshal [it] ∧
    (watchLoop unmarshal (it :: rest)).events = [] ∧
    (watchLoop unmarshal (it :: rest)).channelClosed = true ∧
    (watchLoop unmarshal (it :: rest)).reads ≤ 1 := by
  by_cases hd : it.done = true
  · simp [watchLoop, hd, WatchRun.channelClosed]
  · rcases h with h | ⟨err, h⟩
    · exact absurd h hd
    · simp [watchLoop, hd, h, WatchRun.channelClosed]

/-- Once a pass ends the loop without an event, the run is the run up to that pass:
the events are those received before it and the channel is closed. -/
theorem watchLoop_append_stops (unmarshal : Unmarshal) (pre : List Iteration) (it : Iteration)
    (rest : List Iteration)
    (h : it.done = true ∨ ∃ err,
      processNextChange unmarshal it.next it.newId it.push =
        ProcessResult.returned (some err) none) :
    watchLoop unmarshal (pre ++ it :: rest) = watchLoop unmarshal (pre ++ [it]) ∧
    (watchLoop unmarshal (pre ++ it :: rest)).events = (watchLoop unmarshal pre).events ∧
    (watchLoop unmarshal (pre ++ it :: rest)).channelClosed = true ∧
    (watchLoop unmarshal (pre ++ it :: rest)).reads ≤ (watchLoop unmarshal pre).reads + 1 := by
  obtain ⟨h1, h2, h3, h4⟩ := watchLoop_stops unmarshal it rest h
  obtain ⟨_, k2, k3, k4⟩ := watchLoop_stops unmarshal it [] h
  rw [watchLoop_append unmarshal pre (it :: rest), watchLoop_append unmarshal pre [it]]
  cases hs : (watchLoop unmarshal pre).state with
  | streaming =>
    simp only [h1]
    refine ⟨trivial, ?_, ?_, ?_⟩
    · simp [k2]
    · simpa [WatchRun.channelClosed] using k3
    · simpa using k4
  | closed r =>
    simp [WatchRun.channelClosed, hs]

/-! ## Claims -/

/-- C1: for a record whose operation tag is insert, whose fullDocument is an embedded
document that decodes to `usr`, and whose fullDocumentBeforeChange is not an embedded
document (absent included), `processNextChange` returns nil and pushes the event with
BeforeChange nil, AfterChange carrying the id, names, email, country, nickname and
timestamps of `usr`, UserId the id of `usr`, and OperationType CREATE. -/
theorem processNextChange_insert (unmarshal : Unmarshal) (changeDoc value : Raw)
    (usr : UserEntity) (newId : String)
    (hop : changeDoc.Lookup "operationType" = some (BsonValue.string "insert"))
    (hafter : changeDoc.Lookup "fullDocument" = some (BsonValue.embeddedDocument value))
    (hdec : unmarshal value = Except.ok usr)
    (hbefore : ∀ v,
      changeDoc.Lookup "fullDocumentBeforeChange" ≠ some (BsonValue.embeddedDocument v)) :
    processNextChange unmarshal (NextResult.record (some changeDoc)) newId
        PushResult.received =
      ProcessResult.returned none (some
        { Id := newId
          UserId := usr.ID
          BeforeChange := none
          AfterChange := some
            { ID := usr.ID, FirstName := usr.FirstName, LastName := usr.LastName,
              Email := usr.Email, HashedPassword := "", Country := usr.Country,
              Nickname := usr.Nickname, CreatedAt := usr.CreatedAt,
              UpdatedAt := usr.UpdatedAt }
          OperationType := OPERATION_CREATE }) := by
  rw [processNextChange_received unmarshal changeDoc "insert" newId hop]
  simp [eventOf, decodeChangeDocuments_eq, hafter, decodeImage_ok unmarshal value usr hdec,
    decodeImage_not_document unmarshal _ hbefore, determineUserID, userToDomain,
    operationToEnum]

/-- C1, instance: the insert record of user `u1`. -/
theorem processNextChange_insert_witness :
    processNextChange exampleUnmarshal (NextResult.record (some insertRecord)) "e1"
        PushResult.received =
      ProcessResult.returned none (some
        { Id := "e1"
          UserId := "u1"
          BeforeChange := none
          AfterChange := some
            { ID := "u1", FirstName := "Ann", LastName := "Lee", Email := "ann@mail.com",
              HashedPassword := "", Country := "IT", Nickname := "annie",
              CreatedAt := 1000000000, UpdatedAt := 1000000000 }
          OperationType := OPERATION_CREATE }) :=
  processNextChange_insert exampleUnmarshal insertRecord annDoc annEntity "e1" rfl rfl rfl
    (by intro v h; cases h)

/-- C2: for a record whose operation tag is update and whose fullDocument and
fullDocumentBeforeChange are embedded documents decoding to `usr` and `previousUser`,
`processNextChange` returns nil and pushes the event whose BeforeChange is the
conversion of `previousUser`, whose AfterChange is the conversion of `usr`, and whose
OperationType is UPDATE. -/
theorem processNextChange_update (unmarshal : Unmarshal) (changeDoc value previous : Raw)
    (usr previousUser : UserEntity) (newId : String)
    (hop : changeDoc.Lookup "operationType" = some (BsonValue.string "update"))
    (hafter : changeDoc.Lookup "fullDocument" = some (BsonValue.embeddedDocument value))
    (hdec : unmarshal value = Except.ok usr)
    (hbefore : changeDoc.Lookup "fullDocumentBeforeChange" =
      some (BsonValue.embeddedDocument previous))
    (hprev : unmarshal previous = Except.ok previousUser) :
    processNextChange unmarshal (NextResult.record (some changeDoc)) newId
        PushResult.received =
      ProcessResult.returned none (some
        { Id := newId
          UserId := previousUser.ID
          BeforeChange := some
            { ID := previousUser.ID, FirstName := previousUser.FirstName,
              LastName := previousUser.LastName, Email := previousUser.Email,
              HashedPassword := "", Country := previousUser.Country,
              Nickname := previousUser.Nickname, CreatedAt := previousUser.CreatedAt,
              UpdatedAt := previousUser.UpdatedAt }
          AfterChange := some
            { ID := usr.ID, FirstName := usr.FirstName, LastName := usr.LastName,
              Email := usr.Email, HashedPassword := "", Country := usr.Country,
              Nickname := usr.Nickname, CreatedAt := usr.CreatedAt,
              UpdatedAt := usr.UpdatedAt }
          OperationType := OPERATION_UPDATE }) := by
  rw [processNextChange_received unmarshal changeDoc "update" newId hop]
  simp [eventOf, decodeChangeDocuments_eq, hafter, hbefore,
    decodeImage_ok unmarshal value usr hdec,
    decodeImage_ok unmarshal previous previousUser hprev, determineUserID, userToDomain,
    operationToEnum]

/-- C2, instance: the update record from Ann to Anna. -/
theorem processNextChange_update_witness :
    processNextChange exampleUnmarshal (NextResult.record (some updateRecord)) "e2"
        PushResult.received =
      ProcessResult.returned none (some
        { Id := "e2"
          UserId := "u1"
          BeforeChange := some
            { ID := "u1", FirstName := "Ann", LastName := "Lee", Email := "ann@mail.com",
              HashedPassword := "", Country := "IT", Nickname := "annie",
              CreatedAt := 1000000000, UpdatedAt := 1000000000 }
          AfterChange := some
            { ID := "u1", FirstName := "Anna", LastName := "Lee", Email := "ann@mail.com",
              HashedPassword := "", Country := "IT", Nickname := "annie",
              CreatedAt := 1000000000, UpdatedAt := 2000000000 }
          OperationType := OPERATION_UPDATE }) :=
  processNextChange_update exampleUnmarshal updateRecord annaDoc annDoc annaEntity annEntity
    "e2" rfl rfl rfl rfl rfl

/-- C4: `operationToEnum` is defined on every string; it is CREATE exactly on
"insert", UPDATE exactly on "update", DELETE exactly on "delete" and UNSPECIFIED
exactly on every other string, among them the empty string and "Insert". -/
theorem operationToEnum_total (s : String) :
    (operationToEnum s = OPERATION_CREATE ↔ s = "insert") ∧
    (operationToEnum s = OPERATION_UPDATE ↔ s = "update") ∧
    (operationToEnum s = OPERATION_DELETE ↔ s = "delete") ∧
    (operationToEnum s = OPERATION_UNSPECIFIED ↔
      (s ≠ "insert" ∧ s ≠ "update" ∧ s ≠ "delete")) ∧
    operationToEnum "" = OPERATION_UNSPECIFIED ∧
    operationToEnum "Insert" = OPERATION_UNSPECIFIED ∧
    operationToEnum "INSERT" = OPERATION_UNSPECIFIED := by
  refine ⟨?_, ?_, ?_, ?_, by decide, by decide, by decide⟩
  all_goals
    unfold operationToEnum OPERATION_CREATE OPERATION_UPDATE OPERATION_DELETE
      OPERATION_UNSPECIFIED
    by_cases h1 : s = "insert"
    · subst h1
      simp
    · by_cases h2 : s = "update"
      · subst h2
        simp
      · by_cases h3 : s = "delete"
        · subst h3
          simp
        · simp [h1, h2, h3]

/-- C3, counterexample: a record tagged delete that carries a decodable fullDocument
yields an event whose AfterChange is not nil, so not every event of a delete record
has AfterChange nil. -/
theorem delete_afterChange_counterexample :
    deleteWithPostImage.Lookup "operationType" = some (BsonValue.string "delete") ∧
    processNextChange exampleUnmarshal (NextResult.record (some deleteWithPostImage)) "e3"
        PushResult.received =
      ProcessResult.returned none (some
        { Id := "e3"
          UserId := "u1"
          BeforeChange := none
          AfterChange := some
            { ID := "u1", FirstName := "Ann", LastName := "Lee", Email := "ann@mail.com",
              HashedPassword := "", Country := "IT", Nickname := "annie",
              CreatedAt := 1000000000, UpdatedAt := 1000000000 }
          OperationType := OPERATION_DELETE }) ∧
    ¬ (∀ e : UserEvent,
        processNextChange exampleUnmarshal (NextResult.record (some deleteWithPostImage))
            "e3" PushResult.received = ProcessResult.returned none (some e) →
        e.AfterChange = none) := by
  refine ⟨rfl, rfl, ?_⟩
  intro h
  have h2 : (eventOf exampleUnmarshal deleteWithPostImage "delete" "e3").AfterChange = none :=
    h _ rfl
  exact absurd h2 (by decide)

/-- C3, amended: for a record whose operation tag is delete, `processNextChange`
returns nil and pushes an event with OperationType DELETE; its AfterChange is nil when
the record has no fullDocument that is an embedded document accepted by the decoder;
its BeforeChange is the conversion of the decoded fullDocumentBeforeChange when that
field is an embedded document the decoder accepts, and nil otherwise. -/
theorem processNextChange_delete (unmarshal : Unmarshal) (changeDoc : Raw) (newId : String)
    (hop : changeDoc.Lookup "operationType" = some (BsonValue.string "delete")) :
    ∃ e : UserEvent,
      processNextChange unmarshal (NextResult.record (some changeDoc)) newId
          PushResult.received = ProcessResult.returned none (some e) ∧
      e.OperationType = OPERATION_DELETE ∧
      ((∀ v usr, changeDoc.Lookup "fullDocument" = some (BsonValue.embeddedDocument v) →
          unmarshal v ≠ Except.ok usr) → e.AfterChange = none) ∧
      (∀ v usr,
          changeDoc.Lookup "fullDocumentBeforeChange" = some (BsonValue.embeddedDocument v) →
          unmarshal v = Except.ok usr → e.BeforeChange = userToDomain (some usr)) ∧
      ((∀ v usr,
          changeDoc.Lookup "fullDocumentBeforeChange" = some (BsonValue.embeddedDocument v) →
          unmarshal v ≠ Except.ok usr) → e.BeforeChange = none) := by
  have hnone : ∀ field : Option BsonValue,
      (∀ v usr, field = some (BsonValue.embeddedDocument v) → unmarshal v ≠ Except.ok usr) →
      decodeImage unmarshal field = none := by
    intro field h
    unfold decodeImage
    split
    · rename_i value
      split
      · rfl
      · rename_i usr hu
        exact absurd hu (h value usr rfl)
    · rfl
  refine ⟨eventOf unmarshal changeDoc "delete" newId,
    processNextChange_received unmarshal changeDoc "delete" newId hop, ?_, ?_, ?_, ?_⟩
  · simp [eventOf, operationToEnum]
  · intro h
    simp [eventOf, decodeChangeDocuments_eq, hnone _ h, userToDomain]
  · intro v usr hv hu
    simp [eventOf, decodeChangeDocuments_eq, hv, decodeImage_ok unmarshal v usr hu]
  · intro h
    simp [eventOf, decodeChangeDocuments_eq, hnone _ h, userToDomain]

/-- C3, instance of the amended statement: the delete record with a pre-image. -/
theorem processNextChange_delete_witness :
    ∃ e : UserEvent,
      processNextChange exampleUnmarshal (NextResult.record (some deleteRecord)) "e3"
          PushResult.received = ProcessResult.returned none (some e) ∧
      e.OperationType = OPERATION_DELETE ∧
      ((∀ v usr, deleteRecord.Lookup "fullDocument" = some (BsonValue.embeddedDocument v) →
          exampleUnmarshal v ≠ Except.ok usr) → e.AfterChange = none) ∧
      (∀ v usr,
          deleteRecord.Lookup "fullDocumentBeforeChange" =
            some (BsonValue.embeddedDocument v) →
          exampleUnmarshal v = Except.ok usr → e.BeforeChange = userToDomain (some usr)) ∧
      ((∀ v usr,
          deleteRecord.Lookup "fullDocumentBeforeChange" =
            some (BsonValue.embeddedDocument v) →
          exampleUnmarshal v ≠ Except.ok usr) → e.BeforeChange = none) :=
  processNextChange_delete exampleUnmarshal deleteRecord "e3" rfl

/-- C5: for a record whose operation tag is a string other than insert, update and
delete, the pushed event has OperationType UNSPECIFIED, and its BeforeChange,
AfterChange and UserId are those of the event pushed for any record with the same
fullDocument and fullDocumentBeforeChange fields and any string tag `t`, a recognised
one included: decoding the images does not look at the tag. -/
theorem processNextChange_unrecognised (unmarshal : Unmarshal) (changeDoc other : Raw)
    (s t newId otherId : String)
    (hop : changeDoc.Lookup "operationType" = some (BsonValue.string s))
    (hs : s ≠ "insert" ∧ s ≠ "update" ∧ s ≠ "delete")
    (hother : other.Lookup "operationType" = some (BsonValue.string t))
    (hafter : other.Lookup "fullDocument" = changeDoc.Lookup "fullDocument")
    (hbefore : other.Lookup "fullDocumentBeforeChange" =
      changeDoc.Lookup "fullDocumentBeforeChange") :
    ∃ e e2 : UserEvent,
      processNextChange unmarshal (NextResult.record (some changeDoc)) newId
          PushResult.received = ProcessResult.returned none (some e) ∧
      processNextChange unmarshal (NextResult.record (some other)) otherId
          PushResult.received = ProcessResult.returned none (some e2) ∧
      e.OperationType = OPERATION_UNSPECIFIED ∧
      e.BeforeChange = e2.BeforeChange ∧
      e.AfterChange = e2.AfterChange ∧
      e.UserId = e2.UserId ∧
      e.BeforeChange =
        userToDomain (decodeImage unmarshal (changeDoc.Lookup "fullDocumentBeforeChange")) ∧
      e.AfterChange = userToDomain (decodeImage unmarshal (changeDoc.Lookup "fullDocument")) := by
  refine ⟨eventOf unmarshal changeDoc s newId, eventOf unmarshal other t otherId,
    processNextChange_received unmarshal changeDoc s newId hop,
    processNextChange_received unmarshal other t otherId hother, ?_, ?_, ?_, ?_, ?_, ?_⟩
  · simp [eventOf, operationToEnum, hs.1, hs.2.1, hs.2.2]
  · simp [eventOf, decodeChangeDocuments_eq, hbefore]
  · simp [eventOf, decodeChangeDocuments_eq, hafter]
  · simp [eventOf, decodeChangeDocuments_eq, hafter, hbefore]
  · simp [eventOf, decodeChangeDocuments_eq]
  · simp [eventOf, decodeChangeDocuments_eq]

/-- C5, instance: a record tagged replace against the update record with the same images. -/
theorem processNextChange_unrecognised_witness :
    ∃ e e2 : UserEvent,
      processNextChange exampleUnmarshal (NextResult.record (some replaceRecord)) "e4"
          PushResult.received = ProcessResult.returned none (some e) ∧
      processNextChange exampleUnmarshal (NextResult.record (some updateRecord)) "e5"
          PushResult.received = ProcessResult.returned none (some e2) ∧
      e.OperationType = OPERATION_UNSPECIFIED ∧
      e.BeforeChange = e2.BeforeChange ∧
      e.AfterChange = e2.AfterChange ∧
      e.UserId = e2.UserId ∧
      e.BeforeChange =
        userToDomain
          (decodeImage exampleUnmarshal (replaceRecord.Lookup "fullDocumentBeforeChange")) ∧
      e.AfterChange =
        userToDomain (decodeImage exampleUnmarshal (replaceRecord.Lookup "fullDocument")) :=
  processNextChange_unrecognised exampleUnmarshal replaceRecord updateRecord "replace"
    "update" "e4" "e5" rfl (by decide) rfl rfl rfl

/-- C6: when the fullDocument or the fullDocumentBeforeChange of a record (the field
`key`) is an embedded document the decoder rejects, `processNextChange` ends exactly as
it does on the same record without that field, for every operation tag and every
outcome of the push; with the consumer receiving it never returns an error; and for a
string operation tag it returns nil and pushes an event whose failing side is nil and
whose other side is what its own field alone decodes to. -/
theorem decode_failure_isolated (unmarshal : Unmarshal) (changeDoc value : Raw)
    (key err newId : String) (push : PushResult)
    (hkey : key = "fullDocument" ∨ key = "fullDocumentBeforeChange")
    (hfield : changeDoc.Lookup key = some (BsonValue.embeddedDocument value))
    (hfail : unmarshal value = Except.error err) :
    processNextChange unmarshal (NextResult.record (some changeDoc)) newId push =
      processNextChange unmarshal (NextResult.record (some (dropField changeDoc key)))
        newId push ∧
    (∀ e2 pushed, processNextChange unmarshal (NextResult.record (some changeDoc)) newId
        PushResult.received ≠ ProcessResult.returned (some e2) pushed) ∧
    (∀ operationType,
      changeDoc.Lookup "operationType" = some (BsonValue.string operationType) →
      ∃ e : UserEvent,
        processNextChange unmarshal (NextResult.record (some changeDoc)) newId
            PushResult.received = ProcessResult.returned none (some e) ∧
        e.OperationType = operationToEnum operationType ∧
        (key = "fullDocument" →
          e.AfterChange = none ∧
          e.BeforeChange = userToDomain
            (decodeImage unmarshal (changeDoc.Lookup "fullDocumentBeforeChange"))) ∧
        (key = "fullDocumentBeforeChange" →
          e.BeforeChange = none ∧
          e.AfterChange = userToDomain
            (decodeImage unmarshal (changeDoc.Lookup "fullDocument")))) := by
  have hside : decodeImage unmarshal (changeDoc.Lookup key) = none := by
    rw [hfield]
    exact decodeImage_error unmarshal value err hfail
  have hdec : decodeChangeDocuments unmarshal (dropField changeDoc key) =
      decodeChangeDocuments unmarshal changeDoc := by
    rw [decodeChangeDocuments_eq, decodeChangeDocuments_eq]
    rcases hkey with h | h
    · subst h
      rw [Lookup_dropField_self, Lookup_dropField_other _ _ _ (by decide), hside]
      rfl
    · subst h
      rw [Lookup_dropField_self, Lookup_dropField_other _ _ _ (by decide), hside]
      rfl
  have hop : Raw.Lookup (dropField changeDoc key) "operationType" =
      Raw.Lookup changeDoc "operationType" := by
    rcases hkey with h | h
    · subst h
      exact Lookup_dropField_other _ _ _ (by decide)
    · subst h
      exact Lookup_dropField_other _ _ _ (by decide)
  refine ⟨?_, ?_, ?_⟩
  · simp only [processNextChange, hdec, hop]
  · intro e2 pushed h
    simp only [processNextChange] at h
    cases hS : StringValue (Raw.Lookup changeDoc "operationType") with
    | error msg => simp [hS] at h
    | ok operationType => simp [hS] at h
  · intro operationType hopt
    refine ⟨eventOf unmarshal changeDoc operationType newId,
      processNextChange_received unmarshal changeDoc operationType newId hopt, rfl, ?_, ?_⟩
    · intro h
      subst h
      simp [eventOf, decodeChangeDocuments_eq, hside, userToDomain]
    · intro h
      subst h
      simp [eventOf, decodeChangeDocuments_eq, hside, userToDomain]

/-- C6, instance: an update record whose fullDocument the decoder rejects. -/
theorem decode_failure_isolated_witness :
    processNextChange exampleUnmarshal (NextResult.record (some badPostImageRecord)) "e6"
        PushResult.received =
      ProcessResult.returned none (some
        { Id := "e6"
          UserId := "u1"
          BeforeChange := userToDomain (some annEntity)
          AfterChange := none
          OperationType := OPERATION_UPDATE }) ∧
    processNextChange exampleUnmarshal (NextResult.record (some badPostImageRecord)) "e6"
        PushResult.received =
      processNextChange exampleUnmarshal
        (NextResult.record (some (dropField badPostImageRecord "fullDocument"))) "e6"
        PushResult.received :=
  ⟨rfl,
   (decode_failure_isolated exampleUnmarshal badPostImageRecord badDoc "fullDocument"
      "cannot decode _id" "e6" PushResult.received (Or.inl rfl) rfl rfl).1⟩

/-- C7: whenever `processNextChange` pushes an event, its UserId is the ID of the
decoded pre-image if one was decoded, otherwise the ID of the decoded post-image if
one was decoded, otherwise the empty string; in terms of the event, UserId is the ID
of BeforeChange whenever BeforeChange is not nil, whatever the ID of AfterChange, the
ID of AfterChange when only AfterChange is not nil, and empty when both are nil. -/
theorem userId_of_pushed_event (unmarshal : Unmarshal) (next : NextResult) (newId : String)
    (push : PushResult) (err : Option String) (e : UserEvent)
    (h : processNextChange unmarshal next newId push = ProcessResult.returned err (some e)) :
    ∃ changeDoc : Raw,
      next = NextResult.record (some changeDoc) ∧
      e.UserId =
        (match (decodeChangeDocuments unmarshal changeDoc).2 with
         | some beforeChange => beforeChange.ID
         | none =>
           match (decodeChangeDocuments unmarshal changeDoc).1 with
           | some afterChange => afterChange.ID
           | none => "") ∧
      (∀ u, e.BeforeChange = some u → e.UserId = u.ID) ∧
      (e.BeforeChange = none → ∀ u, e.AfterChange = some u → e.UserId = u.ID) ∧
      (e.BeforeChange = none → e.AfterChange = none → e.UserId = "") := by
  cases next with
  | stopped serr =>
    cases serr <;> simp [processNextChange] at h
  | record current =>
    cases current with
    | none => simp [processNextChange] at h
    | some changeDoc =>
      refine ⟨changeDoc, rfl, ?_⟩
      simp only [processNextChange] at h
      cases hS : StringValue (Raw.Lookup changeDoc "operationType") with
      | error msg => simp [hS] at h
      | ok operationType =>
        cases push with
        | done ctxErr => simp [hS] at h
        | received =>
          simp [hS] at h
          obtain ⟨_, rfl⟩ := h
          cases hb : (decodeChangeDocuments unmarshal changeDoc).2 with
          | some b => simp [determineUserID, userToDomain]
          | none =>
            cases ha : (decodeChangeDocuments unmarshal changeDoc).1 with
            | some a => simp [determineUserID, userToDomain]
            | none => simp [determineUserID, userToDomain]

/-- C7, instance: a record whose pre-image has id `u1` and whose post-image has id `u2`. -/
theorem userId_of_pushed_event_witness :
    processNextChange exampleUnmarshal (NextResult.record (some mixedIdRecord)) "e7"
        PushResult.received =
      ProcessResult.returned none
        (some (eventOf exampleUnmarshal mixedIdRecord "update" "e7")) ∧
    (eventOf exampleUnmarshal mixedIdRecord "update" "e7").UserId = "u1" ∧
    (∃ a, (eventOf exampleUnmarshal mixedIdRecord "update" "e7").AfterChange = some a ∧
      a.ID = "u2") ∧
    (∀ u, (eventOf exampleUnmarshal mixedIdRecord "update" "e7").BeforeChange = some u →
      (eventOf exampleUnmarshal mixedIdRecord "update" "e7").UserId = u.ID) :=
  ⟨rfl, rfl, ⟨_, rfl, rfl⟩,
   match userId_of_pushed_event exampleUnmarshal (NextResult.record (some mixedIdRecord))
      "e7" PushResult.received none (eventOf exampleUnmarshal mixedIdRecord "update" "e7")
      rfl with
   | ⟨_, _, _, h, _⟩ => h⟩

/-- C8: for every producer, whatever calls it fails, and every finite sequence of
events received from the watcher, the dispatch loop calls `SendMessage` on exactly the
received events, once each and in the order received; the producer ends in the state
reached by applying `SendMessage` to each event in turn; after any event, failed or
not, the loop goes on with the next one; and the loop started by `StartWatchingUsers`
calls `SendMessage` on exactly the events of the run of the watcher. -/
theorem dispatchLoop_sends_each_event_once {σ : Type} (send : SendMessage σ)
    (st : DispatchState σ) (events : List UserEvent) (unmarshal : Unmarshal) (producer : σ)
    (openErr : Option String) (its : List Iteration) :
    (dispatchLoop send st events).calls = st.calls ++ events ∧
    (dispatchLoop send st events).producer =
      events.foldl (fun p ev => (send p ev).1) st.producer ∧
    (∀ ev, dispatchLoop send st (events ++ [ev]) =
      dispatchOne send (dispatchLoop send st events) ev) ∧
    (StartWatchingUsers unmarshal send producer openErr its).calls =
      (WatchUsers unmarshal openErr its).events ∧
    (StartWatchingUsers unmarshal send producer openErr its).producer =
      (WatchUsers unmarshal openErr its).events.foldl (fun p ev => (send p ev).1)
        producer := by
  refine ⟨dispatchLoop_calls send st events, dispatchLoop_producer send st events,
    fun ev => dispatchLoop_snoc send st events ev, ?_, ?_⟩
  · simp [StartWatchingUsers, dispatchLoop_calls]
  · simp [StartWatchingUsers, dispatchLoop_producer]

/-- C9: once a pass of the watcher observes the context done, at the `select` that
opens the pass or at the push of an event, the run is the run up to that pass: the
events received are those received before it, the channel is closed, and the
dispatch loop has called `SendMessage` on those earlier events only. -/
theorem cancellation_stops_relay {σ : Type} (unmarshal : Unmarshal) (send : SendMessage σ)
    (producer : σ) (openErr : Option String) (pre : List Iteration) (it : Iteration)
    (rest : List Iteration)
    (hc : it.done = true ∨ ∃ changeDoc operationType ctxErr,
      it.next = NextResult.record (some changeDoc) ∧
      changeDoc.Lookup "operationType" = some (BsonValue.string operationType) ∧
      it.push = PushResult.done ctxErr) :
    WatchUsers unmarshal openErr (pre ++ it :: rest) =
      WatchUsers unmarshal openErr (pre ++ [it]) ∧
    (WatchUsers unmarshal openErr (pre ++ it :: rest)).events =
      (WatchUsers unmarshal openErr pre).events ∧
    (WatchUsers unmarshal openErr (pre ++ it :: rest)).channelClosed = true ∧
    (StartWatchingUsers unmarshal send producer openErr (pre ++ it :: rest)).calls =
      (WatchUsers unmarshal openErr pre).events := by
  have hstop : it.done = true ∨ ∃ err,
      processNextChange unmarshal it.next it.newId it.push =
        ProcessResult.returned (some err) none := by
    rcases hc with h | ⟨changeDoc, operationType, ctxErr, h1, h2, h3⟩
    · exact Or.inl h
    · exact Or.inr ⟨ctxErr, by simp [processNextChange, h1, h2, h3, StringValue]⟩
  obtain ⟨h1, h2, h3, _⟩ := watchLoop_append_stops unmarshal pre it rest hstop
  cases openErr with
  | some e => simp [WatchUsers, StartWatchingUsers, WatchRun.channelClosed, dispatchLoop]
  | none =>
    refine ⟨h1, h2, h3, ?_⟩
    simp only [StartWatchingUsers, dispatchLoop_calls, WatchUsers, List.nil_append]
    exact h2

/-- C9, instance: an insert is relayed, the context is done during the next push, and a later delete is never read. -/
theorem cancellation_stops_relay_witness :
    WatchUsers exampleUnmarshal none
        ([receivedPass insertRecord "e1"] ++
          pushCancelledPass :: [receivedPass deleteRecord "e3"]) =
      WatchUsers exampleUnmarshal none ([receivedPass insertRecord "e1"] ++ [pushCancelledPass]) ∧
    (WatchUsers exampleUnmarshal none
        ([receivedPass insertRecord "e1"] ++
          pushCancelledPass :: [receivedPass deleteRecord "e3"])).events =
      (WatchUsers exampleUnmarshal none [receivedPass insertRecord "e1"]).events ∧
    (WatchUsers exampleUnmarshal none
        ([receivedPass insertRecord "e1"] ++
          pushCancelledPass :: [receivedPass deleteRecord "e3"])).channelClosed = true ∧
    (StartWatchingUsers exampleUnmarshal recordingSend [] none
        ([receivedPass insertRecord "e1"] ++
          pushCancelledPass :: [receivedPass deleteRecord "e3"])).calls =
      (WatchUsers exampleUnmarshal none [receivedPass insertRecord "e1"]).events :=
  cancellation_stops_relay exampleUnmarshal recordingSend [] none
    [receivedPass insertRecord "e1"] pushCancelledPass [receivedPass deleteRecord "e3"]
    (Or.inr ⟨updateRecord, "update", "context canceled", rfl, rfl, rfl⟩)

/-- C10: when the read of the cursor fails and the cursor reports the error `err`,
`processNextChange` returns an error and pushes nothing, and the run of the watcher is
the run up to that pass: no event beyond those received before it, the channel
closed, and no read after the failed one. -/
theorem cursor_error_closes_watcher (unmarshal : Unmarshal) (openErr : Option String)
    (pre : List Iteration) (it : Iteration) (rest : List Iteration) (err : String)
    (hd : it.done = false) (hn : it.next = NextResult.stopped (some err)) :
    processNextChange unmarshal it.next it.newId it.push =
      ProcessResult.returned (some ("change stream error: " ++ err)) none ∧
    WatchUsers unmarshal openErr (pre ++ it :: rest) =
      WatchUsers unmarshal openErr (pre ++ [it]) ∧
    (WatchUsers unmarshal openErr (pre ++ it :: rest)).events =
      (WatchUsers unmarshal openErr pre).events ∧
    (WatchUsers unmarshal openErr (pre ++ it :: rest)).channelClosed = true ∧
    (WatchUsers unmarshal openErr (pre ++ it :: rest)).reads ≤
      (WatchUsers unmarshal openErr pre).reads + 1 ∧
    ((WatchUsers unmarshal openErr pre).state = WatcherState.streaming →
      (WatchUsers unmarshal openErr (pre ++ it :: rest)).state =
        WatcherState.closed (CloseReason.processError ("change stream error: " ++ err)) ∧
      (WatchUsers unmarshal openErr (pre ++ it :: rest)).reads =
        (WatchUsers unmarshal openErr pre).reads + 1) := by
  have hp : processNextChange unmarshal it.next it.newId it.push =
      ProcessResult.returned (some ("change stream error: " ++ err)) none := by
    simp [processNextChange, hn]
  obtain ⟨h1, h2, h3, h4⟩ := watchLoop_append_stops unmarshal pre it rest (Or.inr ⟨_, hp⟩)
  refine ⟨hp, ?_⟩
  cases openErr with
  | some e => simp [WatchUsers, WatchRun.channelClosed]
  | none =>
    refine ⟨h1, h2, h3, h4, ?_⟩
    intro hs
    simp only [WatchUsers] at hs ⊢
    rw [watchLoop_append, hs, watchLoop_cons]
    simp [hd, hp]

/-- C10, instance: an insert is relayed, the next read fails, and a later delete is never read. -/
theorem cursor_error_closes_watcher_witness :
    processNextChange exampleUnmarshal cursorErrorPass.next cursorErrorPass.newId
        cursorErrorPass.push =
      ProcessResult.returned (some ("change stream error: " ++ "connection lost")) none ∧
    WatchUsers exampleUnmarshal none
        ([receivedPass insertRecord "e1"] ++
          cursorErrorPass :: [receivedPass deleteRecord "e3"]) =
      WatchUsers exampleUnmarshal none ([receivedPass insertRecord "e1"] ++ [cursorErrorPass]) ∧
    (WatchUsers exampleUnmarshal none
        ([receivedPass insertRecord "e1"] ++
          cursorErrorPass :: [receivedPass deleteRecord "e3"])).events =
      (WatchUsers exampleUnmarshal none [receivedPass insertRecord "e1"]).events ∧
    (WatchUsers exampleUnmarshal none
        ([receivedPass insertRecord "e1"] ++
          cursorErrorPass :: [receivedPass deleteRecord "e3"])).channelClosed = true ∧
    (WatchUsers exampleUnmarshal none
        ([receivedPass insertRecord "e1"] ++
          cursorErrorPass :: [receivedPass deleteRecord "e3"])).reads ≤
      (WatchUsers exampleUnmarshal none [receivedPass insertRecord "e1"]).reads + 1 ∧
    ((WatchUsers exampleUnmarshal none [receivedPass insertRecord "e1"]).state =
        WatcherState.streaming →
      (WatchUsers exampleUnmarshal none
          ([receivedPass insertRecord "e1"] ++
            cursorErrorPass :: [receivedPass deleteRecord "e3"])).state =
        WatcherState.closed
          (CloseReason.processError ("change stream error: " ++ "connection lost")) ∧
      (WatchUsers exampleUnmarshal none
          ([receivedPass insertRecord "e1"] ++
            cursorErrorPass :: [receivedPass deleteRecord "e3"])).reads =
        (WatchUsers exampleUnmarshal none [receivedPass insertRecord "e1"]).reads + 1) :=
  cursor_error_closes_watcher exampleUnmarshal none [receivedPass insertRecord "e1"]
    cursorErrorPass [receivedPass deleteRecord "e3"] "connection lost" rfl rfl

/-! ## The producer -/

theorem timestamppb_New_instant (t : Time) :
    (timestamppb.New t).Seconds * 1000000000 + (timestamppb.New t).Nanos = t ∧
    0 ≤ (timestamppb.New t).Nanos ∧ (timestamppb.New t).Nanos < 1000000000 := by
  simp only [timestamppb.New]
  refine ⟨?_, ?_, ?_⟩
  · have := Int.ediv_add_emod t 1000000000
    linarith
  · exact Int.emod_nonneg t (by decide)
  · exact Int.emod_lt_of_pos t (by decide)

theorem userToProto_sameSnapshot (u : User) :
    ∃ w, userToProto (some u) = some w ∧ SameSnapshot u w := by
  refine ⟨_, rfl, rfl, rfl, rfl, rfl, rfl, rfl, ?_, ?_⟩
  · exact ⟨_, rfl, timestamppb_New_instant u.CreatedAt⟩
  · exact ⟨_, rfl, timestamppb_New_instant u.UpdatedAt⟩

theorem SendMessage_ok {β : Type} (marshal : Marshal) (produce : Produce β)
    (p : ProducerState β) (message : UserEvent) (value : ByteArray)
    (hm : marshal (userEventToProto message) = Except.ok value) :
    userProducer.SendMessage marshal produce p message =
      match (produce p.broker (messageOf p.topic message value)).2 with
      | some err =>
        ({ p with
            broker := (produce p.broker (messageOf p.topic message value)).1
            produced := p.produced ++ [messageOf p.topic message value]
            logs := p.logs ++ ["unable to enqueue message"] },
          some err)
      | none =>
        ({ p with
            broker := (produce p.broker (messageOf p.topic message value)).1
            produced := p.produced ++ [messageOf p.topic message value]
            drains := p.drains + 1 },
          none) := by
  simp only [userProducer.SendMessage, hm, messageOf]

theorem SendMessage_marshal_error {β : Type} (marshal : Marshal) (produce : Produce β)
    (p : ProducerState β) (message : UserEvent) (err : String)
    (hm : marshal (userEventToProto message) = Except.error err) :
    userProducer.SendMessage marshal produce p message =
      ({ p with logs := p.logs ++ ["unable to marshal message: " ++ err] }, some err) := by
  simp only [userProducer.SendMessage, hm]

/-- C11: when serialising the event succeeds with bytes `value`, `SendMessage` passes
to `broker.Produce` exactly one message, whose key is the UTF-8 bytes of the UserId of
the event, whose topic is the topic the producer was built with, whose partition is
`PartitionAny`, and whose value is `value`; the topic of the producer is unchanged by
the call. -/
theorem SendMessage_message {β : Type} (marshal : Marshal) (produce : Produce β)
    (p : ProducerState β) (message : UserEvent) (value : ByteArray)
    (hm : marshal (userEventToProto message) = Except.ok value) :
    (userProducer.SendMessage marshal produce p message).1.produced =
      p.produced ++
        [{ Key := message.UserId.toUTF8, Topic := p.topic, Partition := PartitionAny,
           Value := value }] ∧
    (userProducer.SendMessage marshal produce p message).1.broker =
      (produce p.broker
        { Key := message.UserId.toUTF8, Topic := p.topic, Partition := PartitionAny,
          Value := value }).1 ∧
    (userProducer.SendMessage marshal produce p message).1.topic = p.topic := by
  rw [SendMessage_ok marshal produce p message value hm]
  cases h : (produce p.broker (messageOf p.topic message value)).2 <;>
    simp [messageOf]

/-- C11, instance: the event of the producer test sent on the topic of `main`. -/
theorem SendMessage_message_witness :
    (userProducer.SendMessage exampleMarshal exampleProduce
        (NewUserProducer [] "go-ddd-crud_user-event") createdEvent).1.produced =
      [] ++
        [{ Key := "user_123".toUTF8, Topic := "go-ddd-crud_user-event",
           Partition := PartitionAny, Value := "1".toUTF8 }] ∧
    (userProducer.SendMessage exampleMarshal exampleProduce
        (NewUserProducer [] "go-ddd-crud_user-event") createdEvent).1.broker =
      (exampleProduce []
        { Key := "user_123".toUTF8, Topic := "go-ddd-crud_user-event",
          Partition := PartitionAny, Value := "1".toUTF8 }).1 ∧
    (userProducer.SendMessage exampleMarshal exampleProduce
        (NewUserProducer [] "go-ddd-crud_user-event") createdEvent).1.topic =
      "go-ddd-crud_user-event" :=
  SendMessage_message exampleMarshal exampleProduce
    (NewUserProducer [] "go-ddd-crud_user-event") createdEvent "1".toUTF8 rfl

/-- C12: `SendMessage` returns the error `err` exactly when serialising the event
fails with `err`, or serialising succeeds and `broker.Produce` returns `err`; when
serialising fails, `Produce` is not called; it returns nil exactly when serialising
succeeds and `Produce` returns nil; and a delivery report drained from
`broker.Events()` changes only the log, so it changes the result of no call. -/
theorem SendMessage_error_iff {β : Type} (marshal : Marshal) (produce : Produce β)
    (p : ProducerState β) (message : UserEvent) :
    (∀ err, (userProducer.SendMessage marshal produce p message).2 = some err ↔
      (marshal (userEventToProto message) = Except.error err ∨
        ∃ value, marshal (userEventToProto message) = Except.ok value ∧
          (produce p.broker (messageOf p.topic message value)).2 = some err)) ∧
    (∀ err, marshal (userEventToProto message) = Except.error err →
      (userProducer.SendMessage marshal produce p message).1.produced = p.produced ∧
      (userProducer.SendMessage marshal produce p message).1.broker = p.broker) ∧
    ((userProducer.SendMessage marshal produce p message).2 = none ↔
      ∃ value, marshal (userEventToProto message) = Except.ok value ∧
        (produce p.broker (messageOf p.topic message value)).2 = none) ∧
    (∀ e : KafkaEvent,
      (drainEvent p e).broker = p.broker ∧ (drainEvent p e).topic = p.topic ∧
      (drainEvent p e).produced = p.produced ∧ (drainEvent p e).drains = p.drains ∧
      (userProducer.SendMessage marshal produce (drainEvent p e) message).2 =
        (userProducer.SendMessage marshal produce p message).2) := by
  have hdrain : ∀ e : KafkaEvent,
      (drainEvent p e).broker = p.broker ∧ (drainEvent p e).topic = p.topic ∧
      (drainEvent p e).produced = p.produced ∧ (drainEvent p e).drains = p.drains := by
    intro e
    cases e with
    | other => simp [drainEvent]
    | message topic partition offset err => cases err <;> simp [drainEvent]
  cases hm : marshal (userEventToProto message) with
  | error e0 =>
    rw [SendMessage_marshal_error marshal produce p message e0 hm]
    refine ⟨?_, ?_, ?_, ?_⟩
    · intro err
      simp
    · intro err _
      exact ⟨rfl, rfl⟩
    · simp
    · intro e
      obtain ⟨h1, h2, h3, h4⟩ := hdrain e
      refine ⟨h1, h2, h3, h4, ?_⟩
      rw [SendMessage_marshal_error marshal produce (drainEvent p e) message e0 hm]
  | ok value =>
    rw [SendMessage_ok marshal produce p message value hm]
    refine ⟨?_, ?_, ?_, ?_⟩
    · intro err
      cases h : (produce p.broker (messageOf p.topic message value)).2 <;> simp [h]
    · intro err h
      cases h
    · cases h : (produce p.broker (messageOf p.topic message value)).2 <;> simp [h]
    · intro e
      obtain ⟨h1, h2, h3, h4⟩ := hdrain e
      refine ⟨h1, h2, h3, h4, ?_⟩
      rw [SendMessage_ok marshal produce (drainEvent p e) message value hm, h1, h2]
      cases h : (produce p.broker (messageOf p.topic message value)).2 <;> simp

/-- C13: `userEventToProto` keeps Id and UserId; BeforeChange and AfterChange of the
wire event are absent exactly when those of the domain event are nil, and otherwise
carry the same id, names, email, country, nickname and the same created and updated
instants; the operation type is CREATE, UPDATE or DELETE exactly for the domain value
of that name, and UNSPECIFIED for every other domain value, out of range included. -/
theorem userEventToProto_fields (event : UserEvent) :
    (userEventToProto event).Id = event.Id ∧
    (userEventToProto event).UserId = event.UserId ∧
    ((userEventToProto event).BeforeChange = none ↔ event.BeforeChange = none) ∧
    ((userEventToProto event).AfterChange = none ↔ event.AfterChange = none) ∧
    (∀ u, event.BeforeChange = some u →
      ∃ w, (userEventToProto event).BeforeChange = some w ∧ SameSnapshot u w) ∧
    (∀ u, event.AfterChange = some u →
      ∃ w, (userEventToProto event).AfterChange = some w ∧ SameSnapshot u w) ∧
    ((userEventToProto event).OperationType = pb.OperationType.OPERATION_CREATE ↔
      event.OperationType = OPERATION_CREATE) ∧
    ((userEventToProto event).OperationType = pb.OperationType.OPERATION_UPDATE ↔
      event.OperationType = OPERATION_UPDATE) ∧
    ((userEventToProto event).OperationType = pb.OperationType.OPERATION_DELETE ↔
      event.OperationType = OPERATION_DELETE) ∧
    ((userEventToProto event).OperationType = pb.OperationType.OPERATION_UNSPECIFIED ↔
      (event.OperationType ≠ OPERATION_CREATE ∧ event.OperationType ≠ OPERATION_UPDATE ∧
        event.OperationType ≠ OPERATION_DELETE)) ∧
    operationTypeToProto 7 = pb.OperationType.OPERATION_UNSPECIFIED ∧
    operationTypeToProto (-1) = pb.OperationType.OPERATION_UNSPECIFIED := by
  refine ⟨rfl, rfl, ?_, ?_, ?_, ?_, ?_, ?_, ?_, ?_, by decide, by decide⟩
  · cases h : event.BeforeChange <;> simp [userEventToProto, userToProto, h]
  · cases h : event.AfterChange <;> simp [userEventToProto, userToProto, h]
  · intro u h
    simp only [userEventToProto, h]
    exact userToProto_sameSnapshot u
  · intro u h
    simp only [userEventToProto, h]
    exact userToProto_sameSnapshot u
  all_goals
    simp only [userEventToProto, operationTypeToProto, OPERATION_CREATE, OPERATION_UPDATE,
      OPERATION_DELETE, OPERATION_UNSPECIFIED]
    by_cases h1 : event.OperationType = 1
    · simp [h1]
    · by_cases h2 : event.OperationType = 2
      · simp [h2]
      · by_cases h3 : event.OperationType = 3
        · simp [h3]
        · simp [h1, h2, h3]

/-! ## The watcher: events without images, tags that are not strings -/

theorem decodeImage_ne_none_iff (unmarshal : Unmarshal) (field : Option BsonValue) :
    decodeImage unmarshal field ≠ none ↔
      ∃ v usr, field = some (BsonValue.embeddedDocument v) ∧ unmarshal v = Except.ok usr := by
  constructor
  · intro h
    unfold decodeImage at h
    split at h
    · rename_i value
      split at h
      · exact absurd rfl h
      · rename_i usr hu
        exact ⟨value, usr, rfl, hu⟩
    · exact absurd rfl h
  · rintro ⟨v, usr, rfl, hu⟩
    simp [decodeImage, hu]

theorem userToDomain_eq_none_iff (u : Option UserEntity) : userToDomain u = none ↔ u = none := by
  cases u <;> simp [userToDomain]

/-- A pushed event is `eventOf` of a record with a string operation tag. -/
theorem pushed_event_eq (unmarshal : Unmarshal) (next : NextResult) (newId : String)
    (push : PushResult) (err : Option String) (e : UserEvent)
    (h : processNextChange unmarshal next newId push = ProcessResult.returned err (some e)) :
    ∃ changeDoc operationType,
      next = NextResult.record (some changeDoc) ∧
      changeDoc.Lookup "operationType" = some (BsonValue.string operationType) ∧
      push = PushResult.received ∧ err = none ∧
      e = eventOf unmarshal changeDoc operationType newId := by
  cases next with
  | stopped serr => cases serr <;> simp [processNextChange] at h
  | record current =>
    cases current with
    | none => simp [processNextChange] at h
    | some changeDoc =>
      cases hl : Raw.Lookup changeDoc "operationType" with
      | none => simp [processNextChange, hl, StringValue] at h
      | some v =>
        cases v with
        | string operationType =>
          cases push with
          | done ctxErr => simp [processNextChange, hl, StringValue] at h
          | received =>
            simp [processNextChange, hl, StringValue] at h
            exact ⟨changeDoc, operationType, rfl, hl, rfl, h.1.symm, h.2.symm⟩
        | null => simp [processNextChange, hl, StringValue] at h
        | boolean b => simp [processNextChange, hl, StringValue] at h
        | int64 n => simp [processNextChange, hl, StringValue] at h
        | dateTime ms => simp [processNextChange, hl, StringValue] at h
        | embeddedDocument d => simp [processNextChange, hl, StringValue] at h

/-- A record whose operationType is not a string makes `processNextChange` panic. -/
theorem processNextChange_panics (unmarshal : Unmarshal) (changeDoc : Raw) (newId : String)
    (push : PushResult)
    (h : ∀ s, changeDoc.Lookup "operationType" ≠ some (BsonValue.string s)) :
    processNextChange unmarshal (NextResult.record (some changeDoc)) newId push =
      ProcessResult.panicked "StringValue: value is not a string" := by
  cases hl : Raw.Lookup changeDoc "operationType" with
  | none => simp [processNextChange, hl, StringValue]
  | some v =>
    cases v with
    | string s => exact absurd hl (h s)
    | null => simp [processNextChange, hl, StringValue]
    | boolean b => simp [processNextChange, hl, StringValue]
    | int64 n => simp [processNextChange, hl, StringValue]
    | dateTime ms => simp [processNextChange, hl, StringValue]
    | embeddedDocument d => simp [processNextChange, hl, StringValue]

/-- C14, counterexample: an insert record whose only image does not decode yields a
CREATE event with BeforeChange and AfterChange both nil. -/
theorem create_without_images_counterexample :
    processNextChange exampleUnmarshal (NextResult.record (some undecodableInsertRecord))
        "e11" PushResult.received =
      ProcessResult.returned none (some
        { Id := "e11", UserId := "", BeforeChange := none, AfterChange := none,
          OperationType := OPERATION_CREATE }) ∧
    ¬ (∀ e : UserEvent,
        processNextChange exampleUnmarshal (NextResult.record (some undecodableInsertRecord))
            "e11" PushResult.received = ProcessResult.returned none (some e) →
        (e.OperationType = OPERATION_CREATE ∨ e.OperationType = OPERATION_UPDATE) →
        (e.BeforeChange ≠ none ∨ e.AfterChange ≠ none)) := by
  refine ⟨rfl, ?_⟩
  intro h
  have h2 := h (eventOf exampleUnmarshal undecodableInsertRecord "insert" "e11") rfl
    (Or.inl rfl)
  exact absurd h2 (by decide)

/-- C14, amended: an event pushed by the watcher, of whatever OperationType, CREATE and
UPDATE included, has BeforeChange or AfterChange non-nil exactly when the
fullDocumentBeforeChange or the fullDocument of its record is an embedded document
the decoder accepts; when neither is, the event is pushed all the same, with both nil
and an empty UserId. -/
theorem pushed_event_images (unmarshal : Unmarshal) (next : NextResult) (newId : String)
    (push : PushResult) (err : Option String) (e : UserEvent)
    (h : processNextChange unmarshal next newId push = ProcessResult.returned err (some e)) :
    ∃ changeDoc : Raw,
      next = NextResult.record (some changeDoc) ∧
      (e.BeforeChange ≠ none ↔
        ∃ v usr, changeDoc.Lookup "fullDocumentBeforeChange" =
          some (BsonValue.embeddedDocument v) ∧ unmarshal v = Except.ok usr) ∧
      (e.AfterChange ≠ none ↔
        ∃ v usr, changeDoc.Lookup "fullDocument" = some (BsonValue.embeddedDocument v) ∧
          unmarshal v = Except.ok usr) ∧
      (e.BeforeChange = none → e.AfterChange = none → e.UserId = "") := by
  obtain ⟨changeDoc, operationType, rfl, _, _, _, rfl⟩ :=
    pushed_event_eq unmarshal next newId push err e h
  refine ⟨changeDoc, rfl, ?_, ?_, ?_⟩
  · rw [← decodeImage_ne_none_iff]
    simp only [eventOf, decodeChangeDocuments_eq, ne_eq, userToDomain_eq_none_iff]
  · rw [← decodeImage_ne_none_iff]
    simp only [eventOf, decodeChangeDocuments_eq, ne_eq, userToDomain_eq_none_iff]
  · simp only [eventOf, userToDomain_eq_none_iff]
    intro hb ha
    simp [hb, ha, determineUserID]

/-- C14, instance of the amended statement: the update record with both images. -/
theorem pushed_event_images_witness :
    ∃ changeDoc : Raw,
      NextResult.record (some updateRecord) = NextResult.record (some changeDoc) ∧
      ((eventOf exampleUnmarshal updateRecord "update" "e2").BeforeChange ≠ none ↔
        ∃ v usr, changeDoc.Lookup "fullDocumentBeforeChange" =
          some (BsonValue.embeddedDocument v) ∧ exampleUnmarshal v = Except.ok usr) ∧
      ((eventOf exampleUnmarshal updateRecord "update" "e2").AfterChange ≠ none ↔
        ∃ v usr, changeDoc.Lookup "fullDocument" = some (BsonValue.embeddedDocument v) ∧
          exampleUnmarshal v = Except.ok usr) ∧
      ((eventOf exampleUnmarshal updateRecord "update" "e2").BeforeChange = none →
        (eventOf exampleUnmarshal updateRecord "update" "e2").AfterChange = none →
        (eventOf exampleUnmarshal updateRecord "update" "e2").UserId = "") :=
  pushed_event_images exampleUnmarshal (NextResult.record (some updateRecord)) "e2"
    PushResult.received none (eventOf exampleUnmarshal updateRecord "update" "e2") rfl

/-- C15, the code at the failing inputs: on a record without operationType, and on a
record whose operationType is a number, `processNextChange` panics instead of pushing
an event; the goroutine of the watcher ends there, and a later insert is never
read. -/
theorem missing_tag_panics :
    processNextChange exampleUnmarshal (NextResult.record (some missingTagRecord)) "e12"
        PushResult.received =
      ProcessResult.panicked "StringValue: value is not a string" ∧
    processNextChange exampleUnmarshal (NextResult.record (some numericTagRecord)) "e12"
        PushResult.received =
      ProcessResult.panicked "StringValue: value is not a string" ∧
    WatchUsers exampleUnmarshal none
        [receivedPass missingTagRecord "e12", receivedPass insertRecord "e13"] =
      { events := [], reads := 1,
        state := WatcherState.closed
          (CloseReason.panicked "StringValue: value is not a string") } := by
  refine ⟨?_, ?_, ?_⟩
  · exact processNextChange_panics exampleUnmarshal missingTagRecord "e12"
      PushResult.received (by intro s h; cases h)
  · exact processNextChange_panics exampleUnmarshal numericTagRecord "e12"
      PushResult.received (by intro s h; cases h)
  · rfl

/-! ## The lifecycle of the watcher -/

theorem processNextChange_error_cause (unmarshal : Unmarshal) (next : NextResult)
    (newId : String) (push : PushResult) (err : String) (pushed : Option UserEvent)
    (h : processNextChange unmarshal next newId push = ProcessResult.returned (some err) pushed) :
    (∃ ctxErr, push = PushResult.done ctxErr ∧ err = ctxErr) ∨
    (∃ e, next = NextResult.stopped (some e) ∧ err = "change stream error: " ++ e) := by
  cases next with
  | stopped serr =>
    cases serr with
    | none => simp [processNextChange] at h
    | some e =>
      simp [processNextChange] at h
      exact Or.inr ⟨e, rfl, h.1.symm⟩
  | record current =>
    cases current with
    | none => simp [processNextChange] at h
    | some changeDoc =>
      simp only [processNextChange] at h
      cases hS : StringValue (Raw.Lookup changeDoc "operationType") with
      | error msg => simp [hS] at h
      | ok operationType =>
        cases push with
        | received => simp [hS] at h
        | done ctxErr =>
          simp [hS] at h
          exact Or.inl ⟨ctxErr, rfl, h.1.symm⟩

theorem loopPhases_cons (unmarshal : Unmarshal) (it : Iteration) (rest : List Iteration) :
    loopPhases unmarshal (it :: rest) =
      if it.done then [Phase.CLOSED CloseReason.cancelled]
      else
        match processNextChange unmarshal it.next it.newId it.push with
        | ProcessResult.panicked msg => [Phase.CLOSED (CloseReason.panicked msg)]
        | ProcessResult.returned (some err) _ =>
          [Phase.CLOSED (CloseReason.processError err)]
        | ProcessResult.returned none _ => Phase.STREAMING :: loopPhases unmarshal rest := by
  rw [loopPhases]

/-- The passes of the loop leave a row of `STREAMING`, ended or not by one `CLOSED`;
unless a pass panicked, the reason for closing is accounted for by a pass. -/
theorem loopPhases_shape (unmarshal : Unmarshal) (its : List Iteration)
    (hnp : ∀ msg, Phase.CLOSED (CloseReason.panicked msg) ∉ loopPhases unmarshal its) :
    (∃ n, loopPhases unmarshal its = List.replicate n Phase.STREAMING) ∨
    (∃ n r, loopPhases unmarshal its = List.replicate n Phase.STREAMING ++ [Phase.CLOSED r] ∧
      ClosedBy its r) := by
  induction its with
  | nil => exact Or.inl ⟨0, rfl⟩
  | cons it rest ih =>
    rw [loopPhases_cons] at hnp ⊢
    by_cases hd : it.done = true
    · simp only [hd, if_true]
      exact Or.inr ⟨0, CloseReason.cancelled, rfl, it, List.mem_cons_self _ _,
        Or.inl ⟨hd, rfl⟩⟩
    · simp only [hd] at hnp ⊢
      cases hp : processNextChange unmarshal it.next it.newId it.push with
      | panicked msg =>
        rw [hp] at hnp
        exact absurd (List.mem_singleton.mpr rfl) (hnp msg)
      | returned err pushed =>
        cases err with
        | some e =>
          refine Or.inr ⟨0, CloseReason.processError e, by simp, it,
            List.mem_cons_self _ _, Or.inr ?_⟩
          rcases processNextChange_error_cause unmarshal _ _ _ e pushed hp with
            ⟨ctxErr, h1, h2⟩ | ⟨e2, h1, h2⟩
          · exact Or.inl ⟨ctxErr, h1, by rw [h2]⟩
          · exact Or.inr ⟨e2, h1, by rw [h2]⟩
        | none =>
          rw [hp] at hnp
          have hrest : ∀ msg,
              Phase.CLOSED (CloseReason.panicked msg) ∉ loopPhases unmarshal rest := by
            intro msg hm
            exact hnp msg (List.mem_cons_of_mem _ hm)
          rcases ih hrest with ⟨n, hn⟩ | ⟨n, r, hn, it2, hmem, hc⟩
          · exact Or.inl ⟨n + 1, by simp [hn, List.replicate_succ]⟩
          · exact Or.inr ⟨n + 1, r, by simp [hn, List.replicate_succ], it2,
              List.mem_cons_of_mem _ hmem, hc⟩

/-- The channel is closed exactly when the loop reached `CLOSED`. -/
theorem watchLoop_closed_iff (unmarshal : Unmarshal) (its : List Iteration) (r : CloseReason) :
    (watchLoop unmarshal its).state = WatcherState.closed r ↔
      Phase.CLOSED r ∈ loopPhases unmarshal its := by
  induction its with
  | nil => simp [watchLoop, loopPhases]
  | cons it rest ih =>
    rw [watchLoop_cons, loopPhases_cons]
    by_cases hd : it.done = true
    · simp only [hd, if_true, List.mem_singleton]
      constructor
      · intro h
        cases h
        rfl
      · intro h
        cases h
        rfl
    · simp only [hd]
      cases hp : processNextChange unmarshal it.next it.newId it.push with
      | panicked msg =>
        simp only [Bool.false_eq_true, if_false, List.mem_singleton]
        constructor
        · intro h
          cases h
          rfl
        · intro h
          cases h
          rfl
      | returned err pushed =>
        cases err with
        | some e =>
          simp only [Bool.false_eq_true, if_false, List.mem_singleton]
          constructor
          · intro h
            cases h
            rfl
          · intro h
            cases h
            rfl
        | none =>
          simp only [Bool.false_eq_true, if_false, List.mem_cons]
          rw [ih]
          constructor
          · intro h
            exact Or.inr h
          · intro h
            rcases h with h | h
            · cases h
            · exact h

/-- C16, counterexample: when `openChangeStream` fails the goroutine goes from INIT to
CLOSED and closes the channel without ever being in STREAMING. -/
theorem open_failure_skips_streaming :
    WatchUsers.phases exampleUnmarshal (some "server selection timeout")
        [receivedPass insertRecord "e1"] =
      [Phase.INIT, Phase.CLOSED (CloseReason.openFailed "server selection timeout")] ∧
    (WatchUsers exampleUnmarshal (some "server selection timeout")
        [receivedPass insertRecord "e1"]).channelClosed = true ∧
    Phase.STREAMING ∉ WatchUsers.phases exampleUnmarshal (some "server selection timeout")
        [receivedPass insertRecord "e1"] := by
  refine ⟨rfl, rfl, ?_⟩
  decide

/-- C16, amended: the goroutine of the watcher starts in INIT; if opening the change
stream fails it goes to CLOSED at once; otherwise it goes to STREAMING, stays there
pass after pass, and goes to CLOSED at most once, as its last state; in a run without
panic that last step is accounted for by a pass that found the context done, at its
opening `select` or at the push, or whose read of the cursor failed; the channel is
closed exactly when CLOSED was reached; and a pass that reads a record with a string
operation tag and hands the event over leaves the state STREAMING whatever the decoder
does with the images. -/
theorem lifecycle_phases (unmarshal : Unmarshal) (openErr : Option String)
    (its : List Iteration)
    (hnp : ∀ msg,
      Phase.CLOSED (CloseReason.panicked msg) ∉ WatchUsers.phases unmarshal openErr its) :
    ((∃ err, openErr = some err ∧
        WatchUsers.phases unmarshal openErr its =
          [Phase.INIT, Phase.CLOSED (CloseReason.openFailed err)]) ∨
      (openErr = none ∧ ∃ n,
        WatchUsers.phases unmarshal openErr its =
          Phase.INIT :: List.replicate (n + 1) Phase.STREAMING) ∨
      (openErr = none ∧ ∃ n r,
        WatchUsers.phases unmarshal openErr its =
          Phase.INIT :: List.replicate (n + 1) Phase.STREAMING ++ [Phase.CLOSED r] ∧
        ClosedBy its r)) ∧
    ((WatchUsers unmarshal openErr its).channelClosed = true ↔
      ∃ r, Phase.CLOSED r ∈ WatchUsers.phases unmarshal openErr its) ∧
    (∀ (it : Iteration) (rest : List Iteration) (changeDoc : Raw) (operationType : String),
      it.done = false → it.next = NextResult.record (some changeDoc) →
      changeDoc.Lookup "operationType" = some (BsonValue.string operationType) →
      it.push = PushResult.received →
      loopPhases unmarshal (it :: rest) = Phase.STREAMING :: loopPhases unmarshal rest) := by
  refine ⟨?_, ?_, ?_⟩
  · cases openErr with
    | some err => exact Or.inl ⟨err, rfl, rfl⟩
    | none =>
      have hloop : ∀ msg,
          Phase.CLOSED (CloseReason.panicked msg) ∉ loopPhases unmarshal its := by
        intro msg hm
        exact hnp msg (by simp [WatchUsers.phases, hm])
      rcases loopPhases_shape unmarshal its hloop with ⟨n, hn⟩ | ⟨n, r, hn, hc⟩
      · exact Or.inr (Or.inl ⟨rfl, n, by simp [WatchUsers.phases, hn, List.replicate_succ]⟩)
      · exact Or.inr (Or.inr ⟨rfl, n, r,
          by simp [WatchUsers.phases, hn, List.replicate_succ], hc⟩)
  · cases openErr with
    | some err =>
      simp [WatchUsers, WatchUsers.phases, WatchRun.channelClosed]
    | none =>
      simp only [WatchUsers, WatchUsers.phases, List.mem_cons, reduceCtorEq, false_or]
      constructor
      · intro h
        cases hs : (watchLoop unmarshal its).state with
        | streaming => simp [WatchRun.channelClosed, hs] at h
        | closed r => exact ⟨r, (watchLoop_closed_iff unmarshal its r).mp hs⟩
      · rintro ⟨r, hr⟩
        have hs := (watchLoop_closed_iff unmarshal its r).mpr hr
        simp [WatchRun.channelClosed, hs]
  · intro it rest changeDoc operationType hd hn hop hpush
    rw [loopPhases_cons, hd, hn, hpush,
      processNextChange_received unmarshal changeDoc operationType it.newId hop]
    simp

/-- C16, instance of the amended statement: an insert is relayed, a record whose image
does not decode is relayed, then the context is found done. -/
theorem lifecycle_phases_witness :
    WatchUsers.phases exampleUnmarshal none
        [receivedPass insertRecord "e1", receivedPass undecodableInsertRecord "e2",
          cancelledPass] =
      [Phase.INIT, Phase.STREAMING, Phase.STREAMING, Phase.STREAMING,
        Phase.CLOSED CloseReason.cancelled] ∧
    ((WatchUsers exampleUnmarshal none
        [receivedPass insertRecord "e1", receivedPass undecodableInsertRecord "e2",
          cancelledPass]).channelClosed = true ↔
      ∃ r, Phase.CLOSED r ∈ WatchUsers.phases exampleUnmarshal none
        [receivedPass insertRecord "e1", receivedPass undecodableInsertRecord "e2",
          cancelledPass]) :=
  ⟨rfl,
   (lifecycle_phases exampleUnmarshal none
      [receivedPass insertRecord "e1", receivedPass undecodableInsertRecord "e2",
        cancelledPass]
      (by
        intro msg h
        have hp : WatchUsers.phases exampleUnmarshal none
            [receivedPass insertRecord "e1", receivedPass undecodableInsertRecord "e2",
              cancelledPass] =
            [Phase.INIT, Phase.STREAMING, Phase.STREAMING, Phase.STREAMING,
              Phase.CLOSED CloseReason.cancelled] := rfl
        rw [hp] at h
        simp at h)).2.1⟩

/-! ## The hand-off -/

theorem finish_open (st : Handoff) (h : st.userEvents.closed = false) :
    st.finish =
      { st with
          pc := WatcherPc.returned
          userEvents := { st.userEvents with closed := true } } := by
  simp [Handoff.finish, h]

theorem finish_closed (st : Handoff) (h : st.userEvents.closed = true) :
    st.finish = { st with pc := WatcherPc.panicked } := by
  simp [Handoff.finish, h]

theorem finish_cap (st : Handoff) : st.finish.userEvents.cap = st.userEvents.cap := by
  unfold Handoff.finish
  split <;> rfl

theorem finish_buf (st : Handoff) : st.finish.userEvents.buf = st.userEvents.buf := by
  unfold Handoff.finish
  split <;> rfl

theorem finish_received (st : Handoff) : st.finish.received = st.received := by
  unfold Handoff.finish
  split <;> rfl

theorem finish_reads (st : Handoff) : st.finish.reads = st.reads := by
  unfold Handoff.finish
  split <;> rfl

/-- What a `pass` action does from the top of a pass. -/
theorem step_pass (unmarshal : Unmarshal) (st : Handoff) (done : Bool) (next : NextResult)
    (newId : String) (hpc : st.pc = WatcherPc.loopTop) :
    Handoff.step unmarshal st (Action.pass done next newId) =
      if done then some st.finish
      else
        match processNextChange unmarshal next newId PushResult.received with
        | ProcessResult.panicked _ => some { st.finish with reads := st.reads + 1 }
        | ProcessResult.returned (some _) _ => some { st.finish with reads := st.reads + 1 }
        | ProcessResult.returned none none => some { st with reads := st.reads + 1 }
        | ProcessResult.returned none (some userEvent) =>
          some { st with pc := WatcherPc.pushing userEvent, reads := st.reads + 1 } := by
  simp only [Handoff.step, hpc]

/-- The states a `pass` action leads to from the top of a pass. -/
theorem step_pass_cases (unmarshal : Unmarshal) (st st2 : Handoff) (done : Bool)
    (next : NextResult) (newId : String) (hpc : st.pc = WatcherPc.loopTop)
    (h : Handoff.step unmarshal st (Action.pass done next newId) = some st2) :
    st2 = st.finish ∨ st2 = st.finishRead ∨ st2 = st.afterRead WatcherPc.loopTop ∨
    ∃ ev, st2 = st.afterRead (WatcherPc.pushing ev) := by
  rw [step_pass unmarshal st done next newId hpc] at h
  by_cases hd : done = true
  · simp [hd] at h
    exact Or.inl h.symm
  · simp only [hd] at h
    cases hp : processNextChange unmarshal next newId PushResult.received with
    | panicked msg =>
      simp [hp] at h
      exact Or.inr (Or.inl h.symm)
    | returned err pushed =>
      cases err with
      | some e =>
        simp [hp] at h
        exact Or.inr (Or.inl h.symm)
      | none =>
        cases pushed with
        | none =>
          simp [hp] at h
          refine Or.inr (Or.inr (Or.inl ?_))
          rw [← h, Handoff.afterRead, hpc]
        | some ev =>
          simp [hp] at h
          exact Or.inr (Or.inr (Or.inr ⟨ev, h.symm⟩))

/-- The states a step leads to, by the position it starts from. -/
theorem step_cases (unmarshal : Unmarshal) (st st2 : Handoff) (a : Action)
    (h : Handoff.step unmarshal st a = some st2) :
    (st.pc = WatcherPc.loopTop ∧
      (st2 = st.finish ∨ st2 = st.finishRead ∨ st2 = st.afterRead WatcherPc.loopTop ∨
        ∃ ev, st2 = st.afterRead (WatcherPc.pushing ev))) ∨
    (∃ ev, st.pc = WatcherPc.pushing ev ∧ a = Action.send ∧
      st.userEvents.closed = false ∧ st.userEvents.buf.length < st.userEvents.cap ∧
      st2 = { pc := WatcherPc.loopTop
              userEvents := { cap := st.userEvents.cap, buf := st.userEvents.buf ++ [ev],
                              closed := st.userEvents.closed }
              received := st.received
              reads := st.reads }) ∨
    (∃ ev, st.pc = WatcherPc.pushing ev ∧ a = Action.handOver ∧
      st.userEvents.closed = false ∧ st.userEvents.cap = 0 ∧
      st2 = { pc := WatcherPc.loopTop, userEvents := st.userEvents,
              received := st.received ++ [ev], reads := st.reads }) ∨
    (∃ ev rest, a = Action.receive ∧ st.userEvents.buf = ev :: rest ∧
      st2 = { pc := st.pc
              userEvents := { cap := st.userEvents.cap, buf := rest,
                              closed := st.userEvents.closed }
              received := st.received ++ [ev]
              reads := st.reads }) ∨
    (∃ ev ctxErr, st.pc = WatcherPc.pushing ev ∧ a = Action.ctxDone ctxErr ∧
      st2 = st.finish) ∨
    (∃ ev, st.pc = WatcherPc.pushing ev ∧ a = Action.sendOnClosed ∧
      st.userEvents.closed = true ∧
      st2 = { pc := WatcherPc.panicked, userEvents := st.userEvents,
              received := st.received, reads := st.reads }) := by
  cases a with
  | pass done next newId =>
    cases hpc : st.pc with
    | loopTop => exact Or.inl ⟨rfl, step_pass_cases unmarshal st st2 done next newId hpc h⟩
    | pushing ev => simp [Handoff.step, hpc] at h
    | returned => simp [Handoff.step, hpc] at h
    | panicked => simp [Handoff.step, hpc] at h
  | send =>
    cases hpc : st.pc with
    | loopTop => simp [Handoff.step, hpc] at h
    | pushing ev =>
      simp only [Handoff.step, hpc] at h
      by_cases hc : st.userEvents.closed = true
      · rw [if_pos hc] at h
        cases h
      · rw [if_neg hc] at h
        by_cases hl : st.userEvents.buf.length < st.userEvents.cap
        · rw [if_pos hl] at h
          injection h with h
          exact Or.inr (Or.inl ⟨ev, rfl, rfl, by simpa using hc, hl, h.symm⟩)
        · rw [if_neg hl] at h
          cases h
    | returned => simp [Handoff.step, hpc] at h
    | panicked => simp [Handoff.step, hpc] at h
  | handOver =>
    cases hpc : st.pc with
    | loopTop => simp [Handoff.step, hpc] at h
    | pushing ev =>
      simp only [Handoff.step, hpc] at h
      by_cases hc : st.userEvents.closed = true
      · rw [if_pos hc] at h
        cases h
      · rw [if_neg hc] at h
        by_cases hl : st.userEvents.cap = 0
        · rw [if_pos hl] at h
          injection h with h
          exact Or.inr (Or.inr (Or.inl ⟨ev, rfl, rfl, by simpa using hc, hl, h.symm⟩))
        · rw [if_neg hl] at h
          cases h
    | returned => simp [Handoff.step, hpc] at h
    | panicked => simp [Handoff.step, hpc] at h
  | receive =>
    cases hb : st.userEvents.buf with
    | nil => cases hpc : st.pc <;> simp [Handoff.step, hpc, hb] at h
    | cons e rest =>
      refine Or.inr (Or.inr (Or.inr (Or.inl ⟨e, rest, rfl, rfl, ?_⟩)))
      cases hpc : st.pc <;>
      · simp only [Handoff.step, hpc, hb] at h
        injection h with h
        exact h.symm
  | ctxDone ctxErr =>
    cases hpc : st.pc with
    | loopTop => simp [Handoff.step, hpc] at h
    | pushing ev =>
      simp [Handoff.step, hpc] at h
      exact Or.inr (Or.inr (Or.inr (Or.inr (Or.inl ⟨ev, ctxErr, rfl, rfl, h.symm⟩))))
    | returned => simp [Handoff.step, hpc] at h
    | panicked => simp [Handoff.step, hpc] at h
  | sendOnClosed =>
    cases hpc : st.pc with
    | loopTop => simp [Handoff.step, hpc] at h
    | pushing ev =>
      simp only [Handoff.step, hpc] at h
      by_cases hc : st.userEvents.closed = true
      · rw [if_pos hc] at h
        injection h with h
        exact Or.inr (Or.inr (Or.inr (Or.inr (Or.inr ⟨ev, rfl, rfl, hc, h.symm⟩))))
      · rw [if_neg hc] at h
        cases h
    | returned => simp [Handoff.step, hpc] at h
    | panicked => simp [Handoff.step, hpc] at h

/-- On a channel of capacity zero with an empty buffer, every step leaves the capacity
zero and the buffer empty. -/
theorem step_unbuffered (unmarshal : Unmarshal) (st st2 : Handoff) (a : Action)
    (hcap : st.userEvents.cap = 0) (hbuf : st.userEvents.buf = [])
    (h : Handoff.step unmarshal st a = some st2) :
    st2.userEvents.cap = 0 ∧ st2.userEvents.buf = [] := by
  rcases step_cases unmarshal st st2 a h with
    ⟨_, h1 | h1 | h1 | ⟨ev, h1⟩⟩ | ⟨ev, _, _, _, hl, _⟩ | ⟨ev, _, _, _, _, h1⟩ |
    ⟨ev, rest, _, hb, _⟩ | ⟨ev, ctxErr, _, _, h1⟩ | ⟨ev, _, _, _, h1⟩
  · subst h1
    exact ⟨by rw [finish_cap, hcap], by rw [finish_buf, hbuf]⟩
  · subst h1
    exact ⟨by simp [Handoff.finishRead, finish_cap, hcap],
      by simp [Handoff.finishRead, finish_buf, hbuf]⟩
  · subst h1
    exact ⟨hcap, hbuf⟩
  · subst h1
    exact ⟨hcap, hbuf⟩
  · rw [hcap] at hl
    exact absurd hl (Nat.not_lt_zero _)
  · subst h1
    exact ⟨hcap, hbuf⟩
  · rw [hbuf] at hb
    cases hb
  · subst h1
    exact ⟨by rw [finish_cap, hcap], by rw [finish_buf, hbuf]⟩
  · subst h1
    exact ⟨hcap, hbuf⟩

/-- A channel that is closed only once the goroutine has returned stays so. -/
theorem step_open (unmarshal : Unmarshal) (st st2 : Handoff) (a : Action)
    (hopen : st.userEvents.closed = true → st.pc = WatcherPc.returned)
    (h : Handoff.step unmarshal st a = some st2) :
    st2.userEvents.closed = true → st2.pc = WatcherPc.returned := by
  have hfalse : ∀ pc, st.pc = pc → pc ≠ WatcherPc.returned → st.userEvents.closed = false := by
    intro pc hpc hne
    cases hc : st.userEvents.closed with
    | false => rfl
    | true => exact absurd ((hopen hc).symm.trans hpc).symm hne
  rcases step_cases unmarshal st st2 a h with
    ⟨hpc, h1 | h1 | h1 | ⟨ev, h1⟩⟩ | ⟨ev, hpc, _, _, _, h1⟩ | ⟨ev, hpc, _, _, _, h1⟩ |
    ⟨ev, rest, _, _, h1⟩ | ⟨ev, ctxErr, hpc, _, h1⟩ | ⟨ev, hpc, _, hc, _⟩
  · have hc := hfalse _ hpc (by simp)
    subst h1
    intro _
    rw [finish_open st hc]
  · have hc := hfalse _ hpc (by simp)
    subst h1
    intro _
    simp [Handoff.finishRead, finish_open st hc]
  · have hc := hfalse _ hpc (by simp)
    subst h1
    intro h2
    simp [Handoff.afterRead, hc] at h2
  · have hc := hfalse _ hpc (by simp)
    subst h1
    intro h2
    simp [Handoff.afterRead, hc] at h2
  · have hc := hfalse _ hpc (by simp)
    subst h1
    intro h2
    simp [hc] at h2
  · have hc := hfalse _ hpc (by simp)
    subst h1
    intro h2
    simp [hc] at h2
  · subst h1
    intro h2
    exact hopen h2
  · have hc := hfalse _ hpc (by simp)
    subst h1
    intro _
    rw [finish_open st hc]
  · have hc2 := hfalse _ hpc (by simp)
    rw [hc] at hc2
    cases hc2

theorem run_unbuffered (unmarshal : Unmarshal) (acts : List Action) (st st2 : Handoff)
    (hcap : st.userEvents.cap = 0) (hbuf : st.userEvents.buf = [])
    (h : Handoff.run unmarshal st acts = some st2) :
    st2.userEvents.cap = 0 ∧ st2.userEvents.buf = [] := by
  induction acts generalizing st with
  | nil =>
    simp [Handoff.run] at h
    subst h
    exact ⟨hcap, hbuf⟩
  | cons a rest ih =>
    simp only [Handoff.run] at h
    cases hs : Handoff.step unmarshal st a with
    | none => simp [hs] at h
    | some st1 =>
      simp only [hs] at h
      obtain ⟨h1, h2⟩ := step_unbuffered unmarshal st st1 a hcap hbuf hs
      exact ih st1 h1 h2 h

theorem run_open (unmarshal : Unmarshal) (acts : List Action) (st st2 : Handoff)
    (hopen : st.userEvents.closed = true → st.pc = WatcherPc.returned)
    (h : Handoff.run unmarshal st acts = some st2) :
    st2.userEvents.closed = true → st2.pc = WatcherPc.returned := by
  induction acts generalizing st with
  | nil =>
    simp [Handoff.run] at h
    subst h
    exact hopen
  | cons a rest ih =>
    simp only [Handoff.run] at h
    cases hs : Handoff.step unmarshal st a with
    | none => simp [hs] at h
    | some st1 =>
      simp only [hs] at h
      exact ih st1 (step_open unmarshal st st1 a hopen hs) h

/-- On an open channel of capacity zero with an empty buffer, the only steps out of
the push `select` are the hand-over to the dispatch loop and the case `ctx.Done()`. -/
theorem step_from_pushing (unmarshal : Unmarshal) (st st2 : Handoff) (a : Action)
    (ev : UserEvent) (hcap : st.userEvents.cap = 0) (hbuf : st.userEvents.buf = [])
    (hopen : st.userEvents.closed = false)
    (hpc : st.pc = WatcherPc.pushing ev) (h : Handoff.step unmarshal st a = some st2) :
    (a = Action.handOver ∧ st2.pc = WatcherPc.loopTop ∧
      st2.received = st.received ++ [ev] ∧ st2.reads = st.reads) ∨
    (∃ ctxErr, a = Action.ctxDone ctxErr ∧ st2.pc = WatcherPc.returned ∧
      st2.received = st.received ∧ st2.userEvents.closed = true ∧
      st2.reads = st.reads) := by
  rcases step_cases unmarshal st st2 a h with
    ⟨hpc2, _⟩ | ⟨ev2, _, _, _, hl, _⟩ | ⟨ev2, hpc2, ha, _, _, h1⟩ |
    ⟨ev2, rest, _, hb, _⟩ | ⟨ev2, ctxErr, _, ha, h1⟩ | ⟨ev2, _, _, hc, _⟩
  · rw [hpc] at hpc2
    cases hpc2
  · rw [hcap] at hl
    exact absurd hl (Nat.not_lt_zero _)
  · rw [hpc] at hpc2
    cases hpc2
    subst h1
    exact Or.inl ⟨ha, rfl, rfl, rfl⟩
  · rw [hbuf] at hb
    cases hb
  · subst h1
    rw [finish_open st hopen]
    exact Or.inr ⟨ctxErr, ha, rfl, rfl, rfl, rfl⟩
  · rw [hopen] at hc
    cases hc

/-- A step that calls `changeStream.Next` starts at the top of a pass. -/
theorem step_reads (unmarshal : Unmarshal) (st st2 : Handoff) (a : Action)
    (h : Handoff.step unmarshal st a = some st2) (hr : st2.reads ≠ st.reads) :
    st.pc = WatcherPc.loopTop ∧ st2.reads = st.reads + 1 := by
  rcases step_cases unmarshal st st2 a h with
    ⟨hpc, h1 | h1 | h1 | ⟨ev, h1⟩⟩ | ⟨ev, _, _, _, _, h1⟩ | ⟨ev, _, _, _, _, h1⟩ |
    ⟨ev, rest, _, _, h1⟩ | ⟨ev, ctxErr, _, _, h1⟩ | ⟨ev, _, _, _, h1⟩
  · subst h1
    exact absurd (finish_reads st) hr
  · subst h1
    exact ⟨hpc, rfl⟩
  · subst h1
    exact ⟨hpc, rfl⟩
  · subst h1
    exact ⟨hpc, rfl⟩
  · subst h1
    exact absurd rfl hr
  · subst h1
    exact absurd rfl hr
  · subst h1
    exact absurd rfl hr
  · subst h1
    exact absurd (finish_reads st) hr
  · subst h1
    exact absurd rfl hr

/-- C17: in every state the watcher, the channel made by `NewChangeStreamWatcher` and
the dispatch loop can reach, at most one event is in flight, and none while the
watcher is at the top of a pass; the push of an event ends only by the dispatch loop
receiving that event or by the case `ctx.Done()`; and `changeStream.Next` is called
only from the top of a pass, when no event is in flight. -/
theorem handoff_one_in_flight (unmarshal : Unmarshal) (acts : List Action) (st : Handoff)
    (h : Handoff.run unmarshal (Handoff.start NewChangeStreamWatcher) acts = some st) :
    st.inFlight ≤ 1 ∧
    (st.pc = WatcherPc.loopTop → st.inFlight = 0) ∧
    (∀ ev a st2, st.pc = WatcherPc.pushing ev → Handoff.step unmarshal st a = some st2 →
      (a = Action.handOver ∧ st2.pc = WatcherPc.loopTop ∧
        st2.received = st.received ++ [ev] ∧ st2.reads = st.reads) ∨
      (∃ ctxErr, a = Action.ctxDone ctxErr ∧ st2.pc = WatcherPc.returned ∧
        st2.received = st.received ∧ st2.userEvents.closed = true ∧
        st2.reads = st.reads)) ∧
    (∀ a st2, Handoff.step unmarshal st a = some st2 → st2.reads ≠ st.reads →
      st.pc = WatcherPc.loopTop ∧ st.inFlight = 0 ∧ st2.reads = st.reads + 1) := by
  obtain ⟨hcap, hbuf⟩ := run_unbuffered unmarshal acts
    (Handoff.start NewChangeStreamWatcher) st rfl rfl h
  have hopen := run_open unmarshal acts (Handoff.start NewChangeStreamWatcher) st
    (by intro hc; cases hc) h
  have htop : st.pc = WatcherPc.loopTop → st.inFlight = 0 := by
    intro hpc
    simp [Handoff.inFlight, hbuf, hpc]
  refine ⟨?_, htop, ?_, ?_⟩
  · cases hpc : st.pc <;> simp [Handoff.inFlight, hbuf, hpc]
  · intro ev a st2 hpc hs
    have hc : st.userEvents.closed = false := by
      cases hcl : st.userEvents.closed with
      | false => rfl
      | true =>
        rw [hopen hcl] at hpc
        cases hpc
    exact step_from_pushing unmarshal st st2 a ev hcap hbuf hc hpc hs
  · intro a st2 hs hr
    obtain ⟨h1, h2⟩ := step_reads unmarshal st st2 a hs hr
    exact ⟨h1, htop h1, h2⟩

/-! ## The repository -/

theorem effectivePageSize_pos (request : ListUsersQueryRequest) :
    0 < effectivePageSize request := by
  unfold effectivePageSize
  split
  · decide
  · omega

/-- When the store answers every call, `ListUsers` returns the response built from the
count of the matching documents and from the window of them the options select. -/
theorem ListUsers_ok (c : Collection) (request : ListUsersQueryRequest)
    (h1 : c.countErr = none) (h2 : c.findErr = none) (h3 : c.allErr = none) :
    ListUsers c request =
      Except.ok
        { Page := request.Page
          PageSize := effectivePageSize request
          TotalCount := (c.docs.filter (filterOf request).matches).length % 4294967296
          Results := usersToDomain
            ((((c.docs.filter (filterOf request).matches).drop
                (request.Page * effectivePageSize request % 4294967296)).take
              (effectivePageSize request)).map some) } := by
  obtain ⟨docs, ce, fe, ae⟩ := c
  simp only at h1 h2 h3
  subst h1 h2 h3
  obtain ⟨page, ps, co, fn, ln, nn, em⟩ := request
  by_cases hps : ps = 0
  · subst hps
    cases co <;> cases fn <;> cases ln <;> cases nn <;> cases em <;> rfl
  · have hcast : ¬ ((ps : Int) = 0) := by exact_mod_cast hps
    cases co <;> cases fn <;> cases ln <;> cases nn <;> cases em <;>
      simp only [ListUsers, effectivePageSize, hps, hcast, if_false, Collection.CountDocuments,
        Collection.Find, Int.toNat_ofNat, filterOf]

/-- When the product `Page * PageSize` fits in 32 bits, the results are the matching
documents from position `Page * PageSize` on, at most `PageSize` of them. -/
theorem ListUsers_window (c : Collection) (request : ListUsersQueryRequest)
    (h1 : c.countErr = none) (h2 : c.findErr = none) (h3 : c.allErr = none)
    (hfit : request.Page * effectivePageSize request < 4294967296) :
    ∃ resp, ListUsers c request = Except.ok resp ∧
      resp.Results = usersToDomain
        ((((c.docs.filter (filterOf request).matches).drop
            (request.Page * effectivePageSize request)).take
          (effectivePageSize request)).map some) := by
  refine ⟨_, ListUsers_ok c request h1 h2 h3, ?_⟩
  simp only [Nat.mod_eq_of_lt hfit]

/-- C19, the code at the failing input: for page 65536 of size 65536 the product wraps
to zero in 32 bits, so `ListUsers` skips nothing and returns the first match, although
no match sits at position 65536 × 65536 or beyond. -/
theorem ListUsers_skip_wraps :
    farPageRequest.Page < 4294967296 ∧ farPageRequest.PageSize < 4294967296 ∧
    farPageRequest.Page * farPageRequest.PageSize % 4294967296 = 0 ∧
    ListUsers oneUserCollection farPageRequest =
      Except.ok
        { Page := 65536, PageSize := 65536, TotalCount := 1,
          Results := [userToDomain (some annEntity)] } ∧
    ((oneUserCollection.docs.filter (filterOf farPageRequest).matches).drop
        (farPageRequest.Page * effectivePageSize farPageRequest)).take
      (effectivePageSize farPageRequest) = [] := by
  refine ⟨by decide, by decide, by decide, ?_, ?_⟩
  · rw [ListUsers_ok oneUserCollection farPageRequest rfl rfl rfl]
    rfl
  · have hlen : (oneUserCollection.docs.filter (filterOf farPageRequest).matches).length ≤
        farPageRequest.Page * effectivePageSize farPageRequest :=
      le_trans (List.length_filter_le _ _) (by decide)
    rw [List.drop_eq_nil_of_le hlen]
    rfl

/-- C20: when the store answers, `ListUsers` returns a response whose PageSize is 10
if the request has PageSize 0 and the PageSize of the request otherwise, whose Page is
the Page of the request, and whose results are cut to that page size: it is the limit
handed to the store. -/
theorem ListUsers_page_size (c : Collection) (request : ListUsersQueryRequest)
    (h1 : c.countErr = none) (h2 : c.findErr = none) (h3 : c.allErr = none) :
    ∃ resp, ListUsers c request = Except.ok resp ∧
      resp.PageSize = (if request.PageSize = 0 then 10 else request.PageSize) ∧
      resp.Page = request.Page ∧
      resp.Results.length ≤ resp.PageSize ∧
      resp.Results = usersToDomain
        ((((c.docs.filter (filterOf request).matches).drop
            (request.Page * resp.PageSize % 4294967296)).take resp.PageSize).map some) := by
  refine ⟨_, ListUsers_ok c request h1 h2 h3, rfl, rfl, ?_, rfl⟩
  simp only [usersToDomain, List.length_map, List.length_take]
  exact Nat.min_le_left _ _

/-- C20, instance: two stored users listed by a request without a page size. -/
theorem ListUsers_page_size_witness :
    ∃ resp, ListUsers twoUserCollection defaultRequest = Except.ok resp ∧
      resp.PageSize = (if defaultRequest.PageSize = 0 then 10 else defaultRequest.PageSize) ∧
      resp.Page = defaultRequest.Page ∧
      resp.Results.length ≤ resp.PageSize ∧
      resp.Results = usersToDomain
        ((((twoUserCollection.docs.filter (filterOf defaultRequest).matches).drop
            (defaultRequest.Page * resp.PageSize % 4294967296)).take
          resp.PageSize).map some) :=
  ListUsers_page_size twoUserCollection defaultRequest rfl rfl rfl

/-! ## The drain goroutines -/

theorem dispatchOne_drains {β : Type} (marshal : Marshal) (produce : Produce β)
    (st : DispatchState (ProducerState β)) (ev : UserEvent) :
    (dispatchOne (userProducer.SendMessage marshal produce) st ev).producer.drains +
        (dispatchOne (userProducer.SendMessage marshal produce) st ev).logs.length =
      st.producer.drains + st.logs.length + 1 := by
  simp only [dispatchOne]
  cases hm : marshal (userEventToProto ev) with
  | error e0 =>
    rw [SendMessage_marshal_error marshal produce st.producer ev e0 hm]
    simp
    omega
  | ok value =>
    rw [SendMessage_ok marshal produce st.producer ev value hm]
    cases h : (produce st.producer.broker (messageOf st.producer.topic ev value)).2 with
    | none =>
      simp
      omega
    | some e1 =>
      simp
      omega

/-- C18, counterexample: after two calls of `SendMessage` that return nil on one
producer, two drain goroutines range over `broker.Events()`. -/
theorem two_sends_two_drains :
    (userProducer.SendMessage exampleMarshal exampleProduce
        (NewUserProducer [] "go-ddd-crud_user-event") createdEvent).2 = none ∧
    (userProducer.SendMessage exampleMarshal exampleProduce
        (userProducer.SendMessage exampleMarshal exampleProduce
          (NewUserProducer [] "go-ddd-crud_user-event") createdEvent).1 createdEvent).2 =
      none ∧
    (userProducer.SendMessage exampleMarshal exampleProduce
        (userProducer.SendMessage exampleMarshal exampleProduce
          (NewUserProducer [] "go-ddd-crud_user-event") createdEvent).1
        createdEvent).1.drains = 2 ∧
    ¬ ((userProducer.SendMessage exampleMarshal exampleProduce
        (userProducer.SendMessage exampleMarshal exampleProduce
          (NewUserProducer [] "go-ddd-crud_user-event") createdEvent).1
        createdEvent).1.drains ≤ 1) := by
  refine ⟨rfl, rfl, rfl, ?_⟩
  decide

/-- C18, amended: a call of `SendMessage` that returns nil starts one more drain
goroutine and a call that returns an error starts none; draining a delivery report
starts and ends none; so after the dispatch loop handled a list of events, the number
of drain goroutines has grown by the number of events whose call returned nil, that
is, by the number of events less the number of failures the loop logged. -/
theorem SendMessage_drains {β : Type} (marshal : Marshal) (produce : Produce β)
    (p : ProducerState β) (message : UserEvent) (e : KafkaEvent)
    (st : DispatchState (ProducerState β)) (events : List UserEvent) :
    ((userProducer.SendMessage marshal produce p message).2 = none →
      (userProducer.SendMessage marshal produce p message).1.drains = p.drains + 1) ∧
    (∀ err, (userProducer.SendMessage marshal produce p message).2 = some err →
      (userProducer.SendMessage marshal produce p message).1.drains = p.drains) ∧
    (drainEvent p e).drains = p.drains ∧
    (dispatchLoop (userProducer.SendMessage marshal produce) st events).producer.drains +
        (dispatchLoop (userProducer.SendMessage marshal produce) st events).logs.length =
      st.producer.drains + st.logs.length + events.length := by
  refine ⟨?_, ?_, ?_, ?_⟩
  · cases hm : marshal (userEventToProto message) with
    | error e0 =>
      rw [SendMessage_marshal_error marshal produce p message e0 hm]
      simp
    | ok value =>
      rw [SendMessage_ok marshal produce p message value hm]
      cases h : (produce p.broker (messageOf p.topic message value)).2 <;> simp
  · intro err
    cases hm : marshal (userEventToProto message) with
    | error e0 =>
      rw [SendMessage_marshal_error marshal produce p message e0 hm]
      simp
    | ok value =>
      rw [SendMessage_ok marshal produce p message value hm]
      cases h : (produce p.broker (messageOf p.topic message value)).2 <;> simp
  · cases e with
    | other => simp [drainEvent]
    | message topic partition offset err => cases err <;> simp [drainEvent]
  · induction events generalizing st with
    | nil => simp [dispatchLoop]
    | cons ev rest ih =>
      rw [dispatchLoop, ih, dispatchOne_drains]
      simp only [List.length_cons]
      omega

/-! ## The hand-off, on examples -/

/-- C17, instance: an insert is read and handed over, then an update is read and
waits in the push `select`. -/
theorem handoff_one_in_flight_witness :
    Handoff.run exampleUnmarshal (Handoff.start NewChangeStreamWatcher) exampleActions =
      some exampleHandoff ∧
    exampleHandoff.inFlight ≤ 1 ∧
    (∀ ev a st2, exampleHandoff.pc = WatcherPc.pushing ev →
      Handoff.step exampleUnmarshal exampleHandoff a = some st2 →
      (a = Action.handOver ∧ st2.pc = WatcherPc.loopTop ∧
        st2.received = exampleHandoff.received ++ [ev] ∧
        st2.reads = exampleHandoff.reads) ∨
      (∃ ctxErr, a = Action.ctxDone ctxErr ∧ st2.pc = WatcherPc.returned ∧
        st2.received = exampleHandoff.received ∧ st2.userEvents.closed = true ∧
        st2.reads = exampleHandoff.reads)) :=
  ⟨rfl,
   (handoff_one_in_flight exampleUnmarshal exampleActions exampleHandoff rfl).1,
   (handoff_one_in_flight exampleUnmarshal exampleActions exampleHandoff rfl).2.2.1⟩

/-- On a channel of capacity one the same watcher reads the next record while the
event before is still in the buffer: two events are in flight. -/
theorem buffered_channel_reads_ahead :
    Handoff.run exampleUnmarshal
        { pc := WatcherPc.loopTop, userEvents := { cap := 1, buf := [], closed := false },
          received := [], reads := 0 } bufferedActions =
      some
        { pc := WatcherPc.pushing updateEvent
          userEvents := { cap := 1, buf := [insertEvent], closed := false }
          received := []
          reads := 2 } ∧
    Handoff.inFlight
        { pc := WatcherPc.pushing updateEvent
          userEvents := { cap := 1, buf := [insertEvent], closed := false }
          received := []
          reads := 2 } = 2 :=
  ⟨rfl, rfl⟩

/-! ## The hand-off against the loop of the watcher -/

/-- What `processNextChange` does for either outcome of the push, in terms of what it
does when the consumer receives. -/
theorem processNextChange_push (unmarshal : Unmarshal) (next : NextResult) (newId : String)
    (push : PushResult) :
    processNextChange unmarshal next newId push =
      match processNextChange unmarshal next newId PushResult.received with
      | ProcessResult.returned none (some ev) =>
        (match push with
         | PushResult.received => ProcessResult.returned none (some ev)
         | PushResult.done ctxErr => ProcessResult.returned (some ctxErr) none)
      | r => r := by
  cases next with
  | stopped serr => cases serr <;> simp [processNextChange]
  | record current =>
    cases current with
    | none => simp [processNextChange]
    | some changeDoc =>
      simp only [processNextChange]
      cases hS : StringValue (Raw.Lookup changeDoc "operationType") with
      | error msg => simp
      | ok operationType => cases push <;> simp

/-- The hand-off on an open channel of capacity zero, played along the passes of
`its`, delivers to the dispatch loop the events of `watchLoop`, makes the reads of
`watchLoop`, and ends returned with the channel closed exactly when `watchLoop` ends
closed. -/
theorem run_scheduleOf (unmarshal : Unmarshal) (its : List Iteration) (st0 : Handoff)
    (hpc : st0.pc = WatcherPc.loopTop) (hcap : st0.userEvents.cap = 0)
    (hopen : st0.userEvents.closed = false) :
    ∃ st, Handoff.run unmarshal st0 (scheduleOf unmarshal its) = some st ∧
      st.received = st0.received ++ (watchLoop unmarshal its).events ∧
      st.reads = st0.reads + (watchLoop unmarshal its).reads ∧
      (match (watchLoop unmarshal its).state with
       | WatcherState.streaming => st.pc = WatcherPc.loopTop ∧ st.userEvents = st0.userEvents
       | WatcherState.closed _ =>
         st.pc = WatcherPc.returned ∧ st.userEvents.closed = true) := by
  induction its generalizing st0 with
  | nil => exact ⟨st0, rfl, by simp [watchLoop], by simp [watchLoop], by simp [watchLoop, hpc]⟩
  | cons it rest ih =>
    have hfin := finish_open st0 hopen
    rw [watchLoop_cons]
    by_cases hd : it.done = true
    · refine ⟨st0.finish, ?_, ?_, ?_, ?_⟩
      · simp [scheduleOf, hd, Handoff.run, Handoff.step, hpc]
      · simp [hd, hfin]
      · simp [hd, hfin]
      · simp [hd, hfin]
    · have hdf : it.done = false := by simpa using hd
      rw [processNextChange_push unmarshal it.next it.newId it.push]
      cases hp : processNextChange unmarshal it.next it.newId PushResult.received with
      | panicked msg =>
        refine ⟨st0.finishRead, ?_, ?_, ?_, ?_⟩
        · simp [scheduleOf, hdf, hp, Handoff.run, Handoff.step, hpc, Handoff.finishRead]
        · simp [hdf, Handoff.finishRead, hfin]
        · simp [hdf, Handoff.finishRead, hfin]
        · simp [hdf, Handoff.finishRead, hfin]
      | returned err pushed =>
        cases err with
        | some e =>
          refine ⟨st0.finishRead, ?_, ?_, ?_, ?_⟩
          · simp [scheduleOf, hdf, hp, Handoff.run, Handoff.step, hpc, Handoff.finishRead]
          · have hnone : pushed = none := by
              cases pushed with
              | none => rfl
              | some ev =>
                obtain ⟨_, _, _, _, _, h4, _⟩ := pushed_event_eq unmarshal _ _ _ _ _ hp
                cases h4
            simp [hdf, Handoff.finishRead, hfin, hnone]
          · simp [hdf, Handoff.finishRead, hfin]
          · simp [hdf, Handoff.finishRead, hfin]
        | none =>
          cases pushed with
          | none =>
            obtain ⟨st, h1, h2, h3, h4⟩ :=
              ih { pc := WatcherPc.loopTop, userEvents := st0.userEvents,
                   received := st0.received, reads := st0.reads + 1 } rfl hcap hopen
            refine ⟨st, ?_, ?_, ?_, ?_⟩
            · simp [scheduleOf, hdf, hp, Handoff.run, Handoff.step, hpc, h1]
            · simp [hdf, h2]
            · simp [hdf, h3]
              omega
            · simpa [hdf] using h4
          | some ev =>
            cases hpush : it.push with
            | received =>
              obtain ⟨st, h1, h2, h3, h4⟩ :=
                ih { pc := WatcherPc.loopTop, userEvents := st0.userEvents,
                     received := st0.received ++ [ev], reads := st0.reads + 1 } rfl hcap hopen
              refine ⟨st, ?_, ?_, ?_, ?_⟩
              · simp [scheduleOf, hdf, hp, hpush, Handoff.run, Handoff.step, hpc, hcap, hopen,
                  h1]
              · simp [hdf, h2]
              · simp [hdf, h3]
                omega
              · simpa [hdf] using h4
            | done ctxErr =>
              refine ⟨st0.finishRead, ?_, ?_, ?_, ?_⟩
              · simp [scheduleOf, hdf, hp, hpush, Handoff.run, Handoff.step, hpc,
                  Handoff.finishRead, Handoff.finish, hopen]
              · simp [hdf, Handoff.finishRead, hfin]
              · simp [hdf, Handoff.finishRead, hfin]
              · simp [hdf, Handoff.finishRead, hfin]

/-! ## A later run on the same watcher -/

/-- On a closed channel with an empty buffer no step delivers an event: the channel
and the events received stay as they are, and the goroutine does not return
normally. -/
theorem step_on_closed (unmarshal : Unmarshal) (st st2 : Handoff) (a : Action)
    (hclosed : st.userEvents.closed = true) (hbuf : st.userEvents.buf = [])
    (h : Handoff.step unmarshal st a = some st2) :
    st2.userEvents = st.userEvents ∧ st2.received = st.received ∧
    (st.pc ≠ WatcherPc.returned → st2.pc ≠ WatcherPc.returned) ∧
    (∀ ev, st.pc = WatcherPc.pushing ev → st2.pc = WatcherPc.panicked) := by
  have hfin := finish_closed st hclosed
  rcases step_cases unmarshal st st2 a h with
    ⟨hpc, h1 | h1 | h1 | ⟨ev, h1⟩⟩ | ⟨ev, _, _, hc, _, _⟩ | ⟨ev, _, _, hc, _, _⟩ |
    ⟨ev, rest, _, hb, _⟩ | ⟨ev, ctxErr, hpc, _, h1⟩ | ⟨ev, hpc, _, _, h1⟩
  · subst h1
    simp [hfin, hpc]
  · subst h1
    simp [Handoff.finishRead, hfin, hpc]
  · subst h1
    simp [Handoff.afterRead, hpc]
  · subst h1
    simp [Handoff.afterRead, hpc]
  · rw [hclosed] at hc
    cases hc
  · rw [hclosed] at hc
    cases hc
  · rw [hbuf] at hb
    cases hb
  · subst h1
    simp [hfin, hpc]
  · subst h1
    simp [hpc]

theorem run_on_closed (unmarshal : Unmarshal) (acts : List Action) (st st2 : Handoff)
    (hclosed : st.userEvents.closed = true) (hbuf : st.userEvents.buf = [])
    (hpc : st.pc ≠ WatcherPc.returned)
    (h : Handoff.run unmarshal st acts = some st2) :
    st2.userEvents = st.userEvents ∧ st2.received = st.received ∧
    st2.pc ≠ WatcherPc.returned := by
  induction acts generalizing st with
  | nil =>
    simp [Handoff.run] at h
    subst h
    exact ⟨rfl, rfl, hpc⟩
  | cons a rest ih =>
    simp only [Handoff.run] at h
    cases hs : Handoff.step unmarshal st a with
    | none => simp [hs] at h
    | some st1 =>
      simp only [hs] at h
      obtain ⟨h1, h2, h3, _⟩ := step_on_closed unmarshal st st1 a hclosed hbuf hs
      obtain ⟨k1, k2, k3⟩ := ih st1 (by rw [h1]; exact hclosed) (by rw [h1]; exact hbuf)
        (h3 hpc) h
      exact ⟨k1.trans h1, k2.trans h2, k3⟩

/-- C28: `WatchUsers` returns the channel held in the field `userEvents` of the
watcher, the one `NewChangeStreamWatcher` made, so a watcher whose first run has ended
hands out that same channel, closed, and not a new open one; and in every state a
later run on it can reach no event has been received, the channel is as the first run
left it, the goroutine has not returned normally, and a push that is attempted ends in
a panic. -/
theorem later_run_delivers_nothing (unmarshal : Unmarshal) (acts1 acts2 : List Action)
    (st1 st2 : Handoff)
    (h1 : Handoff.run unmarshal (Handoff.start NewChangeStreamWatcher) acts1 = some st1)
    (hclosed : st1.userEvents.closed = true)
    (h2 : Handoff.run unmarshal (Handoff.start { userEvents := st1.userEvents }) acts2 =
      some st2) :
    (∀ w : UsersChangeStreamWatcher, w.WatchUsers = w.userEvents ∧
      (Handoff.start w).userEvents = w.WatchUsers) ∧
    UsersChangeStreamWatcher.WatchUsers { userEvents := st1.userEvents } = st1.userEvents ∧
    UsersChangeStreamWatcher.WatchUsers { userEvents := st1.userEvents } ≠
      NewChangeStreamWatcher.userEvents ∧
    st2.received = [] ∧
    st2.userEvents = st1.userEvents ∧
    st2.pc ≠ WatcherPc.returned ∧
    (∀ ev a st3, st2.pc = WatcherPc.pushing ev → Handoff.step unmarshal st2 a = some st3 →
      st3.pc = WatcherPc.panicked ∧ st3.received = []) := by
  obtain ⟨_, hbuf⟩ := run_unbuffered unmarshal acts1
    (Handoff.start NewChangeStreamWatcher) st1 rfl rfl h1
  obtain ⟨k1, k2, k3⟩ := run_on_closed unmarshal acts2
    (Handoff.start { userEvents := st1.userEvents }) st2 hclosed hbuf (by simp [Handoff.start])
    h2
  have k1' : st2.userEvents = st1.userEvents := k1
  have k2' : st2.received = [] := k2
  refine ⟨fun w => ⟨rfl, rfl⟩, rfl, ?_, k2', k1', k3, ?_⟩
  · intro hne
    have hc : st1.userEvents.closed = NewChangeStreamWatcher.userEvents.closed :=
      congrArg Chan.closed hne
    rw [hclosed] at hc
    cases hc
  · intro ev a st3 hpc hs
    obtain ⟨_, m2, _, m4⟩ := step_on_closed unmarshal st2 st3 a (by rw [k1']; exact hclosed)
      (by rw [k1']; exact hbuf) hs
    exact ⟨m4 ev hpc, by rw [m2, k2']⟩

/-- C28, instance: the first run finds the context done at once and closes the
channel; a later run reads an insert, attempts the push and panics. -/
theorem later_run_delivers_nothing_witness :
    Handoff.run exampleUnmarshal (Handoff.start NewChangeStreamWatcher) cancelledActions =
      some cancelledHandoff ∧
    Handoff.run exampleUnmarshal (Handoff.start { userEvents := cancelledHandoff.userEvents })
      laterActions = some laterHandoff ∧
    laterHandoff.received = [] ∧
    laterHandoff.userEvents = cancelledHandoff.userEvents ∧
    laterHandoff.pc ≠ WatcherPc.returned :=
  ⟨rfl, rfl,
   (later_run_delivers_nothing exampleUnmarshal cancelledActions laterActions
      cancelledHandoff laterHandoff rfl rfl rfl).2.2.2.1,
   (later_run_delivers_nothing exampleUnmarshal cancelledActions laterActions
      cancelledHandoff laterHandoff rfl rfl rfl).2.2.2.2.1,
   (later_run_delivers_nothing exampleUnmarshal cancelledActions laterActions
      cancelledHandoff laterHandoff rfl rfl rfl).2.2.2.2.2.1⟩

/-- C29: when the read of the cursor returns no record and the cursor reports no
error, or the current record is nil, `processNextChange` pushes nothing and returns
nil; a pass of the loop with such a read leaves the watcher streaming, adds one read
and no event, and goes on with the next pass; and when opening the change stream
fails the run has no event, no read, and the channel closed. -/
theorem empty_read_continues (unmarshal : Unmarshal) (newId : String) (push : PushResult)
    (it : Iteration) (rest : List Iteration) (err : String) (its : List Iteration) :
    processNextChange unmarshal (NextResult.stopped none) newId push =
      ProcessResult.returned none none ∧
    processNextChange unmarshal (NextResult.record none) newId push =
      ProcessResult.returned none none ∧
    (it.done = false →
      (it.next = NextResult.stopped none ∨ it.next = NextResult.record none) →
      watchLoop unmarshal (it :: rest) =
        { events := (watchLoop unmarshal rest).events
          reads := 1 + (watchLoop unmarshal rest).reads
          state := (watchLoop unmarshal rest).state } ∧
      loopPhases unmarshal (it :: rest) = Phase.STREAMING :: loopPhases unmarshal rest) ∧
    WatchUsers unmarshal (some err) its =
      { events := [], reads := 0,
        state := WatcherState.closed (CloseReason.openFailed err) } ∧
    (WatchUsers unmarshal (some err) its).channelClosed = true := by
  refine ⟨rfl, rfl, ?_, rfl, rfl⟩
  intro hd hn
  rw [watchLoop_cons, loopPhases_cons, hd]
  rcases hn with hn | hn
  · rw [hn]
    simp [processNextChange]
  · rw [hn]
    simp [processNextChange]

/-! ## The filter and the count of `ListUsers` -/

/-- The method `ListUsers` in terms of the filter and the page size it works with,
whatever the store answers. -/
theorem ListUsers_eq (c : Collection) (request : ListUsersQueryRequest) :
    ListUsers c request =
      match c.CountDocuments (filterOf request) with
      | Except.error err => Except.error ("failed to count documents: " ++ err)
      | Except.ok totalCount =>
        match c.Find (filterOf request)
            ((request.Page * effectivePageSize request % 4294967296 : Nat) : Int)
            ((effectivePageSize request : Nat) : Int) with
        | Except.error err => Except.error err
        | Except.ok cursor =>
          match cursor with
          | Except.error err => Except.error ("failed to decode users: " ++ err)
          | Except.ok users =>
            Except.ok
              { Page := request.Page
                PageSize := effectivePageSize request
                TotalCount := totalCount.toNat % 4294967296
                Results := usersToDomain (users.map some) } := by
  obtain ⟨page, ps, co, fn, ln, nn, em⟩ := request
  by_cases hps : ps = 0
  · subst hps
    cases co <;> cases fn <;> cases ln <;> cases nn <;> cases em <;> rfl
  · cases co <;> cases fn <;> cases ln <;> cases nn <;> cases em <;>
      simp only [ListUsers, effectivePageSize, hps, if_false, filterOf]

/-- The constraints of the filter are the request fields that are set. -/
theorem mem_filterOf (request : ListUsersQueryRequest) (key value : String) :
    (key, value) ∈ filterOf request ↔
      ((key = "country" ∧ request.Country = some value) ∨
       (key = "first_name" ∧ request.FirstName = some value) ∨
       (key = "last_name" ∧ request.LastName = some value) ∨
       (key = "nickname" ∧ request.Nickname = some value) ∨
       (key = "email" ∧ request.Email = some value)) := by
  obtain ⟨page, ps, co, fn, ln, nn, em⟩ := request
  cases co <;> cases fn <;> cases ln <;> cases nn <;> cases em <;>
    simp [filterOf, Filter.set] <;> aesop

/-- A document satisfies the filter exactly when it agrees with every request field
that is set. -/
theorem matches_filterOf (request : ListUsersQueryRequest) (u : UserEntity) :
    (filterOf request).matches u = true ↔
      ((∀ v, request.Country = some v → u.Country = v) ∧
       (∀ v, request.FirstName = some v → u.FirstName = v) ∧
       (∀ v, request.LastName = some v → u.LastName = v) ∧
       (∀ v, request.Nickname = some v → u.Nickname = v) ∧
       (∀ v, request.Email = some v → u.Email = v)) := by
  obtain ⟨page, ps, co, fn, ln, nn, em⟩ := request
  cases co <;> cases fn <;> cases ln <;> cases nn <;> cases em <;>
    simp [filterOf, Filter.set, Filter.matches, UserEntity.get]

/-- C21: the filter `ListUsers` hands to `CountDocuments` and to `Find` holds a pair
of key and value exactly for the request fields that are set, under the keys country,
first_name, last_name, nickname and email, and nothing else; a document satisfies it
exactly when it agrees with every field that is set; with all five fields nil the
filter is empty and every document satisfies it. -/
theorem ListUsers_filter (c : Collection) (request : ListUsersQueryRequest) :
    ListUsers c request =
      (match c.CountDocuments (filterOf request) with
       | Except.error err => Except.error ("failed to count documents: " ++ err)
       | Except.ok totalCount =>
         match c.Find (filterOf request)
             ((request.Page * effectivePageSize request % 4294967296 : Nat) : Int)
             ((effectivePageSize request : Nat) : Int) with
         | Except.error err => Except.error err
         | Except.ok cursor =>
           match cursor with
           | Except.error err => Except.error ("failed to decode users: " ++ err)
           | Except.ok users =>
             Except.ok
               { Page := request.Page
                 PageSize := effectivePageSize request
                 TotalCount := totalCount.toNat % 4294967296
                 Results := usersToDomain (users.map some) }) ∧
    (∀ key value, (key, value) ∈ filterOf request ↔
      ((key = "country" ∧ request.Country = some value) ∨
       (key = "first_name" ∧ request.FirstName = some value) ∨
       (key = "last_name" ∧ request.LastName = some value) ∨
       (key = "nickname" ∧ request.Nickname = some value) ∨
       (key = "email" ∧ request.Email = some value))) ∧
    (∀ u, (filterOf request).matches u = true ↔
      ((∀ v, request.Country = some v → u.Country = v) ∧
       (∀ v, request.FirstName = some v → u.FirstName = v) ∧
       (∀ v, request.LastName = some v → u.LastName = v) ∧
       (∀ v, request.Nickname = some v → u.Nickname = v) ∧
       (∀ v, request.Email = some v → u.Email = v))) ∧
    (request.Country = none → request.FirstName = none → request.LastName = none →
      request.Nickname = none → request.Email = none →
      filterOf request = [] ∧ ∀ u, (filterOf request).matches u = true) := by
  refine ⟨ListUsers_eq c request, mem_filterOf request, matches_filterOf request, ?_⟩
  intro h1 h2 h3 h4 h5
  have hnil : filterOf request = [] := by
    simp [filterOf, h1, h2, h3, h4, h5]
  exact ⟨hnil, fun u => by simp [hnil, Filter.matches]⟩

/-- When the store answers, the TotalCount of the response is the count of the
matching documents, converted to 32 bits. -/
theorem ListUsers_totalCount_eq (c : Collection) (request : ListUsersQueryRequest)
    (h1 : c.countErr = none) (h2 : c.findErr = none) (h3 : c.allErr = none) :
    ∃ resp, ListUsers c request = Except.ok resp ∧
      resp.TotalCount = (c.docs.filter (filterOf request).matches).length % 4294967296 :=
  ⟨_, ListUsers_ok c request h1 h2 h3, rfl⟩

/-- C22, counterexample: with 4294967296 stored documents matching the filter the
response has TotalCount 0, because the count is converted to 32 bits. -/
theorem totalCount_wraps :
    ∃ resp, ListUsers hugeCollection defaultRequest = Except.ok resp ∧
      resp.TotalCount = 0 ∧
      (hugeCollection.docs.filter (filterOf defaultRequest).matches).length = 4294967296 := by
  have hall : hugeCollection.docs.filter (filterOf defaultRequest).matches =
      hugeCollection.docs := by
    apply List.filter_eq_self.mpr
    intro a _
    rfl
  have hlen : (hugeCollection.docs.filter (filterOf defaultRequest).matches).length =
      4294967296 := by
    rw [hall]
    exact List.length_replicate _ _
  obtain ⟨resp, hresp, ht⟩ := ListUsers_totalCount_eq hugeCollection defaultRequest rfl rfl rfl
  rw [hlen] at ht
  exact ⟨resp, hresp, ht, hlen⟩

/-- C22, amended: when the store answers, the TotalCount of the response is the number
of stored documents matching the filter, reduced modulo 4294967296, hence that number
itself whenever it is below 4294967296; it is the same for every Page and PageSize
of the request, however many results the page holds. -/
theorem ListUsers_totalCount (c : Collection) (request : ListUsersQueryRequest)
    (h1 : c.countErr = none) (h2 : c.findErr = none) (h3 : c.allErr = none) :
    ∃ resp, ListUsers c request = Except.ok resp ∧
      resp.TotalCount = (c.docs.filter (filterOf request).matches).length % 4294967296 ∧
      ((c.docs.filter (filterOf request).matches).length < 4294967296 →
        resp.TotalCount = (c.docs.filter (filterOf request).matches).length) ∧
      (∀ page pageSize, ∃ resp2,
        ListUsers c { request with Page := page, PageSize := pageSize } = Except.ok resp2 ∧
        resp2.TotalCount = resp.TotalCount) := by
  refine ⟨_, ListUsers_ok c request h1 h2 h3, rfl, ?_, ?_⟩
  · intro hlt
    exact Nat.mod_eq_of_lt hlt
  · intro page pageSize
    exact ⟨_, ListUsers_ok c { request with Page := page, PageSize := pageSize } h1 h2 h3, rfl⟩

/-- C22, instance: two stored users and a request for page 10 of size 3: the page is
empty and TotalCount is 2. -/
theorem ListUsers_totalCount_witness :
    ListUsers twoUserCollection emptyPageRequest =
      Except.ok { Page := 10, PageSize := 3, TotalCount := 2, Results := [] } ∧
    ∃ resp, ListUsers twoUserCollection emptyPageRequest = Except.ok resp ∧
      resp.TotalCount =
        (twoUserCollection.docs.filter (filterOf emptyPageRequest).matches).length %
          4294967296 ∧
      ((twoUserCollection.docs.filter (filterOf emptyPageRequest).matches).length <
          4294967296 →
        resp.TotalCount =
          (twoUserCollection.docs.filter (filterOf emptyPageRequest).matches).length) ∧
      (∀ page pageSize, ∃ resp2,
        ListUsers twoUserCollection
          { emptyPageRequest with Page := page, PageSize := pageSize } = Except.ok resp2 ∧
        resp2.TotalCount = resp.TotalCount) :=
  ⟨rfl, ListUsers_totalCount twoUserCollection emptyPageRequest rfl rfl rfl⟩

/-! ## The hashed password -/

theorem userToDomain_withHash (f : UserEntity → String) (u : UserEntity) :
    userToDomain (some (withHash f u)) = userToDomain (some u) := rfl

theorem matches_withHash (f : UserEntity → String) (request : ListUsersQueryRequest)
    (u : UserEntity) :
    (filterOf request).matches (withHash f u) = (filterOf request).matches u := by
  rw [Bool.eq_iff_iff, matches_filterOf, matches_filterOf]
  rfl

theorem filter_withHash (f : UserEntity → String) (request : ListUsersQueryRequest)
    (docs : List UserEntity) :
    (docs.map (withHash f)).filter (filterOf request).matches =
      (docs.filter (filterOf request).matches).map (withHash f) := by
  induction docs with
  | nil => rfl
  | cons u rest ih =>
    simp only [List.map_cons, List.filter_cons, matches_withHash, ih]
    split <;> rfl

theorem usersToDomain_withHash (f : UserEntity → String) (users : List UserEntity) :
    usersToDomain ((users.map (withHash f)).map some) = usersToDomain (users.map some) := by
  induction users with
  | nil => rfl
  | cons u rest ih =>
    simp only [usersToDomain, List.map_cons, List.map_map] at ih ⊢
    rw [ih]
    rfl

/-- Replacing the hashed passwords of the stored documents changes nothing of what
`ListUsers` returns. -/
theorem ListUsers_withHash (f : UserEntity → String) (c : Collection)
    (request : ListUsersQueryRequest) :
    ListUsers
        { docs := c.docs.map (withHash f), countErr := c.countErr, findErr := c.findErr,
          allErr := c.allErr } request =
      ListUsers c request := by
  rw [ListUsers_eq, ListUsers_eq]
  obtain ⟨docs, ce, fe, ae⟩ := c
  have hpos := effectivePageSize_pos request
  have hcast : ¬ ((effectivePageSize request : Int) = 0) := by
    intro h
    have : effectivePageSize request = 0 := by exact_mod_cast h
    omega
  cases ce with
  | some e => rfl
  | none =>
    cases fe with
    | some e => rfl
    | none =>
      cases ae with
      | some e => rfl
      | none =>
        simp only [Collection.CountDocuments, Collection.Find, filter_withHash,
          List.length_map, hcast, if_false, Int.toNat_ofNat, ← List.map_drop,
          ← List.map_take, usersToDomain_withHash]

theorem decodeImage_rehash (f : UserEntity → String) (unmarshal : Unmarshal)
    (field : Option BsonValue) :
    decodeImage (rehash f unmarshal) field =
      (decodeImage unmarshal field).map (withHash f) := by
  unfold decodeImage rehash
  split
  · rename_i value
    cases hu : unmarshal value <;> rfl
  · rfl

/-- A decoder that also replaces the hashed password leads to the same events. -/
theorem processNextChange_rehash (f : UserEntity → String) (unmarshal : Unmarshal)
    (next : NextResult) (newId : String) (push : PushResult) :
    processNextChange (rehash f unmarshal) next newId push =
      processNextChange unmarshal next newId push := by
  have himg : ∀ x : Option UserEntity, userToDomain (x.map (withHash f)) = userToDomain x := by
    intro x
    cases x <;> rfl
  have hid : ∀ b a : Option UserEntity,
      determineUserID (b.map (withHash f)) (a.map (withHash f)) = determineUserID b a := by
    intro b a
    cases b <;> cases a <;> rfl
  cases next with
  | stopped serr => cases serr <;> rfl
  | record current =>
    cases current with
    | none => rfl
    | some changeDoc =>
      simp only [processNextChange, decodeChangeDocuments_eq, decodeImage_rehash, himg, hid]

theorem ListUsers_results (c : Collection) (request : ListUsersQueryRequest)
    (resp : ListUsersQueryResponse) (h : ListUsers c request = Except.ok resp) :
    ∃ users : List UserEntity, resp.Results = usersToDomain (users.map some) := by
  rw [ListUsers_eq] at h
  obtain ⟨docs, ce, fe, ae⟩ := c
  cases ce with
  | some e => simp [Collection.CountDocuments] at h
  | none =>
    cases fe with
    | some e => simp [Collection.CountDocuments, Collection.Find] at h
    | none =>
      cases ae with
      | some e => simp [Collection.CountDocuments, Collection.Find] at h
      | none =>
        simp only [Collection.CountDocuments, Collection.Find] at h
        injection h with h
        exact ⟨_, by rw [← h]⟩

/-- The values handed on carry no hashed password: `userToDomain` of a stored entity
has an empty HashedPassword; so has every user in a result of `ListUsers`, none of
which is nil, and every BeforeChange and AfterChange of a pushed event; and replacing
the hashed passwords, in an entity, in the stored documents or in what the decoder
returns, changes nothing of the converted user, of the response of `ListUsers` or of
the event `processNextChange` pushes and the error it returns.  What is written to
the log is not part of these values. -/
theorem hashedPassword_stays_in_store (f : UserEntity → String) (u : UserEntity)
    (c : Collection) (request : ListUsersQueryRequest) (unmarshal : Unmarshal)
    (next : NextResult) (newId : String) (push : PushResult) :
    (∃ d, userToDomain (some u) = some d ∧ d.HashedPassword = "") ∧
    (∀ resp, ListUsers c request = Except.ok resp →
      ∀ x ∈ resp.Results, ∃ d, x = some d ∧ d.HashedPassword = "") ∧
    (∀ err e, processNextChange unmarshal next newId push = ProcessResult.returned err (some e) →
      (∀ d, e.BeforeChange = some d → d.HashedPassword = "") ∧
      (∀ d, e.AfterChange = some d → d.HashedPassword = "")) ∧
    userToDomain (some (withHash f u)) = userToDomain (some u) ∧
    ListUsers
        { docs := c.docs.map (withHash f), countErr := c.countErr, findErr := c.findErr,
          allErr := c.allErr } request =
      ListUsers c request ∧
    processNextChange (rehash f unmarshal) next newId push =
      processNextChange unmarshal next newId push := by
  have hdom : ∀ (x : Option UserEntity) (d : User), userToDomain x = some d →
      d.HashedPassword = "" := by
    intro x d hx
    cases x with
    | none => simp [userToDomain] at hx
    | some v =>
      simp only [userToDomain, Option.some.injEq] at hx
      rw [← hx]
  refine ⟨⟨_, rfl, rfl⟩, ?_, ?_, rfl, ListUsers_withHash f c request,
    processNextChange_rehash f unmarshal next newId push⟩
  · intro resp h x hx
    obtain ⟨users, hu⟩ := ListUsers_results c request resp h
    rw [hu] at hx
    simp only [usersToDomain, List.map_map, List.mem_map] at hx
    obtain ⟨v, _, hv⟩ := hx
    exact ⟨_, hv.symm, rfl⟩
  · intro err e h
    obtain ⟨changeDoc, operationType, _, _, _, _, he⟩ :=
      pushed_event_eq unmarshal next newId push err e h
    subst he
    exact ⟨fun d hd => hdom _ d hd, fun d hd => hdom _ d hd⟩

/-! ## Entities and domain users -/

/-- C30: `toEntity` carries the nine fields of a user unchanged; `userToDomain` of the
entity is the user with HashedPassword replaced by the empty string; `userToDomain` of
nil is nil; `usersToDomain` returns as many entries as it is given, the entry at each
index being `userToDomain` of the entry it is given at that index. -/
theorem toEntity_round_trip (u : User) (ul : List (Option UserEntity)) :
    ((toEntity u).ID = u.ID ∧ (toEntity u).FirstName = u.FirstName ∧
      (toEntity u).LastName = u.LastName ∧ (toEntity u).Email = u.Email ∧
      (toEntity u).HashedPassword = u.HashedPassword ∧ (toEntity u).Country = u.Country ∧
      (toEntity u).Nickname = u.Nickname ∧ (toEntity u).CreatedAt = u.CreatedAt ∧
      (toEntity u).UpdatedAt = u.UpdatedAt) ∧
    userToDomain (some (toEntity u)) = some { u with HashedPassword := "" } ∧
    userToDomain none = none ∧
    (usersToDomain ul).length = ul.length ∧
    ∀ i : Nat, (usersToDomain ul)[i]? = (ul[i]?).map userToDomain := by
  refine ⟨⟨rfl, rfl, rfl, rfl, rfl, rfl, rfl, rfl, rfl⟩, rfl, rfl, ?_, ?_⟩
  · simp [usersToDomain]
  · intro i
    simp [usersToDomain]

/-! ## Updating and deleting in the repository -/

/-- What `UserRepository.UpdateUser` returns, by the result of the store. -/
theorem UpdateUser_cases (findOneAndUpdate : String → UserEntity → SingleResult)
    (user : User) :
    (∃ e, findOneAndUpdate user.ID (toEntity user) = SingleResult.err e ∧
      e.isNoDocuments = true ∧
      UserRepository.UpdateUser findOneAndUpdate user =
        (user, some RepoError.ErrUserNotFound)) ∨
    (∃ e, findOneAndUpdate user.ID (toEntity user) = SingleResult.err e ∧
      e.isNoDocuments = false ∧
      UserRepository.UpdateUser findOneAndUpdate user = (user, some (RepoError.store e))) ∨
    (∃ e, findOneAndUpdate user.ID (toEntity user) =
        SingleResult.document (Except.error e) ∧
      UserRepository.UpdateUser findOneAndUpdate user = (user, some (RepoError.store e))) ∨
    (∃ updatedUser, findOneAndUpdate user.ID (toEntity user) =
        SingleResult.document (Except.ok updatedUser) ∧
      UserRepository.UpdateUser findOneAndUpdate user =
        ({ user with CreatedAt := updatedUser.CreatedAt }, none)) := by
  unfold UserRepository.UpdateUser
  cases h : findOneAndUpdate user.ID (toEntity user) with
  | err e =>
    cases hn : e.isNoDocuments with
    | true => exact Or.inl ⟨e, rfl, hn, by simp [hn]⟩
    | false => exact Or.inr (Or.inl ⟨e, rfl, hn, by simp [hn]⟩)
  | document decoded =>
    cases decoded with
    | error e => exact Or.inr (Or.inr (Or.inl ⟨e, rfl, rfl⟩))
    | ok updatedUser => exact Or.inr (Or.inr (Or.inr ⟨updatedUser, rfl, rfl⟩))

/-- C25: `UserRepository.UpdateUser` returns ErrUserNotFound exactly when the result
of the store carries an error that is `mongo.ErrNoDocuments`, and then the user behind
the pointer is as it was; any other error of the result, and an error of decoding, is
returned as it is, the user again as it was.  `UserRepository.DeleteUserById` returns
ErrUserNotFound exactly when the error of the result is `mongo.ErrNoDocuments`, any
other error as it is, and nil when there is none. -/
theorem not_found_iff_no_documents (findOneAndUpdate : String → UserEntity → SingleResult)
    (findOneAndDelete : String → Option StoreError) (user : User) (id : String) :
    ((UserRepository.UpdateUser findOneAndUpdate user).2 = some RepoError.ErrUserNotFound ↔
      ∃ e, findOneAndUpdate user.ID (toEntity user) = SingleResult.err e ∧
        e.isNoDocuments = true) ∧
    (∀ e, (UserRepository.UpdateUser findOneAndUpdate user).2 = some e →
      (UserRepository.UpdateUser findOneAndUpdate user).1 = user) ∧
    (∀ e, e.isNoDocuments = false →
      (findOneAndUpdate user.ID (toEntity user) = SingleResult.err e ∨
        findOneAndUpdate user.ID (toEntity user) =
          SingleResult.document (Except.error e)) →
      UserRepository.UpdateUser findOneAndUpdate user = (user, some (RepoError.store e))) ∧
    (UserRepository.DeleteUserById findOneAndDelete id = some RepoError.ErrUserNotFound ↔
      ∃ e, findOneAndDelete id = some e ∧ e.isNoDocuments = true) ∧
    (∀ e, findOneAndDelete id = some e → e.isNoDocuments = false →
      UserRepository.DeleteUserById findOneAndDelete id = some (RepoError.store e)) ∧
    (findOneAndDelete id = none → UserRepository.DeleteUserById findOneAndDelete id = none) := by
  refine ⟨?_, ?_, ?_, ?_, ?_, ?_⟩
  · rcases UpdateUser_cases findOneAndUpdate user with
      ⟨e, h, hn, hr⟩ | ⟨e, h, hn, hr⟩ | ⟨e, h, hr⟩ | ⟨v, h, hr⟩
    · rw [hr]
      exact ⟨fun _ => ⟨e, h, hn⟩, fun _ => rfl⟩
    · rw [hr, h]
      constructor
      · intro hx
        simp at hx
      · rintro ⟨e2, he2, hn2⟩
        injection he2 with he2
        rw [he2, hn2] at hn
        cases hn
    · rw [hr, h]
      constructor
      · intro hx
        simp at hx
      · rintro ⟨e2, he2, _⟩
        cases he2
    · rw [hr, h]
      constructor
      · intro hx
        simp at hx
      · rintro ⟨e2, he2, _⟩
        cases he2
  · intro e he
    rcases UpdateUser_cases findOneAndUpdate user with
      ⟨e, h, hn, hr⟩ | ⟨e, h, hn, hr⟩ | ⟨e, h, hr⟩ | ⟨v, h, hr⟩
    · rw [hr]
    · rw [hr]
    · rw [hr]
    · rw [hr] at he
      simp at he
  · intro e hn h
    rcases h with h | h
    · simp [UserRepository.UpdateUser, h, hn]
    · simp [UserRepository.UpdateUser, h]
  · unfold UserRepository.DeleteUserById
    cases h : findOneAndDelete id with
    | none => simp
    | some e =>
      cases hn : e.isNoDocuments with
      | true => simp [hn]
      | false => simp [hn]
  · intro e h hn
    simp [UserRepository.DeleteUserById, h, hn]
  · intro h
    simp [UserRepository.DeleteUserById, h]

/-! ## The service -/

/-- The result of `Time.Round` to the millisecond is a whole number of milliseconds,
at most half a millisecond from the instant rounded, the halfway instant going up. -/
theorem Round_Millisecond (t : Time) :
    Time.Round t Millisecond % Millisecond = 0 ∧
    2 * (Time.Round t Millisecond - t) ≤ Millisecond ∧
    -Millisecond < 2 * (Time.Round t Millisecond - t) := by
  have h : Time.Round t Millisecond =
      if (t + 62135596800000000000) % 1000000 + (t + 62135596800000000000) % 1000000 <
          1000000
      then t - (t + 62135596800000000000) % 1000000
      else t + (1000000 - (t + 62135596800000000000) % 1000000) := by
    simp [Time.Round, Millisecond, zeroTimeOffset]
  have key : ∀ a x : Int,
      x = (if (a + 62135596800000000000) % 1000000 + (a + 62135596800000000000) % 1000000 <
            1000000
          then a - (a + 62135596800000000000) % 1000000
          else a + (1000000 - (a + 62135596800000000000) % 1000000)) →
      x % 1000000 = 0 ∧ 2 * (x - a) ≤ 1000000 ∧ -1000000 < 2 * (x - a) := by
    intro a x hx
    split at hx <;> omega
  exact key t _ h

/-- What `service.CreateUser` returns, by the error of the repository. -/
theorem service_CreateUser_eq {ε : Type} (repoCreateUser : User → User × Option ε)
    (newID : String) (now : Time) (user : User) :
    service.CreateUser repoCreateUser newID now user =
      match (repoCreateUser
          { user with ID := newID, CreatedAt := Time.Round now Millisecond,
                      UpdatedAt := Time.Round now Millisecond }).2 with
      | some err => (none, some err)
      | none =>
        (some (repoCreateUser
          { user with ID := newID, CreatedAt := Time.Round now Millisecond,
                      UpdatedAt := Time.Round now Millisecond }).1, none) := rfl

/-- C27: each of `service.CreateUser`, `service.UpdateUser`, `service.DeleteUser` and
`service.ListUsers` returns the error of its repository call, nil when that call
returns nil, and a nil result whenever it returns an error. -/
theorem service_returns_repository_error {ε : Type}
    (repoCreateUser repoUpdateUser : User → User × Option ε)
    (repoDeleteUserById : String → Option ε)
    (repoListUsers : ListUsersQueryRequest → Option ListUsersQueryResponse × Option ε)
    (newID : String) (now : Time) (user : User) (id : String)
    (req : ListUsersQueryRequest) :
    ((service.CreateUser repoCreateUser newID now user).2 =
        (repoCreateUser
          { user with ID := newID, CreatedAt := Time.Round now Millisecond,
                      UpdatedAt := Time.Round now Millisecond }).2 ∧
      ((service.CreateUser repoCreateUser newID now user).2 ≠ none →
        (service.CreateUser repoCreateUser newID now user).1 = none)) ∧
    ((service.UpdateUser repoUpdateUser now user).2 =
        (repoUpdateUser { user with UpdatedAt := Time.Round now Millisecond }).2 ∧
      ((service.UpdateUser repoUpdateUser now user).2 ≠ none →
        (service.UpdateUser repoUpdateUser now user).1 = none)) ∧
    service.DeleteUser repoDeleteUserById id = repoDeleteUserById id ∧
    ((service.ListUsers repoListUsers req).2 = (repoListUsers req).2 ∧
      ((service.ListUsers repoListUsers req).2 ≠ none →
        (service.ListUsers repoListUsers req).1 = none)) := by
  refine ⟨?_, ?_, rfl, ?_⟩
  · rw [service_CreateUser_eq]
    cases h : (repoCreateUser
        { user with ID := newID, CreatedAt := Time.Round now Millisecond,
                    UpdatedAt := Time.Round now Millisecond }).2 with
    | none => exact ⟨rfl, fun hx => absurd rfl hx⟩
    | some err => exact ⟨rfl, fun _ => rfl⟩
  · unfold service.UpdateUser
    simp only []
    cases h : (repoUpdateUser { user with UpdatedAt := Time.Round now Millisecond }).2 with
    | none => exact ⟨rfl, fun hx => absurd rfl hx⟩
    | some err => exact ⟨rfl, fun _ => rfl⟩
  · unfold service.ListUsers
    simp only []
    cases h : (repoListUsers req).2 with
    | none => exact ⟨rfl, fun hx => absurd rfl hx⟩
    | some err => exact ⟨rfl, fun _ => rfl⟩

/-- C26, counterexample: a repository that returns no error and writes an ID and
timestamps of its own through the pointer it is handed, as the mocked repository of
`service_test.go` does; `service.CreateUser` returns the user as that repository left
it, whose ID is not the generated one and whose CreatedAt is not the rounded instant,
nor a whole number of milliseconds. -/
theorem repository_rewrites_created_user :
    (rewritingRepository
        { callerUser with ID := "6ba7b810-9dad-11d1-80b4-00c04fd430c8",
                          CreatedAt := Time.Round exampleNow Millisecond,
                          UpdatedAt := Time.Round exampleNow Millisecond }).2 = none ∧
    ∃ created : User,
      service.CreateUser rewritingRepository "6ba7b810-9dad-11d1-80b4-00c04fd430c8"
          exampleNow callerUser = (some created, none) ∧
      created.ID ≠ "6ba7b810-9dad-11d1-80b4-00c04fd430c8" ∧
      created.CreatedAt ≠ Time.Round exampleNow Millisecond ∧
      ¬ created.CreatedAt % Millisecond = 0 := by
  refine ⟨rfl, { callerUser with ID := "0e4fa9ab-5e2c-4c7b-9d3a-7f0d6c1b2a33",
                                 CreatedAt := 1700003, UpdatedAt := 1700003 }, ?_, ?_, ?_, ?_⟩
  · decide
  · decide
  · decide
  · decide

/-- C26, amended: `service.CreateUser` hands the repository the input user with the
generated ID in place of the one it had (empty only if the generated string is),
CreatedAt the current instant rounded to the millisecond (a whole number of
milliseconds at most half a millisecond away), UpdatedAt equal to CreatedAt and the
other six fields as they were; when the repository returns no error it returns the
user as the repository leaves it, which is the user handed over whenever the
repository leaves that as it is, as `UserRepository.CreateUser` of
`user_repository.go` does. -/
theorem CreateUser_returns_handed_user {ε : Type} (repoCreateUser : User → User × Option ε)
    (newID : String) (now : Time) (user : User)
    (hok : (repoCreateUser
      { user with ID := newID, CreatedAt := Time.Round now Millisecond,
                  UpdatedAt := Time.Round now Millisecond }).2 = none) :
    ∃ handed : User,
      service.CreateUser repoCreateUser newID now user =
        (some (repoCreateUser handed).1, none) ∧
      handed.ID = newID ∧ (handed.ID = "" ↔ newID = "") ∧
      handed.CreatedAt = Time.Round now Millisecond ∧
      handed.CreatedAt % Millisecond = 0 ∧
      2 * (handed.CreatedAt - now) ≤ Millisecond ∧
      -Millisecond < 2 * (handed.CreatedAt - now) ∧
      handed.UpdatedAt = handed.CreatedAt ∧
      handed.FirstName = user.FirstName ∧ handed.LastName = user.LastName ∧
      handed.Email = user.Email ∧ handed.HashedPassword = user.HashedPassword ∧
      handed.Country = user.Country ∧ handed.Nickname = user.Nickname ∧
      ((repoCreateUser handed).1 = handed →
        service.CreateUser repoCreateUser newID now user = (some handed, none)) ∧
      (∀ insertOne : UserEntity → Option StoreError,
        UserRepository.CreateUser insertOne handed = none →
        service.CreateUser (fun u => (u, UserRepository.CreateUser insertOne u)) newID now
            user =
          (some handed, none)) := by
  have hres : service.CreateUser repoCreateUser newID now user =
      (some (repoCreateUser
        { user with ID := newID, CreatedAt := Time.Round now Millisecond,
                    UpdatedAt := Time.Round now Millisecond }).1, none) := by
    rw [service_CreateUser_eq]
    simp only [hok]
  refine ⟨{ user with ID := newID, CreatedAt := Time.Round now Millisecond,
                      UpdatedAt := Time.Round now Millisecond }, hres, rfl, Iff.rfl, rfl,
    (Round_Millisecond now).1, (Round_Millisecond now).2.1, (Round_Millisecond now).2.2,
    rfl, rfl, rfl, rfl, rfl, rfl, rfl, ?_, ?_⟩
  · intro hkeep
    rw [hres, hkeep]
  · intro insertOne hins
    rw [service_CreateUser_eq]
    simp only [hins]

theorem CreateUser_returns_handed_user_witness :
    ∃ handed : User,
      service.CreateUser (fun u => (u, UserRepository.CreateUser insertOk u))
          "6ba7b810-9dad-11d1-80b4-00c04fd430c8" exampleNow callerUser =
        (some ((fun u => (u, UserRepository.CreateUser insertOk u)) handed).1, none) ∧
      handed.ID = "6ba7b810-9dad-11d1-80b4-00c04fd430c8" ∧
      (handed.ID = "" ↔ "6ba7b810-9dad-11d1-80b4-00c04fd430c8" = "") ∧
      handed.CreatedAt = Time.Round exampleNow Millisecond ∧
      handed.CreatedAt % Millisecond = 0 ∧
      2 * (handed.CreatedAt - exampleNow) ≤ Millisecond ∧
      -Millisecond < 2 * (handed.CreatedAt - exampleNow) ∧
      handed.UpdatedAt = handed.CreatedAt ∧
      handed.FirstName = callerUser.FirstName ∧ handed.LastName = callerUser.LastName ∧
      handed.Email = callerUser.Email ∧
      handed.HashedPassword = callerUser.HashedPassword ∧
      handed.Country = callerUser.Country ∧ handed.Nickname = callerUser.Nickname ∧
      (((fun u => (u, UserRepository.CreateUser insertOk u)) handed).1 = handed →
        service.CreateUser (fun u => (u, UserRepository.CreateUser insertOk u))
            "6ba7b810-9dad-11d1-80b4-00c04fd430c8" exampleNow callerUser =
          (some handed, none)) ∧
      (∀ insertOne : UserEntity → Option StoreError,
        UserRepository.CreateUser insertOne handed = none →
        service.CreateUser (fun u => (u, UserRepository.CreateUser insertOne u))
            "6ba7b810-9dad-11d1-80b4-00c04fd430c8" exampleNow callerUser =
          (some handed, none)) :=
  CreateUser_returns_handed_user (fun u => (u, UserRepository.CreateUser insertOk u))
    "6ba7b810-9dad-11d1-80b4-00c04fd430c8" exampleNow callerUser rfl

/-- The rounding of the example instant: 1.500001 ms goes up to 2 ms, and the ID of the
caller is replaced. -/
theorem CreateUser_example :
    service.CreateUser (fun u => (u, UserRepository.CreateUser insertOk u))
        "6ba7b810-9dad-11d1-80b4-00c04fd430c8" exampleNow callerUser =
      (some { callerUser with ID := "6ba7b810-9dad-11d1-80b4-00c04fd430c8",
                              CreatedAt := 2000000, UpdatedAt := 2000000 }, none) := by
  decide

/-! ## The handlers -/

/-- The fixed message has no percent sign: `status.Errorf` carries it as it is. -/
theorem Errorf_internal (verbs : String → String) :
    status.Errorf verbs codes.Code.Internal "internal server error" = internalError := by
  have h : ("internal server error".toList.contains '%') = false := by decide
  simp [status.Errorf, Sprintf, internalError, h]

/-- The handler `CreateUser` on a request that fails validation. -/
theorem CreateUser_invalid {σ ε : Type} (rd : ErrorReading ε) (svc : UserService σ ε)
    (validate : pb.CreateUserRequest → Option String)
    (generateFromPassword : String → Except String String) (s : σ)
    (req : pb.CreateUserRequest) (msg : String) (h : validate req = some msg) :
    UserServiceServer.CreateUser rd svc validate generateFromPassword s req =
      (s, HandlerResult.error { code := codes.Code.InvalidArgument, message := msg }) := by
  simp [UserServiceServer.CreateUser, h, status.Error]

/-- The handler `CreateUser` on a valid request whose password cannot be hashed. -/
theorem CreateUser_hash_error {σ ε : Type} (rd : ErrorReading ε) (svc : UserService σ ε)
    (validate : pb.CreateUserRequest → Option String)
    (generateFromPassword : String → Except String String) (s : σ)
    (req : pb.CreateUserRequest) (e : String) (h : validate req = none)
    (hg : generateFromPassword req.Password = Except.error e) :
    UserServiceServer.CreateUser rd svc validate generateFromPassword s req =
      (s, HandlerResult.error internalError) := by
  simp [UserServiceServer.CreateUser, h, hg, Errorf_internal]

/-- The handler `CreateUser` on a valid request whose password is hashed: the service
is called once, and its error decides. -/
theorem CreateUser_called {σ ε : Type} (rd : ErrorReading ε) (svc : UserService σ ε)
    (validate : pb.CreateUserRequest → Option String)
    (generateFromPassword : String → Except String String) (s : σ)
    (req : pb.CreateUserRequest) (hashedPassword : String) (h : validate req = none)
    (hg : generateFromPassword req.Password = Except.ok hashedPassword) :
    UserServiceServer.CreateUser rd svc validate generateFromPassword s req =
      ((svc.CreateUser s (newUserOf req hashedPassword)).1,
        match (svc.CreateUser s (newUserOf req hashedPassword)).2.2 with
        | some _ => HandlerResult.error internalError
        | none =>
          HandlerResult.ok (userToProto (svc.CreateUser s (newUserOf req hashedPassword)).2.1)) := by
  simp only [UserServiceServer.CreateUser, h, hg, Errorf_internal]
  cases (svc.CreateUser s (newUserOf req hashedPassword)).2.2 <;> rfl

/-- The handler `UpdateUser`, by the validation and by the error of the service. -/
theorem UpdateUser_handler_eq {σ ε : Type} (rd : ErrorReading ε) (svc : UserService σ ε)
    (validate : pb.UpdateUserRequest → Option String) (s : σ) (req : pb.UpdateUserRequest) :
    UserServiceServer.UpdateUser rd svc validate s req =
      match validate req with
      | some msg =>
        (s, HandlerResult.error { code := codes.Code.InvalidArgument, message := msg })
      | none =>
        ((svc.UpdateUser s (updatedUserOf req)).1,
          match (svc.UpdateUser s (updatedUserOf req)).2.2 with
          | some e =>
            if rd.isUserNotFound e = true then
              HandlerResult.error
                { code := codes.Code.NotFound, message := Sprintf rd.verbs (rd.Error e) }
            else HandlerResult.error internalError
          | none => HandlerResult.ok (userToProto (svc.UpdateUser s (updatedUserOf req)).2.1)) := by
  unfold UserServiceServer.UpdateUser
  cases validate req with
  | some msg => rfl
  | none =>
    simp only [Errorf_internal]
    cases (svc.UpdateUser s (updatedUserOf req)).2.2 with
    | none => rfl
    | some e => cases h : rd.isUserNotFound e <;> simp [h, status.Errorf]

/-- The handler `DeleteUser`, by the validation and by the error of the service. -/
theorem DeleteUser_handler_eq {σ ε : Type} (rd : ErrorReading ε) (svc : UserService σ ε)
    (validate : pb.DeleteUserRequest → Option String) (s : σ) (req : pb.DeleteUserRequest) :
    UserServiceServer.DeleteUser rd svc validate s req =
      match validate req with
      | some msg =>
        (s, HandlerResult.error { code := codes.Code.InvalidArgument, message := msg })
      | none =>
        ((svc.DeleteUser s req.Id).1,
          match (svc.DeleteUser s req.Id).2 with
          | some e =>
            if rd.isUserNotFound e = true then
              HandlerResult.error
                { code := codes.Code.NotFound, message := Sprintf rd.verbs (rd.Error e) }
            else HandlerResult.error internalError
          | none => HandlerResult.ok ()) := by
  unfold UserServiceServer.DeleteUser
  cases validate req with
  | some msg => rfl
  | none =>
    simp only [Errorf_internal]
    cases (svc.DeleteUser s req.Id).2 with
    | none => rfl
    | some e => cases h : rd.isUserNotFound e <;> simp [h, status.Errorf]

/-- The handler `ListUsers`, by the validation and by what the service returns. -/
theorem ListUsers_handler_eq {σ ε : Type} (rd : ErrorReading ε) (svc : UserService σ ε)
    (validate : pb.ListUsersRequest → Option String) (s : σ) (req : pb.ListUsersRequest) :
    UserServiceServer.ListUsers rd svc validate s req =
      match validate req with
      | some msg =>
        (s, HandlerResult.error { code := codes.Code.InvalidArgument, message := msg })
      | none =>
        ((svc.ListUsers s (queryOf req)).1,
          match (svc.ListUsers s (queryOf req)).2.2, (svc.ListUsers s (queryOf req)).2.1 with
          | some _, _ => HandlerResult.error internalError
          | none, none => HandlerResult.panicked
          | none, some res =>
            HandlerResult.ok
              { Page := res.Page, PageSize := res.PageSize, TotalCount := res.TotalCount,
                Results := res.Results.map userToProto }) := by
  unfold UserServiceServer.ListUsers
  cases validate req with
  | some msg => rfl
  | none =>
    simp only [Errorf_internal]
    cases (svc.ListUsers s (queryOf req)).2.2 with
    | some e => rfl
    | none => cases (svc.ListUsers s (queryOf req)).2.1 <;> rfl

/-- C24, counterexample: the request passes validation and the service returns no
error on any call, yet the handler `CreateUser` does not succeed; the password is not
hashed, the status has code Internal with the fixed message, and the service is not
called. -/
theorem hash_failure_is_not_success :
    (fun _ => none : pb.CreateUserRequest → Option String) signUp = none ∧
    (∀ n user, (countingService.CreateUser n user).2.2 = none) ∧
    UserServiceServer.CreateUser textReading countingService (fun _ => none) hashFails 0
        signUp =
      (0, HandlerResult.error
        { code := codes.Code.Internal, message := "internal server error" }) :=
  ⟨rfl, fun _ _ => rfl,
    CreateUser_hash_error textReading countingService (fun _ => none) hashFails 0 signUp _
      rfl rfl⟩

/-- C24, amended: a handler whose request fails validation returns InvalidArgument
with the message of the validation and leaves the service uncalled; `CreateUser` on a
valid request whose password cannot be hashed returns Internal with the fixed message
and leaves the service uncalled; otherwise the service is called once, and when it
returns an error `UpdateUser` and `DeleteUser` return NotFound if the error is
ErrUserNotFound and Internal with the fixed message if not, `CreateUser` and
`ListUsers` return Internal with the fixed message; when it returns no error
`CreateUser`, `UpdateUser` and `DeleteUser` succeed, and `ListUsers` succeeds with the
response of the service it is given. -/
theorem handlers_classify_failures {σ ε : Type} (rd : ErrorReading ε)
    (svc : UserService σ ε) (validateCreate : pb.CreateUserRequest → Option String)
    (validateUpdate : pb.UpdateUserRequest → Option String)
    (validateDelete : pb.DeleteUserRequest → Option String)
    (validateList : pb.ListUsersRequest → Option String)
    (generateFromPassword : String → Except String String) (s : σ)
    (creq : pb.CreateUserRequest) (ureq : pb.UpdateUserRequest)
    (dreq : pb.DeleteUserRequest) (lreq : pb.ListUsersRequest) :
    ((∀ msg, validateCreate creq = some msg →
        UserServiceServer.CreateUser rd svc validateCreate generateFromPassword s creq =
          (s, HandlerResult.error { code := codes.Code.InvalidArgument, message := msg })) ∧
      (∀ msg, validateUpdate ureq = some msg →
        UserServiceServer.UpdateUser rd svc validateUpdate s ureq =
          (s, HandlerResult.error { code := codes.Code.InvalidArgument, message := msg })) ∧
      (∀ msg, validateDelete dreq = some msg →
        UserServiceServer.DeleteUser rd svc validateDelete s dreq =
          (s, HandlerResult.error { code := codes.Code.InvalidArgument, message := msg })) ∧
      (∀ msg, validateList lreq = some msg →
        UserServiceServer.ListUsers rd svc validateList s lreq =
          (s, HandlerResult.error { code := codes.Code.InvalidArgument, message := msg }))) ∧
    (validateCreate creq = none →
      (∀ e, generateFromPassword creq.Password = Except.error e →
        UserServiceServer.CreateUser rd svc validateCreate generateFromPassword s creq =
          (s, HandlerResult.error internalError)) ∧
      (∀ hashedPassword, generateFromPassword creq.Password = Except.ok hashedPassword →
        (∀ e, (svc.CreateUser s (newUserOf creq hashedPassword)).2.2 = some e →
          UserServiceServer.CreateUser rd svc validateCreate generateFromPassword s creq =
            ((svc.CreateUser s (newUserOf creq hashedPassword)).1,
              HandlerResult.error internalError)) ∧
        ((svc.CreateUser s (newUserOf creq hashedPassword)).2.2 = none →
          UserServiceServer.CreateUser rd svc validateCreate generateFromPassword s creq =
            ((svc.CreateUser s (newUserOf creq hashedPassword)).1,
              HandlerResult.ok
                (userToProto (svc.CreateUser s (newUserOf creq hashedPassword)).2.1))))) ∧
    (validateUpdate ureq = none →
      (∀ e, (svc.UpdateUser s (updatedUserOf ureq)).2.2 = some e →
        rd.isUserNotFound e = true →
        UserServiceServer.UpdateUser rd svc validateUpdate s ureq =
          ((svc.UpdateUser s (updatedUserOf ureq)).1,
            HandlerResult.error
              { code := codes.Code.NotFound, message := Sprintf rd.verbs (rd.Error e) })) ∧
      (∀ e, (svc.UpdateUser s (updatedUserOf ureq)).2.2 = some e →
        rd.isUserNotFound e = false →
        UserServiceServer.UpdateUser rd svc validateUpdate s ureq =
          ((svc.UpdateUser s (updatedUserOf ureq)).1, HandlerResult.error internalError)) ∧
      ((svc.UpdateUser s (updatedUserOf ureq)).2.2 = none →
        UserServiceServer.UpdateUser rd svc validateUpdate s ureq =
          ((svc.UpdateUser s (updatedUserOf ureq)).1,
            HandlerResult.ok (userToProto (svc.UpdateUser s (updatedUserOf ureq)).2.1)))) ∧
    (validateDelete dreq = none →
      (∀ e, (svc.DeleteUser s dreq.Id).2 = some e → rd.isUserNotFound e = true →
        UserServiceServer.DeleteUser rd svc validateDelete s dreq =
          ((svc.DeleteUser s dreq.Id).1,
            HandlerResult.error
              { code := codes.Code.NotFound, message := Sprintf rd.verbs (rd.Error e) })) ∧
      (∀ e, (svc.DeleteUser s dreq.Id).2 = some e → rd.isUserNotFound e = false →
        UserServiceServer.DeleteUser rd svc validateDelete s dreq =
          ((svc.DeleteUser s dreq.Id).1, HandlerResult.error internalError)) ∧
      ((svc.DeleteUser s dreq.Id).2 = none →
        UserServiceServer.DeleteUser rd svc validateDelete s dreq =
          ((svc.DeleteUser s dreq.Id).1, HandlerResult.ok ()))) ∧
    (validateList lreq = none →
      (∀ e, (svc.ListUsers s (queryOf lreq)).2.2 = some e →
        UserServiceServer.ListUsers rd svc validateList s lreq =
          ((svc.ListUsers s (queryOf lreq)).1, HandlerResult.error internalError)) ∧
      (∀ res, (svc.ListUsers s (queryOf lreq)).2.1 = some res →
        (svc.ListUsers s (queryOf lreq)).2.2 = none →
        UserServiceServer.ListUsers rd svc validateList s lreq =
          ((svc.ListUsers s (queryOf lreq)).1,
            HandlerResult.ok
              { Page := res.Page, PageSize := res.PageSize, TotalCount := res.TotalCount,
                Results := res.Results.map userToProto }))) := by
  refine ⟨⟨?_, ?_, ?_, ?_⟩, ?_, ?_, ?_, ?_⟩
  · intro msg h
    exact CreateUser_invalid rd svc validateCreate generateFromPassword s creq msg h
  · intro msg h
    rw [UpdateUser_handler_eq, h]
  · intro msg h
    rw [DeleteUser_handler_eq, h]
  · intro msg h
    rw [ListUsers_handler_eq, h]
  · intro h
    refine ⟨fun e hg =>
      CreateUser_hash_error rd svc validateCreate generateFromPassword s creq e h hg, ?_⟩
    intro hashedPassword hg
    rw [CreateUser_called rd svc validateCreate generateFromPassword s creq hashedPassword h hg]
    exact ⟨fun e he => by rw [he], fun he => by rw [he]⟩
  · intro h
    rw [UpdateUser_handler_eq, h]
    refine ⟨fun e he hn => ?_, fun e he hn => ?_, fun he => ?_⟩
    · simp only [he, hn, if_true]
    · simp [he, hn]
    · simp only [he]
  · intro h
    rw [DeleteUser_handler_eq, h]
    refine ⟨fun e he hn => ?_, fun e he hn => ?_, fun he => ?_⟩
    · simp only [he, hn, if_true]
    · simp [he, hn]
    · simp only [he]
  · intro h
    rw [ListUsers_handler_eq, h]
    refine ⟨fun e he => ?_, fun res hr he => ?_⟩
    · simp only [he]
    · simp only [he, hr]

/-- A request that fails validation reaches no service: the count of calls stays 0. -/
theorem invalid_request_example :
    UserServiceServer.UpdateUser textReading countingService
        (fun _ => some "invalid UpdateUserRequest.Id: value must be a valid UUID") 0 rename =
      (0, HandlerResult.error
        { code := codes.Code.InvalidArgument,
          message := "invalid UpdateUserRequest.Id: value must be a valid UUID" }) := rfl

/-- An update and a delete of a user the service does not find return NotFound; a
failing create returns Internal with the fixed message, not the text of the error. -/
theorem missing_user_example :
    UserServiceServer.UpdateUser textReading missingUserService (fun _ => none) 0 rename =
      (1, HandlerResult.error { code := codes.Code.NotFound, message := "user not found" }) ∧
    UserServiceServer.DeleteUser textReading missingUserService (fun _ => none) 0
        { Id := "u-1" } =
      (1, HandlerResult.error { code := codes.Code.NotFound, message := "user not found" }) ∧
    UserServiceServer.CreateUser textReading missingUserService (fun _ => none)
        (fun _ => Except.ok "$2a$10$hash") 0 signUp =
      (1, HandlerResult.error
        { code := codes.Code.Internal, message := "internal server error" }) := by
  refine ⟨?_, ?_, ?_⟩ <;> decide

/-! ## The hashed password in the log -/

/-- Two messages with the same text before the verb are equal only if what the verb
prints is. -/
theorem append_left_cancel (pre a b : String) (h : pre ++ a = pre ++ b) : a = b := by
  have h2 := congrArg String.data h
  simp only [String.data_append, List.append_cancel_left_eq] at h2
  exact String.ext h2

/-- The text `%v` prints for an entity changes with its hashed password. -/
theorem format_withHash_inj (timeString : Time → String) (f : UserEntity → String)
    (u : UserEntity)
    (h : UserEntity.format timeString (withHash f u) = UserEntity.format timeString u) :
    f u = u.HashedPassword := by
  have h2 := congrArg String.data h
  simp only [UserEntity.format, withHash, String.data_append] at h2
  simp only [List.append_assoc, List.append_cancel_left_eq,
    List.append_cancel_right_eq] at h2
  exact String.ext h2

/-- The hashed password stands in the text `%v` prints for an entity. -/
theorem format_holds_hash (timeString : Time → String) (u : UserEntity) :
    ∃ pre post, UserEntity.format timeString u = pre ++ u.HashedPassword ++ post :=
  ⟨"\x7b" ++ u.ID ++ " " ++ u.FirstName ++ " " ++ u.LastName ++ " " ++ u.Email ++ " ",
    " " ++ u.Country ++ " " ++ u.Nickname ++ " " ++ timeString u.CreatedAt ++ " " ++
      timeString u.UpdatedAt ++ "\x7d",
    by simp only [UserEntity.format, String.append_assoc]⟩

/-- At the level of warnings the entries of `decodeChangeDocuments` do not depend on
the hashed passwords the decoder returns. -/
theorem written_decode_rehash (timeString : Time → String) (f : UserEntity → String)
    (unmarshal : Unmarshal) (changeDoc : Raw) :
    written commentLevel
        (decodeChangeDocuments.logs timeString (rehash f unmarshal) changeDoc) =
      written commentLevel (decodeChangeDocuments.logs timeString unmarshal changeDoc) := by
  unfold decodeChangeDocuments.logs
  simp only [written, List.filter_append]
  congr 1
  · cases changeDoc.Lookup "fullDocument" with
    | none => simp [IsLevelEnabled, logrus.Level.toNat, commentLevel]
    | some v =>
      cases v with
      | embeddedDocument value =>
        simp only [rehash]
        cases unmarshal value <;> simp [IsLevelEnabled, logrus.Level.toNat, commentLevel]
      | _ => simp [IsLevelEnabled, logrus.Level.toNat, commentLevel]
  · cases changeDoc.Lookup "fullDocumentBeforeChange" with
    | none => simp [IsLevelEnabled, logrus.Level.toNat, commentLevel]
    | some v =>
      cases v with
      | embeddedDocument value =>
        simp only [rehash]
        cases unmarshal value <;> simp [IsLevelEnabled, logrus.Level.toNat, commentLevel]
      | _ => simp [IsLevelEnabled, logrus.Level.toNat, commentLevel]

/-- At the level of warnings the entries of `processNextChange` do not depend on the
hashed passwords the decoder returns. -/
theorem written_process_rehash (rawString : Raw → String) (timeString : Time → String)
    (f : UserEntity → String) (unmarshal : Unmarshal) (next : NextResult) :
    written commentLevel
        (processNextChange.logs rawString timeString (rehash f unmarshal) next) =
      written commentLevel (processNextChange.logs rawString timeString unmarshal next) := by
  cases next with
  | stopped e => rfl
  | record cur =>
    cases cur with
    | none => rfl
    | some changeDoc =>
      have h := written_decode_rehash timeString f unmarshal changeDoc
      simp only [written] at h
      simp only [processNextChange.logs, written, List.filter_cons, h]

/-- An image that decodes is handed to the logger at the level of debugging, hashed
password included, and the server writes it. -/
theorem decoded_image_is_written (rawString : Raw → String) (timeString : Time → String)
    (unmarshal : Unmarshal) (changeDoc value : Raw) (usr : UserEntity)
    (hdoc : changeDoc.Lookup "fullDocument" = some (BsonValue.embeddedDocument value))
    (hdec : unmarshal value = Except.ok usr) :
    ({ level := logrus.Level.DebugLevel,
       message := "User decoded successfully: " ++ UserEntity.format timeString usr } :
        Entry) ∈
      written serverLevel
        (processNextChange.logs rawString timeString unmarshal
          (NextResult.record (some changeDoc))) := by
  simp [processNextChange.logs, decodeChangeDocuments.logs, written, hdoc, hdec,
    IsLevelEnabled, logrus.Level.toNat, serverLevel]

/-- C23, the code at the failing input: at the level `main.go` sets, the entries the
watcher writes for the insert of a user hold the decoded entity with its hashed
password `secret`; with another hashed password in the store the same event is pushed
and another log is written; every image that decodes is written so, the hashed
password standing in the text; at the level the comment in `main.go` names, what is
written does not depend on the hashed passwords. -/
theorem debug_log_carries_hashedPassword (rawString : Raw → String)
    (timeString : Time → String) :
    written serverLevel
        (processNextChange.logs rawString timeString exampleUnmarshal
          (NextResult.record (some insertRecord))) =
      [{ level := logrus.Level.DebugLevel,
         message := "Change doc: " ++ rawString insertRecord },
       { level := logrus.Level.DebugLevel,
         message := "User decoded successfully: " ++ UserEntity.format timeString annEntity },
       { level := logrus.Level.DebugLevel,
         message := "No previous fullDocumentBeforeChange in change stream." }] ∧
    UserEntity.format timeString annEntity =
      "\x7bu1 Ann Lee ann@mail.com secret IT annie " ++ timeString 1000000000 ++ " " ++
        timeString 1000000000 ++ "\x7d" ∧
    written serverLevel
        (processNextChange.logs rawString timeString
          (rehash (fun _ => "other") exampleUnmarshal)
          (NextResult.record (some insertRecord))) ≠
      written serverLevel
        (processNextChange.logs rawString timeString exampleUnmarshal
          (NextResult.record (some insertRecord))) ∧
    processNextChange (rehash (fun _ => "other") exampleUnmarshal)
        (NextResult.record (some insertRecord)) "e1" PushResult.received =
      processNextChange exampleUnmarshal (NextResult.record (some insertRecord)) "e1"
        PushResult.received ∧
    (∀ (unmarshal : Unmarshal) (changeDoc value : Raw) (usr : UserEntity),
      changeDoc.Lookup "fullDocument" = some (BsonValue.embeddedDocument value) →
      unmarshal value = Except.ok usr →
      ({ level := logrus.Level.DebugLevel,
         message := "User decoded successfully: " ++ UserEntity.format timeString usr } :
          Entry) ∈
        written serverLevel
          (processNextChange.logs rawString timeString unmarshal
            (NextResult.record (some changeDoc))) ∧
      ∃ pre post, UserEntity.format timeString usr = pre ++ usr.HashedPassword ++ post) ∧
    (∀ (f : UserEntity → String) (unmarshal : Unmarshal) (next : NextResult),
      written commentLevel
          (processNextChange.logs rawString timeString (rehash f unmarshal) next) =
        written commentLevel
          (processNextChange.logs rawString timeString unmarshal next)) := by
  have hother : written serverLevel
        (processNextChange.logs rawString timeString
          (rehash (fun _ => "other") exampleUnmarshal)
          (NextResult.record (some insertRecord))) =
      [{ level := logrus.Level.DebugLevel,
         message := "Change doc: " ++ rawString insertRecord },
       { level := logrus.Level.DebugLevel,
         message := "User decoded successfully: " ++
           UserEntity.format timeString (withHash (fun _ => "other") annEntity) },
       { level := logrus.Level.DebugLevel,
         message := "No previous fullDocumentBeforeChange in change stream." }] := rfl
  have hann : written serverLevel
        (processNextChange.logs rawString timeString exampleUnmarshal
          (NextResult.record (some insertRecord))) =
      [{ level := logrus.Level.DebugLevel,
         message := "Change doc: " ++ rawString insertRecord },
       { level := logrus.Level.DebugLevel,
         message := "User decoded successfully: " ++ UserEntity.format timeString annEntity },
       { level := logrus.Level.DebugLevel,
         message := "No previous fullDocumentBeforeChange in change stream." }] := rfl
  refine ⟨hann, ?_, ?_, processNextChange_rehash _ _ _ _ _, ?_, ?_⟩
  · simp only [UserEntity.format, annEntity, String.append_assoc]
    rfl
  · rw [hother, hann]
    intro h
    injection h with _ h
    injection h with h _
    injection h with _ h
    have h2 := format_withHash_inj timeString (fun _ => "other") annEntity
      (append_left_cancel _ _ _ h)
    exact absurd h2 (by decide)
  · intro unmarshal changeDoc value usr hdoc hdec
    exact ⟨decoded_image_is_written rawString timeString unmarshal changeDoc value usr
      hdoc hdec, format_holds_hash timeString usr⟩
  · intro f unmarshal next
    exact written_process_rehash rawString timeString f unmarshal next

end GoDddCrud
